import Mathlib

/-!
# Request-correlation engine of `ebpf/l7_req/l7.c`

A shallow embedding of the three tracepoint handlers `sys_enter_write`,
`sys_enter_read` and `sys_exit_read`, of the records they exchange and of the
BPF maps they share, followed by theorems about them.

Conventions of the embedding.

* Machine integers are natural numbers; a truncation or a wrap-around of the C
  code is an explicit `% 2 ^ w`.
* A BPF map is an association list of key/value pairs. The functions on maps
  assume, but do not require, that a key occurs once; they are written so that
  they behave as the map does on every list.
* The kernel helpers (`bpf_probe_read`, `bpf_map_*_elem`, `bpf_ktime_get_ns`,
  `bpf_get_current_pid_tgid`, `bpf_perf_event_output`) are not part of the
  program. What a helper reads from the world is a field of `Env`; what it does
  to a map is one of the map functions below.
* A handler runs to completion before the next one starts: the model is
  sequential. In particular the request `sys_exit_read` found keeps its contents
  after `bpf_map_delete_elem`, while the handler still reads it.
* The LRU hash map holds up to `max_entries` entries. What it evicts at an
  insertion is the kernel's choice (a batch of entries, also from a map that is
  not full) and is a field of `Env`; a map that would still exceed its capacity
  loses its least recently used entries. A lookup that finds a key counts as a
  use of it.
-/

namespace L7

/-! ## Constants -/

def PROTOCOL_UNKNOWN : Nat := 0
def PROTOCOL_HTTP : Nat := 1
def METHOD_GET : Nat := 1
def MAX_PAYLOAD_SIZE : Nat := 512

/-- Value of `max_entries` of the LRU hash map `active_l7_requests`. -/
def ACTIVE_L7_REQUESTS_MAX : Nat := 32768
/-- Value of `max_entries` of the hash map `active_reads`. -/
def ACTIVE_READS_MAX : Nat := 10240

/-! ## Records -/

/-- The record `struct l7_event`. -/
structure l7_event where
  fd : Nat
  pid : Nat
  status : Nat
  duration : Nat
  protocol : Nat
  method : Nat
  padding : Nat
  payload : List Nat
deriving DecidableEq, Repr

/-- The record `struct l7_request`. -/
structure l7_request where
  write_time_ns : Nat
  protocol : Nat
  method : Nat
  payload : List Nat
deriving DecidableEq, Repr

/-- The record `struct socket_key`. -/
structure socket_key where
  fd : Nat
  pid : Nat
deriving DecidableEq, Repr

/-- The record `struct read_args`; `buf` is the address held by the pointer. -/
structure read_args where
  fd : Nat
  buf : Nat
  size : Nat
deriving DecidableEq, Repr

/-- A zero-filled byte array of `n` bytes. -/
def zero_bytes (n : Nat) : List Nat := List.replicate n 0

/-- The zero-initialised `l7_event` a fresh per-CPU array slot holds. -/
def l7_event_zero : l7_event :=
  { fd := 0, pid := 0, status := 0, duration := 0, protocol := 0, method := 0,
    padding := 0, payload := zero_bytes MAX_PAYLOAD_SIZE }

/-- The zero-initialised `l7_request` a fresh per-CPU array slot holds. -/
def l7_request_zero : l7_request :=
  { write_time_ns := 0, protocol := 0, method := 0, payload := zero_bytes MAX_PAYLOAD_SIZE }

/-! ## BPF maps -/

/-- The abbreviation for a map as a list of entries, most recently used first. -/
abbrev BpfMap (K V : Type) := List (K × V)

/-- Value stored under `k`, as `bpf_map_lookup_elem` finds it in a hash map. -/
def map_lookup {K V : Type} [DecidableEq K] (k : K) : BpfMap K V → Option V
  | [] => none
  | (k', v) :: m => if k' = k then some v else map_lookup k m

/-- The map without the entries of `k`: `bpf_map_delete_elem`. -/
def map_delete {K V : Type} [DecidableEq K] (k : K) (m : BpfMap K V) : BpfMap K V :=
  m.filter (fun e => decide (e.1 ≠ k))

/-- Update of a `BPF_MAP_TYPE_HASH` map of `cap` entries with flag `BPF_ANY`:
an existing key is overwritten; a new key is inserted while the map holds fewer
than `cap` entries; otherwise the call fails with `-E2BIG` (-7) and the map is
left as it was. The result is the helper's return value and the map. -/
def hash_update {K V : Type} [DecidableEq K] (cap : Nat) (k : K) (v : V)
    (m : BpfMap K V) : Int × BpfMap K V :=
  if (map_lookup k m).isSome then (0, (k, v) :: map_delete k m)
  else if m.length < cap then (0, (k, v) :: m)
  else (-7, m)

/-- Lookup in a `BPF_MAP_TYPE_LRU_HASH` map: the value found, and the map in
which the entry found has become the most recently used one. -/
def lru_lookup {K V : Type} [DecidableEq K] (k : K) (m : BpfMap K V) :
    Option V × BpfMap K V :=
  match map_lookup k m with
  | some v => (some v, (k, v) :: map_delete k m)
  | none => (none, m)

/-- Update of a `BPF_MAP_TYPE_LRU_HASH` map of `cap` entries with flag
`BPF_ANY`. Afterwards the key holds the value written, as the most recently
used entry, and an entry it had before is gone. To find room the kernel evicts
other entries: a batch of them at a time, and, its free lists being per CPU,
also before the map holds `cap` entries. Which entries go is not decided by the
program: `evict` tells, key by key, whether the kernel evicts the entry during
this call. In no case does the map hold more than `cap` entries: of what the
kernel has left, the `cap - 1` most recently used entries stay. The result is
the helper's return value and the map. -/
def lru_update {K V : Type} [DecidableEq K] (cap : Nat) (evict : K → Bool) (k : K) (v : V)
    (m : BpfMap K V) : Int × BpfMap K V :=
  (0, (k, v) :: (((map_delete k m).filter (fun e => !evict e.1)).take (cap - 1)))

/-- Lookup of index `key` in a `BPF_MAP_TYPE_PERCPU_ARRAY` of one entry, on
CPU `cpu`: the slot of that CPU when `key` is 0, nothing otherwise. -/
def percpu_array_lookup {V : Type} (heap : Nat → V) (cpu : Nat) (key : Nat) : Option V :=
  if key < 1 then some (heap cpu) else none

/-! ## The world a handler observes -/

/-- What the helpers read from the world during one handler invocation. -/
structure Env where
  /-- Result of `bpf_get_current_pid_tgid()`, a 64-bit value. -/
  pid_tgid : Nat
  /-- Result of `bpf_ktime_get_ns()`, a 64-bit value. -/
  ktime_ns : Nat
  /-- The CPU the handler runs on. -/
  cpu : Nat
  /-- The memory of the traced process: the byte at an address, or `none`
  where a read faults. -/
  mem : Nat → Option Nat
  /-- Whether `bpf_perf_event_output` accepts the record. -/
  perf_ok : Bool
  /-- The keys whose entries the LRU map `active_l7_requests` evicts when the
  handler inserts into it. The kernel evicts in batches and not only from a
  full map; the program has no say in it. -/
  lru_evict : socket_key → Bool := fun _ => false

/-- The helper `bpf_probe_read(dst, size, src)`: the return value and the
contents of `dst` afterwards. All `size` bytes are copied when every address of
the range can be read; otherwise the helper returns `-EFAULT` (-14) and fills
`dst` with zeros, as the kernel does. -/
def bpf_probe_read (mem : Nat → Option Nat) (size : Nat) (src : Nat) : Int × List Nat :=
  if (List.range size).all (fun i => (mem (src + i)).isSome) then
    (0, (List.range size).map (fun i => (mem (src + i)).getD 0))
  else (-14, zero_bytes size)

/-- Subtraction of two 64-bit unsigned values, as C computes it. -/
def u64_sub (a b : Nat) : Nat := (a % 2 ^ 64 + (2 ^ 64 - b % 2 ^ 64)) % 2 ^ 64

/-- Arguments of the tracepoint `sys_enter_write`. -/
structure trace_event_raw_sys_enter_write where
  fd : Nat
  buf : Nat
  count : Nat
deriving DecidableEq, Repr

/-- Arguments of the tracepoint `sys_enter_read`. -/
structure trace_event_raw_sys_enter_read where
  fd : Nat
  buf : Nat
  count : Nat
deriving DecidableEq, Repr

/-- Arguments of the tracepoint `sys_exit_read`. -/
structure trace_event_raw_sys_exit_read where
  ret : Int
deriving DecidableEq, Repr

/-! ## State and handlers -/

/-- The maps of the program. -/
structure State where
  /-- The map `active_l7_requests` (LRU hash, 32768 entries). -/
  active_l7_requests : BpfMap socket_key l7_request
  /-- The map `active_reads` (hash, 10240 entries), keyed by `pid_tgid`. -/
  active_reads : BpfMap Nat read_args
  /-- The map `l7_request_heap`: one scratch `l7_request` per CPU. -/
  l7_request_heap : Nat → l7_request
  /-- The map `l7_event_heap`: one scratch `l7_event` per CPU. -/
  l7_event_heap : Nat → l7_event

/-- The state in which the program is loaded: empty tables, zeroed scratch. -/
def State.init : State :=
  { active_l7_requests := [], active_reads := [],
    l7_request_heap := fun _ => l7_request_zero,
    l7_event_heap := fun _ => l7_event_zero }

/-- What one handler invocation leaves behind. -/
structure Outcome where
  /-- The maps afterwards. -/
  state : State
  /-- The handler's return value. -/
  ret : Int
  /-- The records handed to `bpf_perf_event_output`, in order. -/
  emitted : List l7_event
  /-- The records the perf buffer accepted. -/
  delivered : List l7_event

/-- The state in which the scratch request of `cpu` is `req`. -/
def State.set_request_heap (s : State) (cpu : Nat) (req : l7_request) : State :=
  { s with l7_request_heap := Function.update s.l7_request_heap cpu req }

/-- The state in which the scratch event of `cpu` is `e`. -/
def State.set_event_heap (s : State) (cpu : Nat) (e : l7_event) : State :=
  { s with l7_event_heap := Function.update s.l7_event_heap cpu e }

/-- The key `k` both read handlers and the write handler build:
`k.pid = id >> 32` (stored in 32 bits), `k.fd = fd`. -/
def mk_socket_key (id : Nat) (fd : Nat) : socket_key :=
  { pid := (id >>> 32) % 2 ^ 32, fd := fd }

/-- The handler `sys_enter_write`. -/
def sys_enter_write (env : Env) (ctx : trace_event_raw_sys_enter_write) (s : State) :
    Outcome :=
  let id := env.pid_tgid
  match percpu_array_lookup s.l7_request_heap env.cpu 0 with
  | none => { state := s, ret := 0, emitted := [], delivered := [] }
  | some req =>
    -- `req` points into the per-CPU slot: each store below is a store to the map
    let req := { req with protocol := PROTOCOL_UNKNOWN }
    let req := { req with write_time_ns := env.ktime_ns }
    let s := s.set_request_heap env.cpu req
    let k := mk_socket_key id ctx.fd
    if ctx.buf ≠ 0 then
      let rd := bpf_probe_read env.mem 16 ctx.buf
      if rd.1 < 0 then
        { state := s, ret := 0, emitted := [], delivered := [] }
      else if ¬ (rd.2.getD 0 0 = 71 ∧ rd.2.getD 1 0 = 69 ∧ rd.2.getD 2 0 = 84) then
        { state := s, ret := 0, emitted := [], delivered := [] }
      else
        -- buffer starts with GET
        let req := { req with protocol := PROTOCOL_HTTP }
        let req := { req with method := METHOD_GET }
        -- copy request payload; the helper's return value is not looked at
        let req := { req with payload := (bpf_probe_read env.mem MAX_PAYLOAD_SIZE ctx.buf).2 }
        let s := s.set_request_heap env.cpu req
        let res := lru_update ACTIVE_L7_REQUESTS_MAX env.lru_evict k req s.active_l7_requests
        let s := { s with active_l7_requests := res.2 }
        -- `res < 0` is only traced
        { state := s, ret := 0, emitted := [], delivered := [] }
    else
      { state := s, ret := 0, emitted := [], delivered := [] }

/-- The handler `sys_enter_read`. -/
def sys_enter_read (env : Env) (ctx : trace_event_raw_sys_enter_read) (s : State) :
    Outcome :=
  let id := env.pid_tgid
  let k := mk_socket_key id ctx.fd
  -- assume process is reading from the same socket it wrote to
  let found := lru_lookup k s.active_l7_requests
  let s := { s with active_l7_requests := found.2 }
  match found.1 with
  | none => { state := s, ret := 0, emitted := [], delivered := [] }
  | some _ =>
    let args : read_args := { fd := ctx.fd, buf := ctx.buf, size := ctx.count }
    -- the helper's return value is not looked at
    let upd := hash_update ACTIVE_READS_MAX id args s.active_reads
    { state := { s with active_reads := upd.2 }, ret := 0, emitted := [], delivered := [] }

/-- The handler `sys_exit_read`. -/
def sys_exit_read (env : Env) (ctx : trace_event_raw_sys_exit_read) (s : State) :
    Outcome :=
  if ctx.ret ≤ 0 then
    -- read failed
    { state := s, ret := 0, emitted := [], delivered := [] }
  else
    let id := env.pid_tgid
    match map_lookup id s.active_reads with
    | none => { state := s, ret := 0, emitted := [], delivered := [] }
    | some read_info =>
      let k := mk_socket_key id read_info.fd
      let found := lru_lookup k s.active_l7_requests
      let s := { s with active_l7_requests := found.2 }
      match found.1 with
      | none => { state := s, ret := 0, emitted := [], delivered := [] }
      | some active_req =>
        let s := { s with active_reads := map_delete id s.active_reads }
        let s := { s with active_l7_requests := map_delete k s.active_l7_requests }
        match percpu_array_lookup s.l7_event_heap env.cpu 0 with
        | none => { state := s, ret := 0, emitted := [], delivered := [] }
        | some e =>
          let e := { e with fd := k.fd }
          let e := { e with pid := k.pid }
          let e := { e with method := active_req.method }
          -- copy req payload: the source is the map value, a read of it cannot fault
          let e := { e with payload := active_req.payload }
          let e := { e with protocol := active_req.protocol }
          let e := { e with duration := u64_sub env.ktime_ns active_req.write_time_ns }
          let s := s.set_event_heap env.cpu e
          { state := s, ret := 0, emitted := [e],
            delivered := if env.perf_ok then [e] else [] }

/-! ## Sequences of handler invocations -/

/-- One handler invocation together with what it observes. -/
inductive Call where
  | enter_write (env : Env) (ctx : trace_event_raw_sys_enter_write)
  | enter_read (env : Env) (ctx : trace_event_raw_sys_enter_read)
  | exit_read (env : Env) (ctx : trace_event_raw_sys_exit_read)

/-- The handler a call invokes. -/
def step (s : State) : Call → Outcome
  | .enter_write env ctx => sys_enter_write env ctx s
  | .enter_read env ctx => sys_enter_read env ctx s
  | .exit_read env ctx => sys_exit_read env ctx s

/-- The state after a sequence of calls, and all the records emitted on the way. -/
def run (s : State) : List Call → State × List l7_event
  | [] => (s, [])
  | c :: cs =>
    let o := step s c
    let r := run o.state cs
    (r.1, o.emitted ++ r.2)

/-- The memory that holds the bytes `bytes` from address `base` on, then `n`
bytes of value `fill`, and that faults everywhere else. -/
def mem_of (base : Nat) (bytes : List Nat) (n : Nat) (fill : Nat) : Nat → Option Nat :=
  fun a =>
    if a < base then none
    else if a < base + bytes.length then bytes.get? (a - base)
    else if a < base + bytes.length + n then some fill
    else none

/-! ## Notions the theorems are stated with -/

/-- The request `sys_enter_write` stores for a write it classifies as a GET. -/
def get_request (env : Env) (ctx : trace_event_raw_sys_enter_write) : l7_request :=
  { write_time_ns := env.ktime_ns, protocol := PROTOCOL_HTTP, method := METHOD_GET,
    payload := (bpf_probe_read env.mem MAX_PAYLOAD_SIZE ctx.buf).2 }

/-- The guards of `sys_enter_write` all pass: the buffer reference is not null,
the 16-byte copy succeeds and the copy starts with the bytes of `GET`. -/
def classified_get (env : Env) (ctx : trace_event_raw_sys_enter_write) : Prop :=
  ctx.buf ≠ 0 ∧ ¬ (bpf_probe_read env.mem 16 ctx.buf).1 < 0 ∧
    ((bpf_probe_read env.mem 16 ctx.buf).2.getD 0 0 = 71 ∧
      (bpf_probe_read env.mem 16 ctx.buf).2.getD 1 0 = 69 ∧
      (bpf_probe_read env.mem 16 ctx.buf).2.getD 2 0 = 84)

instance classified_get_decidable (env : Env) (ctx : trace_event_raw_sys_enter_write) :
    Decidable (classified_get env ctx) := by
  unfold classified_get; infer_instance

/-- The buffer at `buf` starts with the bytes `G`, `E`, `T`. -/
def starts_with_get (mem : Nat → Option Nat) (buf : Nat) : Prop :=
  mem buf = some 71 ∧ mem (buf + 1) = some 69 ∧ mem (buf + 2) = some 84

instance starts_with_get_decidable (mem : Nat → Option Nat) (buf : Nat) :
    Decidable (starts_with_get mem buf) := by
  unfold starts_with_get; infer_instance

/-- A write the classifier tracks, said of the memory: the buffer reference is
not null, the sixteen bytes the classifier copies can be read and the buffer
starts with `GET`. -/
def get_prefixed_write (env : Env) (ctx : trace_event_raw_sys_enter_write) : Prop :=
  ctx.buf ≠ 0 ∧ (∀ i < 16, (env.mem (ctx.buf + i)).isSome) ∧ starts_with_get env.mem ctx.buf

instance get_prefixed_write_decidable (env : Env) (ctx : trace_event_raw_sys_enter_write) :
    Decidable (get_prefixed_write env ctx) := by
  unfold get_prefixed_write; infer_instance

/-- The record `sys_exit_read` assembles in the scratch event `scratch` from the
key `k`, the request `req` found under it and the time `now`. -/
def make_event (scratch : l7_event) (k : socket_key) (req : l7_request) (now : Nat) :
    l7_event :=
  { fd := k.fd, pid := k.pid, status := scratch.status,
    duration := u64_sub now req.write_time_ns, protocol := req.protocol,
    method := req.method, padding := scratch.padding, payload := req.payload }

/-- A full correlation at `sys_exit_read`: the read returned data,
`active_reads` holds an entry for the context, and `active_l7_requests` holds
one under the key made of the pid of the context and the fd of that entry. -/
def full_match (env : Env) (ctx : trace_event_raw_sys_exit_read) (s : State) : Prop :=
  0 < ctx.ret ∧ ∃ read_info, map_lookup env.pid_tgid s.active_reads = some read_info ∧
    ∃ req, map_lookup (mk_socket_key env.pid_tgid read_info.fd) s.active_l7_requests = some req

/-- Number of entries of the map stored under `k`. -/
def map_count {K V : Type} [DecidableEq K] (k : K) (m : BpfMap K V) : Nat :=
  m.countP (fun e => decide (e.1 = k))

/-- The scratch events all have `status = 0`. -/
def status_zero (s : State) : Prop := ∀ cpu, (s.l7_event_heap cpu).status = 0

/-- The payload as the specification words it: the first `min len 512` bytes of
the write buffer at `buf`, the remaining bytes zero. -/
def spec_payload (mem : Nat → Option Nat) (buf len : Nat) : List Nat :=
  (List.range MAX_PAYLOAD_SIZE).map
    (fun i => if i < min len MAX_PAYLOAD_SIZE then (mem (buf + i)).getD 0 else 0)

/-! ## Concrete calls used as examples -/

/-- The bytes of `GET /x HTTP/1.1\r\n\r\n`. -/
def ex_get_bytes : List Nat :=
  [71, 69, 84, 32, 47, 120, 32, 72, 84, 84, 80, 47, 49, 46, 49, 13, 10, 13, 10]

/-- The bytes of `POST /x HTTP/1.1\r\n`. -/
def ex_post_bytes : List Nat :=
  [80, 79, 83, 84, 32, 47, 120, 32, 72, 84, 84, 80, 47, 49, 46, 49, 13, 10]

/-- Context id of thread 100 of process 100. -/
def ex_id : Nat := 100 * 2 ^ 32 + 100

/-- A write-entry at time 0 by `ex_id`: the 19 bytes of the request lie at
address 4096 and are followed by 600 bytes `Z` of the same mapping. -/
def ex_env_write : Env :=
  { pid_tgid := ex_id, ktime_ns := 0, cpu := 0, mem := mem_of 4096 ex_get_bytes 600 90,
    perf_ok := true }

/-- The write of the 19 bytes at address 4096 to fd 5. -/
def ex_write : trace_event_raw_sys_enter_write := { fd := 5, buf := 4096, count := 19 }

/-- A read-entry at time 1 ms by `ex_id`. -/
def ex_env_read : Env :=
  { pid_tgid := ex_id, ktime_ns := 1000000, cpu := 1, mem := fun _ => none, perf_ok := true }

/-- The read of up to 1024 bytes from fd 5 into address 8192. -/
def ex_read : trace_event_raw_sys_enter_read := { fd := 5, buf := 8192, count := 1024 }

/-- A read-exit at time 5 ms by `ex_id`. -/
def ex_env_exit : Env :=
  { pid_tgid := ex_id, ktime_ns := 5000000, cpu := 1, mem := fun _ => none, perf_ok := true }

/-- The read returned 200 bytes. -/
def ex_exit : trace_event_raw_sys_exit_read := { ret := 200 }

/-- The read failed with `-EAGAIN`. -/
def ex_exit_eagain : trace_event_raw_sys_exit_read := { ret := -11 }

/-- A write-entry like `ex_env_write` in which the mapping ends with the 19
bytes of the request: the 16 bytes of the classifier can be read, 512 cannot. -/
def ex_env_write_short : Env :=
  { pid_tgid := ex_id, ktime_ns := 0, cpu := 0, mem := mem_of 4096 ex_get_bytes 0 0,
    perf_ok := true }

/-- A second write-entry by `ex_id`, at time 3 ms: the 19 bytes of the request
lie at address 4096 and are followed by 600 bytes `Y`. -/
def ex_env_write_second : Env :=
  { pid_tgid := ex_id, ktime_ns := 3000000, cpu := 0,
    mem := mem_of 4096 ex_get_bytes 600 89, perf_ok := true }

/-- A write-entry at time 2 ms by `ex_id` whose buffer at address 4096 holds
the 18 bytes of `POST /x HTTP/1.1\r\n`. -/
def ex_env_write_post : Env :=
  { pid_tgid := ex_id, ktime_ns := 2000000, cpu := 0, mem := mem_of 4096 ex_post_bytes 0 0,
    perf_ok := true }

/-- The write of those 18 bytes to fd 5. -/
def ex_write_post : trace_event_raw_sys_enter_write := { fd := 5, buf := 4096, count := 18 }

/-- The write of those 18 bytes to fd 7. -/
def ex_write_fd7 : trace_event_raw_sys_enter_write := { fd := 7, buf := 4096, count := 18 }

/-- The read of up to 1024 bytes from fd 7 into address 8192. -/
def ex_read_fd7 : trace_event_raw_sys_enter_read := { fd := 7, buf := 8192, count := 1024 }

/-- A write-entry by `ex_id` whose buffer is the three bytes `GET` at the very
end of a mapping: sixteen bytes cannot be read at it. -/
def ex_env_write_edge : Env :=
  { pid_tgid := ex_id, ktime_ns := 4000000, cpu := 0, mem := mem_of 4096 [71, 69, 84] 0 0,
    perf_ok := true }

/-- The write of those three bytes to fd 5. -/
def ex_write_edge : trace_event_raw_sys_enter_write := { fd := 5, buf := 4096, count := 3 }

/-- A write-entry like `ex_env_write_edge`, at time 0. -/
def ex_env_write_edge_first : Env := { ex_env_write_edge with ktime_ns := 0 }

/-- The state after the GET write to fd 5 and the read-entry on fd 5. -/
def ex_state_reading : State :=
  (run State.init [.enter_write ex_env_write ex_write, .enter_read ex_env_read ex_read]).1

/-- The state after the GET write to fd 5, the read-entry on fd 5 and its
read-exit with `-EAGAIN`. -/
def ex_state_after_eagain : State :=
  (run State.init [.enter_write ex_env_write ex_write, .enter_read ex_env_read ex_read,
    .exit_read ex_env_exit ex_exit_eagain]).1

/-- Context id of thread 101 of process 100. -/
def ex_id_b : Nat := 100 * 2 ^ 32 + 101

/-- A read-entry at time 1 ms by `ex_id_b`. -/
def ex_env_read_b : Env :=
  { pid_tgid := ex_id_b, ktime_ns := 1000000, cpu := 2, mem := fun _ => none, perf_ok := true }

/-- A read-exit at time 6 ms by `ex_id_b`. -/
def ex_env_exit_b : Env :=
  { pid_tgid := ex_id_b, ktime_ns := 6000000, cpu := 2, mem := fun _ => none, perf_ok := true }

/-- The state after the GET write to fd 5, the read-entries on fd 5 of the two
threads `ex_id` and `ex_id_b`, and the read-exit of `ex_id` with 200 bytes. -/
def ex_state_two_readers : State :=
  (run State.init [.enter_write ex_env_write ex_write, .enter_read ex_env_read ex_read,
    .enter_read ex_env_read_b ex_read, .exit_read ex_env_exit ex_exit]).1

/-- The three calls made on one socket: the write, the read-entry and the
read-exit, each with what it observes. -/
structure Session where
  ew : Env
  w : trace_event_raw_sys_enter_write
  er : Env
  r : trace_event_raw_sys_enter_read
  ex : Env
  x : trace_event_raw_sys_exit_read

/-- The call of a session that has made `phase` calls already: the write, then
the read-entry, then the read-exit. -/
def Session.call (σ : Session) (phase : Nat) : Call :=
  if phase = 0 then .enter_write σ.ew σ.w
  else if phase = 1 then .enter_read σ.er σ.r
  else .exit_read σ.ex σ.x

/-- The key of the socket of a session. -/
def Session.key (σ : Session) : socket_key := mk_socket_key σ.ew.pid_tgid σ.w.fd

/-- The calls of a schedule. A schedule is a list of socket numbers: each
element lets that socket make its next call. `ph i` is the number of calls
socket `i` has made before. -/
def interleave (S : Nat → Session) : List Nat → (Nat → Nat) → List Call
  | [], _ => []
  | i :: rest, ph => (S i).call (ph i) :: interleave S rest (Function.update ph i (ph i + 1))

/-- The number of calls each socket has made after a schedule. -/
def phases_after : List Nat → (Nat → Nat) → (Nat → Nat)
  | [], ph => ph
  | i :: rest, ph => phases_after rest (Function.update ph i (ph i + 1))

/-- Number of sockets below `N` whose read has entered and not exited. -/
def in_flight (N : Nat) (ph : Nat → Nat) : Nat :=
  (List.range N).countP (fun j => decide (ph j = 2))

/-- Number of sockets below `N` whose write is made and whose read has not
exited. -/
def pending (N : Nat) (ph : Nat → Nat) : Nat :=
  (List.range N).countP (fun j => decide (ph j = 1 ∨ ph j = 2))

/-- The schedule is an interleaving of the calls of the sockets below `N`:
each step is by a socket below `N` that has a call left, and no context starts
a read-entry while a read it entered has not exited. -/
def interleaving_ok (S : Nat → Session) (N : Nat) : List Nat → (Nat → Nat) → Prop
  | [], _ => True
  | i :: rest, ph =>
    i < N ∧ ph i < 3 ∧
      (ph i = 1 → ∀ j < N, ph j = 2 → (S j).er.pid_tgid ≠ (S i).er.pid_tgid) ∧
      interleaving_ok S N rest (Function.update ph i (ph i + 1))

/-- At each read-entry of the schedule fewer than `cap` reads are in flight. -/
def reads_in_flight_below (N cap : Nat) : List Nat → (Nat → Nat) → Prop
  | [], _ => True
  | i :: rest, ph =>
    (ph i = 1 → in_flight N ph < cap) ∧
      reads_in_flight_below N cap rest (Function.update ph i (ph i + 1))

/-- The sessions are those of sockets of the process `pid`: the write starts
with `GET`, the read is on the fd of the write, writer and reader are contexts
of `pid`, the read-exit is by the context of the read-entry and returns data,
and the clock is a 64-bit one that does not run backwards. -/
def Session.ok (pid : Nat) (σ : Session) : Prop :=
  get_prefixed_write σ.ew σ.w ∧ σ.r.fd = σ.w.fd ∧
    (mk_socket_key σ.ew.pid_tgid σ.w.fd).pid = pid ∧
    (mk_socket_key σ.er.pid_tgid σ.r.fd).pid = pid ∧
    σ.ex.pid_tgid = σ.er.pid_tgid ∧ 0 < σ.x.ret ∧
    σ.ew.ktime_ns ≤ σ.ex.ktime_ns ∧ σ.ex.ktime_ns < 2 ^ 64

/-- The event a session is to give, made of the calls of that session alone. -/
def Session.event (pid : Nat) (σ : Session) : l7_event :=
  { fd := σ.w.fd, pid := pid, status := 0, duration := σ.ex.ktime_ns - σ.ew.ktime_ns,
    protocol := PROTOCOL_HTTP, method := METHOD_GET, padding := 0,
    payload := (bpf_probe_read σ.ew.mem MAX_PAYLOAD_SIZE σ.w.buf).2 }

/-- The events of the read-exits of a schedule, in the order of the schedule. -/
def exit_events (S : Nat → Session) (pid : Nat) : List Nat → (Nat → Nat) → List l7_event
  | [], _ => []
  | i :: rest, ph =>
    (if ph i = 2 then [(S i).event pid] else []) ++
      exit_events S pid rest (Function.update ph i (ph i + 1))

/-- Socket `i` of process 100, served by thread `i`: the write of the GET
request to fd `i` at time `i`, the read-entry at 1 ms + `i`, the read-exit with
200 bytes at 5 ms + `i`. -/
def ex_session (i : Nat) : Session :=
  { ew := { pid_tgid := 100 * 2 ^ 32 + i, ktime_ns := i, cpu := 0,
            mem := mem_of 4096 ex_get_bytes 600 90, perf_ok := true },
    w := { fd := i, buf := 4096, count := 19 },
    er := { pid_tgid := 100 * 2 ^ 32 + i, ktime_ns := 1000000 + i, cpu := 1,
            mem := fun _ => none, perf_ok := true },
    r := { fd := i, buf := 8192, count := 1024 },
    ex := { pid_tgid := 100 * 2 ^ 32 + i, ktime_ns := 5000000 + i, cpu := 1,
            mem := fun _ => none, perf_ok := true },
    x := { ret := 200 } }

/-- What holds of the state while the sockets below `N` are served, `ph i`
being the number of calls socket `i` has made: a socket has its request in the
table from its write to its read-exit and not otherwise, a socket whose read is
in flight has the entry of its reader in `active_reads`, readers of reads in
flight are distinct, the table holds no more entries than there are pending
sockets and `active_reads` no more than there are reads in flight, and the
scratch events have `status` and `padding` zero. -/
def sockets_inv (S : Nat → Session) (N : Nat) (s : State) (ph : Nat → Nat) : Prop :=
  (∀ i < N, (ph i = 0 ∨ 3 ≤ ph i) → map_lookup (S i).key s.active_l7_requests = none) ∧
  (∀ i < N, (ph i = 1 ∨ ph i = 2) →
    map_lookup (S i).key s.active_l7_requests = some (get_request (S i).ew (S i).w)) ∧
  (∀ i < N, ph i = 2 →
    map_lookup (S i).er.pid_tgid s.active_reads =
      some { fd := (S i).r.fd, buf := (S i).r.buf, size := (S i).r.count }) ∧
  (∀ i < N, ∀ j < N, i ≠ j → ph i = 2 → ph j = 2 →
    (S i).er.pid_tgid ≠ (S j).er.pid_tgid) ∧
  s.active_l7_requests.length ≤ pending N ph ∧
  s.active_reads.length ≤ in_flight N ph ∧
  (∀ cpu, (s.l7_event_heap cpu).status = 0 ∧ (s.l7_event_heap cpu).padding = 0)

/-- The entry the write of `ex_session i` puts in the table. -/
def ex_entry (i : Nat) : socket_key × l7_request :=
  (mk_socket_key (ex_session i).ew.pid_tgid (ex_session i).w.fd,
    get_request (ex_session i).ew (ex_session i).w)

/-- The write-entry of socket `i` during which the kernel evicts from the table
the entries of the fds below 128: a batch of 128 entries. -/
def ex_env_write_evicting (i : Nat) : Env :=
  { (ex_session i).ew with lru_evict := fun k => decide (k.fd < 128) }

/-- GET writes to the sockets 0, ..., `n - 1` of process 100, in this order. -/
def ex_writes (n : Nat) : List Call :=
  (List.range n).map (fun i => Call.enter_write (ex_session i).ew (ex_session i).w)

/-- Thread `c` enters a read on fd `c`, which fails with `-EAGAIN`. -/
def ex_failed_read (c : Nat) : List Call :=
  [Call.enter_read (ex_session c).er (ex_session c).r,
   Call.exit_read (ex_session c).ex ex_exit_eagain]

/-- Thread `c` reads 200 bytes from fd 0. -/
def ex_read_fd0 (c : Nat) : List Call :=
  [Call.enter_read (ex_session c).er (ex_session 0).r,
   Call.exit_read (ex_session c).ex (ex_session c).x]

/-- A read-entry by `ex_id` like `ex_env_read`, with another memory. -/
def ex_env_read_other : Env :=
  { pid_tgid := ex_id, ktime_ns := 1500000, cpu := 3, mem := mem_of 8192 ex_post_bytes 0 0,
    perf_ok := true }

/-- A read-exit by `ex_id` at 5 ms like `ex_env_exit`, with another memory. -/
def ex_env_exit_other : Env :=
  { pid_tgid := ex_id, ktime_ns := 5000000, cpu := 1, mem := mem_of 12288 ex_post_bytes 0 0,
    perf_ok := true }

/-- A read-entry on fd 5 by thread 7 of process 200. -/
def ex_env_read_pid200 : Env :=
  { pid_tgid := 200 * 2 ^ 32 + 7, ktime_ns := 1000000, cpu := 1, mem := fun _ => none,
    perf_ok := true }

/-- A read-exit by thread 7 of process 200. -/
def ex_env_exit_pid200 : Env :=
  { pid_tgid := 200 * 2 ^ 32 + 7, ktime_ns := 5000000, cpu := 1, mem := fun _ => none,
    perf_ok := true }

instance interleaving_ok_decidable (S : Nat → Session) (N : Nat) :
    ∀ (sched : List Nat) (ph : Nat → Nat), Decidable (interleaving_ok S N sched ph)
  | [], _ => isTrue True.intro
  | i :: rest, ph =>
    have := interleaving_ok_decidable S N rest (Function.update ph i (ph i + 1))
    inferInstanceAs (Decidable (i < N ∧ ph i < 3 ∧
      (ph i = 1 → ∀ j < N, ph j = 2 → (S j).er.pid_tgid ≠ (S i).er.pid_tgid) ∧
      interleaving_ok S N rest (Function.update ph i (ph i + 1))))

instance reads_in_flight_below_decidable (N cap : Nat) :
    ∀ (sched : List Nat) (ph : Nat → Nat), Decidable (reads_in_flight_below N cap sched ph)
  | [], _ => isTrue True.intro
  | i :: rest, ph =>
    have := reads_in_flight_below_decidable N cap rest (Function.update ph i (ph i + 1))
    inferInstanceAs (Decidable ((ph i = 1 → in_flight N ph < cap) ∧
      reads_in_flight_below N cap rest (Function.update ph i (ph i + 1))))

/-- Two sockets served side by side: the write of socket 0, the write and the
read-entry of socket 1, the read-entry of socket 0, the read-exit of socket 1,
the read-exit of socket 0. -/
def ex_two_sockets : List Nat := [0, 1, 1, 0, 1, 0]

/-! ## Lemmas on maps -/

section maps
variable {K V : Type} [DecidableEq K]

theorem map_lookup_cons_self (k : K) (v : V) (m : BpfMap K V) :
    map_lookup k ((k, v) :: m) = some v := by
  simp [map_lookup]

theorem map_lookup_cons_ne {k k' : K} (v : V) (m : BpfMap K V) (h : k' ≠ k) :
    map_lookup k ((k', v) :: m) = map_lookup k m := by
  simp [map_lookup, h]

theorem map_delete_cons (k k' : K) (v : V) (m : BpfMap K V) :
    map_delete k ((k', v) :: m) =
      if k' = k then map_delete k m else (k', v) :: map_delete k m := by
  by_cases h : k' = k <;> simp [map_delete, h]

theorem map_lookup_delete_self (k : K) (m : BpfMap K V) :
    map_lookup k (map_delete k m) = none := by
  induction m with
  | nil => rfl
  | cons e m ih =>
    obtain ⟨k', v⟩ := e
    rw [map_delete_cons]
    by_cases h : k' = k
    · rw [if_pos h]; exact ih
    · rw [if_neg h, map_lookup, if_neg h]; exact ih

theorem map_lookup_delete_ne {k k' : K} (m : BpfMap K V) (h : k' ≠ k) :
    map_lookup k' (map_delete k m) = map_lookup k' m := by
  induction m with
  | nil => rfl
  | cons e m ih =>
    obtain ⟨k₀, v⟩ := e
    rw [map_delete_cons]
    by_cases h₀ : k₀ = k
    · have h₁ : k₀ ≠ k' := fun h₁ => h (h₁ ▸ h₀)
      rw [if_pos h₀, ih, map_lookup, if_neg h₁]
    · rw [if_neg h₀]
      by_cases h₁ : k₀ = k'
      · rw [map_lookup, if_pos h₁, map_lookup, if_pos h₁]
      · rw [map_lookup, if_neg h₁, ih, map_lookup, if_neg h₁]

theorem map_delete_cons_self (k : K) (v : V) (m : BpfMap K V) :
    map_delete k ((k, v) :: m) = map_delete k m := by
  rw [map_delete_cons, if_pos rfl]

theorem map_delete_idem (k : K) (m : BpfMap K V) :
    map_delete k (map_delete k m) = map_delete k m := by
  simp [map_delete, List.filter_filter]

theorem map_delete_of_lookup_none {k : K} {m : BpfMap K V} (h : map_lookup k m = none) :
    map_delete k m = m := by
  induction m with
  | nil => rfl
  | cons e m ih =>
    obtain ⟨k', v⟩ := e
    by_cases h' : k' = k
    · rw [map_lookup, if_pos h'] at h; exact absurd h (by simp)
    · rw [map_lookup, if_neg h'] at h
      rw [map_delete_cons, if_neg h', ih h]

theorem lru_lookup_fst (k : K) (m : BpfMap K V) : (lru_lookup k m).1 = map_lookup k m := by
  unfold lru_lookup
  cases map_lookup k m <;> rfl

theorem lru_lookup_snd_none {k : K} {m : BpfMap K V} (h : map_lookup k m = none) :
    (lru_lookup k m).2 = m := by
  simp [lru_lookup, h]

theorem lru_lookup_snd_some {k : K} {m : BpfMap K V} {v : V} (h : map_lookup k m = some v) :
    (lru_lookup k m).2 = (k, v) :: map_delete k m := by
  simp [lru_lookup, h]

/-- A lookup in the LRU map changes the order of use, never what is stored. -/
theorem map_lookup_lru_lookup (k k' : K) (m : BpfMap K V) :
    map_lookup k' (lru_lookup k m).2 = map_lookup k' m := by
  cases h : map_lookup k m with
  | none => rw [lru_lookup_snd_none h]
  | some v =>
    rw [lru_lookup_snd_some h]
    by_cases hk : k = k'
    · subst hk; rw [map_lookup_cons_self, h]
    · rw [map_lookup_cons_ne _ _ hk, map_lookup_delete_ne _ (Ne.symm hk)]

theorem map_delete_lru_lookup (k : K) (m : BpfMap K V) :
    map_delete k (lru_lookup k m).2 = map_delete k m := by
  cases h : map_lookup k m with
  | none => rw [lru_lookup_snd_none h]
  | some v => rw [lru_lookup_snd_some h, map_delete_cons_self, map_delete_idem]

/-- What an update of the LRU map leaves of the entries the map had. -/
theorem mem_lru_update_rest {cap : Nat} {evict : K → Bool} {k : K} {m : BpfMap K V}
    {e : K × V}
    (he : e ∈ ((map_delete k m).filter (fun e => !evict e.1)).take (cap - 1)) :
    e ∈ m ∧ e.1 ≠ k ∧ evict e.1 = false := by
  have h₁ := List.mem_filter.mp (List.take_subset _ _ he)
  have h₂ := List.mem_filter.mp h₁.1
  exact ⟨h₂.1, by simpa using h₂.2, by simpa using h₁.2⟩

/-- After an update of the LRU map the key holds the value written. -/
theorem map_lookup_lru_update_self (cap : Nat) (evict : K → Bool) (k : K) (v : V)
    (m : BpfMap K V) : map_lookup k (lru_update cap evict k v m).2 = some v :=
  map_lookup_cons_self k v _

/-- An update of the hash map stores the value when the key is present or the
map has room. -/
theorem map_lookup_hash_update_self {cap : Nat} {k : K} (v : V) {m : BpfMap K V}
    (h : (map_lookup k m).isSome ∨ m.length < cap) :
    map_lookup k (hash_update cap k v m).2 = some v := by
  unfold hash_update
  split_ifs with h₁ h₂
  · exact map_lookup_cons_self k v _
  · exact map_lookup_cons_self k v _
  · rcases h with h | h
    · exact absurd h h₁
    · exact absurd h h₂

theorem map_count_delete_self (k : K) (m : BpfMap K V) : map_count k (map_delete k m) = 0 := by
  simp [map_count, map_delete, List.countP_eq_zero]

theorem map_count_of_lookup_none {k : K} {m : BpfMap K V} (h : map_lookup k m = none) :
    map_count k m = 0 := by
  rw [← map_delete_of_lookup_none h]; exact map_count_delete_self k m

theorem map_count_cons_self (k : K) (v : V) (m : BpfMap K V) :
    map_count k ((k, v) :: m) = map_count k m + 1 := by
  simp [map_count]

/-- After an update of the LRU map exactly one entry is stored under the key. -/
theorem map_count_lru_update_self (cap : Nat) (evict : K → Bool) (k : K) (v : V)
    (m : BpfMap K V) : map_count k (lru_update cap evict k v m).2 = 1 := by
  have h0 : map_count k (((map_delete k m).filter (fun e => !evict e.1)).take (cap - 1)) = 0 := by
    simp only [map_count, List.countP_eq_zero]
    intro e he
    simpa using (mem_lru_update_rest he).2.1
  show map_count k ((k, v) :: _) = 1
  rw [map_count_cons_self, h0]

end maps

/-! ## Lemmas on the helpers -/

theorem bpf_probe_read_ok {mem : Nat → Option Nat} {size src : Nat}
    (h : ∀ i < size, (mem (src + i)).isSome) :
    bpf_probe_read mem size src = (0, (List.range size).map (fun i => (mem (src + i)).getD 0)) := by
  have hc : (List.range size).all (fun i => (mem (src + i)).isSome) = true := by
    simpa [List.all_eq_true] using h
  unfold bpf_probe_read
  rw [if_pos hc]

theorem bpf_probe_read_fault {mem : Nat → Option Nat} {size src : Nat}
    (h : ¬ ∀ i < size, (mem (src + i)).isSome) :
    bpf_probe_read mem size src = (-14, zero_bytes size) := by
  have hc : ¬ (List.range size).all (fun i => (mem (src + i)).isSome) = true := by
    simpa [List.all_eq_true] using h
  unfold bpf_probe_read
  rw [if_neg hc]

theorem bpf_probe_read_fst_nonneg_iff (mem : Nat → Option Nat) (size src : Nat) :
    ¬ (bpf_probe_read mem size src).1 < 0 ↔ ∀ i < size, (mem (src + i)).isSome := by
  by_cases h : ∀ i < size, (mem (src + i)).isSome
  · rw [bpf_probe_read_ok h]
    exact ⟨fun _ => h, fun _ => by norm_num⟩
  · rw [bpf_probe_read_fault h]
    exact ⟨fun h' => absurd (by norm_num) h', fun h' => absurd h' h⟩

theorem bpf_probe_read_length (mem : Nat → Option Nat) (size src : Nat) :
    (bpf_probe_read mem size src).2.length = size := by
  by_cases h : ∀ i < size, (mem (src + i)).isSome
  · simp [bpf_probe_read_ok h]
  · simp [bpf_probe_read_fault h, zero_bytes]

theorem bpf_probe_read_getD {mem : Nat → Option Nat} {size src : Nat}
    (h : ∀ i < size, (mem (src + i)).isSome) {i : Nat} (hi : i < size) :
    (bpf_probe_read mem size src).2.getD i 0 = (mem (src + i)).getD 0 := by
  rw [bpf_probe_read_ok h]
  simp [List.getD_eq_getElem?_getD, hi]

/-- The classifier passes exactly when the reference is not null, sixteen bytes
can be read at it and the first three are `G`, `E`, `T`. -/
theorem classified_get_iff (env : Env) (ctx : trace_event_raw_sys_enter_write) :
    classified_get env ctx ↔
      ctx.buf ≠ 0 ∧ (∀ i < 16, (env.mem (ctx.buf + i)).isSome) ∧
        env.mem ctx.buf = some 71 ∧ env.mem (ctx.buf + 1) = some 69 ∧
        env.mem (ctx.buf + 2) = some 84 := by
  unfold classified_get
  rw [bpf_probe_read_fst_nonneg_iff]
  constructor
  · rintro ⟨h0, hr, hG, hE, hT⟩
    rw [bpf_probe_read_getD hr (by norm_num)] at hG hE hT
    have h0' := hr 0 (by norm_num)
    have h1' := hr 1 (by norm_num)
    have h2' := hr 2 (by norm_num)
    rw [Nat.add_zero] at hG h0'
    refine ⟨h0, hr, ?_, ?_, ?_⟩
    · cases hm : env.mem ctx.buf with
      | none => rw [hm] at h0'; exact absurd h0' (by simp)
      | some b => rw [hm] at hG; simpa using hG
    · cases hm : env.mem (ctx.buf + 1) with
      | none => rw [hm] at h1'; exact absurd h1' (by simp)
      | some b => rw [hm] at hE; simpa using hE
    · cases hm : env.mem (ctx.buf + 2) with
      | none => rw [hm] at h2'; exact absurd h2' (by simp)
      | some b => rw [hm] at hT; simpa using hT
  · rintro ⟨h0, hr, hG, hE, hT⟩
    refine ⟨h0, hr, ?_, ?_, ?_⟩
    · rw [bpf_probe_read_getD hr (by norm_num), Nat.add_zero, hG]; rfl
    · rw [bpf_probe_read_getD hr (by norm_num), hE]; rfl
    · rw [bpf_probe_read_getD hr (by norm_num), hT]; rfl

/-! ## The handlers, case by case -/

theorem percpu_array_lookup_zero {V : Type} (heap : Nat → V) (cpu : Nat) :
    percpu_array_lookup heap cpu 0 = some (heap cpu) := rfl

theorem sys_enter_write_emitted (env : Env) (ctx : trace_event_raw_sys_enter_write)
    (s : State) : (sys_enter_write env ctx s).emitted = [] := by
  simp only [sys_enter_write, percpu_array_lookup_zero]
  split_ifs <;> rfl

theorem sys_enter_write_active_reads (env : Env) (ctx : trace_event_raw_sys_enter_write)
    (s : State) : (sys_enter_write env ctx s).state.active_reads = s.active_reads := by
  simp only [sys_enter_write, percpu_array_lookup_zero]
  split_ifs <;> rfl

theorem sys_enter_write_event_heap (env : Env) (ctx : trace_event_raw_sys_enter_write)
    (s : State) : (sys_enter_write env ctx s).state.l7_event_heap = s.l7_event_heap := by
  simp only [sys_enter_write, percpu_array_lookup_zero]
  split_ifs <;> rfl

/-- A write that passes the classifier upserts `get_request` under its key. -/
theorem sys_enter_write_requests_of_get {env : Env} {ctx : trace_event_raw_sys_enter_write}
    (s : State) (h : classified_get env ctx) :
    (sys_enter_write env ctx s).state.active_l7_requests =
      (lru_update ACTIVE_L7_REQUESTS_MAX env.lru_evict (mk_socket_key env.pid_tgid ctx.fd)
        (get_request env ctx) s.active_l7_requests).2 := by
  obtain ⟨h0, hr, hb⟩ := h
  simp only [sys_enter_write, percpu_array_lookup_zero]
  rw [if_pos h0, if_neg hr, if_neg (not_not.mpr hb)]
  rfl

/-- A write that does not pass the classifier leaves the table as it was. -/
theorem sys_enter_write_requests_of_not_get {env : Env}
    {ctx : trace_event_raw_sys_enter_write} (s : State) (h : ¬ classified_get env ctx) :
    (sys_enter_write env ctx s).state.active_l7_requests = s.active_l7_requests := by
  simp only [sys_enter_write, percpu_array_lookup_zero]
  split_ifs with h1 h2 h3 <;>
    first
    | rfl
    | exact absurd ⟨h1, h2, h3⟩ h

theorem bpf_probe_read_get_opt {mem : Nat → Option Nat} {size src : Nat}
    (h : ∀ i < size, (mem (src + i)).isSome) {i : Nat} (hi : i < size) :
    (bpf_probe_read mem size src).2.get? i = mem (src + i) := by
  rw [bpf_probe_read_ok h]
  have := h i hi
  simp only [List.get?_eq_getElem?, List.getElem?_map, List.getElem?_range hi, Option.map_some']
  cases hm : mem (src + i) with
  | none => rw [hm] at this; exact absurd this (by simp)
  | some b => rfl

theorem sys_enter_read_emitted (env : Env) (ctx : trace_event_raw_sys_enter_read)
    (s : State) : (sys_enter_read env ctx s).emitted = [] := by
  simp only [sys_enter_read]
  split <;> rfl

theorem sys_enter_read_requests (env : Env) (ctx : trace_event_raw_sys_enter_read)
    (s : State) :
    (sys_enter_read env ctx s).state.active_l7_requests =
      (lru_lookup (mk_socket_key env.pid_tgid ctx.fd) s.active_l7_requests).2 := by
  simp only [sys_enter_read]
  split <;> rfl

theorem sys_enter_read_event_heap (env : Env) (ctx : trace_event_raw_sys_enter_read)
    (s : State) : (sys_enter_read env ctx s).state.l7_event_heap = s.l7_event_heap := by
  simp only [sys_enter_read]
  split <;> rfl

/-- A read on a socket without a pending request changes nothing. -/
theorem sys_enter_read_of_untracked {env : Env} {ctx : trace_event_raw_sys_enter_read}
    {s : State}
    (h : map_lookup (mk_socket_key env.pid_tgid ctx.fd) s.active_l7_requests = none) :
    sys_enter_read env ctx s = { state := s, ret := 0, emitted := [], delivered := [] } := by
  simp only [sys_enter_read, lru_lookup_fst, h, lru_lookup_snd_none h]

/-- A read on a socket with a pending request updates `active_reads` under the
context id. -/
theorem sys_enter_read_reads_of_tracked {env : Env} {ctx : trace_event_raw_sys_enter_read}
    {s : State} {req : l7_request}
    (h : map_lookup (mk_socket_key env.pid_tgid ctx.fd) s.active_l7_requests = some req) :
    (sys_enter_read env ctx s).state.active_reads =
      (hash_update ACTIVE_READS_MAX env.pid_tgid
        { fd := ctx.fd, buf := ctx.buf, size := ctx.count } s.active_reads).2 := by
  simp only [sys_enter_read, lru_lookup_fst, h]

theorem sys_exit_read_of_ret_le {env : Env} {ctx : trace_event_raw_sys_exit_read}
    (s : State) (h : ctx.ret ≤ 0) :
    sys_exit_read env ctx s = { state := s, ret := 0, emitted := [], delivered := [] } := by
  simp only [sys_exit_read, if_pos h]

theorem sys_exit_read_of_no_read {env : Env} {ctx : trace_event_raw_sys_exit_read}
    {s : State} (h : map_lookup env.pid_tgid s.active_reads = none) :
    sys_exit_read env ctx s = { state := s, ret := 0, emitted := [], delivered := [] } := by
  simp only [sys_exit_read, h]
  split_ifs <;> rfl

theorem sys_exit_read_of_no_request {env : Env} {ctx : trace_event_raw_sys_exit_read}
    {s : State} {read_info : read_args}
    (h : map_lookup env.pid_tgid s.active_reads = some read_info)
    (h' : map_lookup (mk_socket_key env.pid_tgid read_info.fd) s.active_l7_requests = none) :
    sys_exit_read env ctx s = { state := s, ret := 0, emitted := [], delivered := [] } := by
  simp only [sys_exit_read, h, lru_lookup_fst, h', lru_lookup_snd_none h']
  split_ifs <;> rfl

/-- The outcome of `sys_exit_read` when the read returned data and both
lookups succeed. -/
theorem sys_exit_read_of_match {env : Env} {ctx : trace_event_raw_sys_exit_read}
    {s : State} {read_info : read_args} {req : l7_request}
    (hret : 0 < ctx.ret)
    (h : map_lookup env.pid_tgid s.active_reads = some read_info)
    (h' : map_lookup (mk_socket_key env.pid_tgid read_info.fd) s.active_l7_requests = some req) :
    sys_exit_read env ctx s =
      { state :=
          { active_l7_requests :=
              map_delete (mk_socket_key env.pid_tgid read_info.fd) s.active_l7_requests,
            active_reads := map_delete env.pid_tgid s.active_reads,
            l7_request_heap := s.l7_request_heap,
            l7_event_heap := Function.update s.l7_event_heap env.cpu
              (make_event (s.l7_event_heap env.cpu) (mk_socket_key env.pid_tgid read_info.fd)
                req env.ktime_ns) },
        ret := 0,
        emitted := [make_event (s.l7_event_heap env.cpu)
          (mk_socket_key env.pid_tgid read_info.fd) req env.ktime_ns],
        delivered := if env.perf_ok then [make_event (s.l7_event_heap env.cpu)
          (mk_socket_key env.pid_tgid read_info.fd) req env.ktime_ns] else [] } := by
  simp only [sys_exit_read, if_neg (not_le.mpr hret), h, lru_lookup_fst, h',
    percpu_array_lookup_zero, map_delete_lru_lookup, State.set_event_heap, make_event]

theorem u64_sub_of_le {a b : Nat} (ha : a < 2 ^ 64) (hle : b ≤ a) : u64_sub a b = a - b := by
  have hb : b < 2 ^ 64 := lt_of_le_of_lt hle ha
  unfold u64_sub
  rw [Nat.mod_eq_of_lt ha, Nat.mod_eq_of_lt hb]
  have : a + (2 ^ 64 - b) = (a - b) + 2 ^ 64 := by omega
  rw [this, Nat.add_mod_right, Nat.mod_eq_of_lt (by omega)]

theorem mk_socket_key_pid_of_lt {id : Nat} (fd : Nat) (h : id < 2 ^ 64) :
    (mk_socket_key id fd).pid = id >>> 32 := by
  simp only [mk_socket_key, Nat.shiftRight_eq_div_pow]
  apply Nat.mod_eq_of_lt
  omega

theorem run_nil (s : State) : run s [] = (s, []) := rfl

theorem run_cons (s : State) (c : Call) (cs : List Call) :
    run s (c :: cs) = ((run (step s c).state cs).1, (step s c).emitted ++ (run (step s c).state cs).2) :=
  rfl

/-- The pending request a classified write leaves under its key. -/
theorem map_lookup_after_get_write {env : Env} {ctx : trace_event_raw_sys_enter_write}
    (s : State) (h : classified_get env ctx) :
    map_lookup (mk_socket_key env.pid_tgid ctx.fd)
        (sys_enter_write env ctx s).state.active_l7_requests = some (get_request env ctx) := by
  rw [sys_enter_write_requests_of_get s h, map_lookup_lru_update_self]

/-- What a read-entry followed by the read-exit of the same context emits when
a request is pending under the key of the read and `active_reads` can take the
entry of the context. -/
theorem read_pair_emitted {er ex : Env} {r : trace_event_raw_sys_enter_read}
    {x : trace_event_raw_sys_exit_read} {s : State} {req : l7_request}
    (hreq : map_lookup (mk_socket_key er.pid_tgid r.fd) s.active_l7_requests = some req)
    (hroom : (map_lookup er.pid_tgid s.active_reads).isSome ∨
      s.active_reads.length < ACTIVE_READS_MAX)
    (hctx : ex.pid_tgid = er.pid_tgid) (hret : 0 < x.ret) :
    (sys_exit_read ex x (sys_enter_read er r s).state).emitted =
      [make_event (s.l7_event_heap ex.cpu) (mk_socket_key er.pid_tgid r.fd) req ex.ktime_ns] := by
  have h1 : map_lookup ex.pid_tgid (sys_enter_read er r s).state.active_reads =
      some { fd := r.fd, buf := r.buf, size := r.count } := by
    rw [sys_enter_read_reads_of_tracked hreq, hctx]
    exact map_lookup_hash_update_self _ hroom
  have h2 : map_lookup (mk_socket_key ex.pid_tgid r.fd)
      (sys_enter_read er r s).state.active_l7_requests = some req := by
    rw [sys_enter_read_requests, map_lookup_lru_lookup, hctx, hreq]
  rw [sys_exit_read_of_match hret h1 h2, sys_enter_read_event_heap, hctx]

theorem not_classified_get_of_not_starts {env : Env} {ctx : trace_event_raw_sys_enter_write}
    (h : ¬ starts_with_get env.mem ctx.buf) : ¬ classified_get env ctx :=
  fun hc => h ((classified_get_iff env ctx).mp hc).2.2

theorem classified_get_of_get_prefixed {env : Env} {ctx : trace_event_raw_sys_enter_write}
    (h : get_prefixed_write env ctx) : classified_get env ctx :=
  (classified_get_iff env ctx).mpr h

theorem not_classified_get_of_unreadable {env : Env} {ctx : trace_event_raw_sys_enter_write}
    (h : ctx.buf = 0 ∨ ∃ i < 16, env.mem (ctx.buf + i) = none) : ¬ classified_get env ctx := by
  intro hc
  obtain ⟨h0, hr, _⟩ := (classified_get_iff env ctx).mp hc
  rcases h with h | ⟨i, hi, hm⟩
  · exact h0 h
  · have := hr i hi
    rw [hm] at this
    exact absurd this (by simp)

theorem sys_exit_read_of_not_match {env : Env} {ctx : trace_event_raw_sys_exit_read}
    {s : State} (h : ¬ full_match env ctx s) :
    sys_exit_read env ctx s = { state := s, ret := 0, emitted := [], delivered := [] } := by
  by_cases hret : ctx.ret ≤ 0
  · exact sys_exit_read_of_ret_le s hret
  · cases h1 : map_lookup env.pid_tgid s.active_reads with
    | none => exact sys_exit_read_of_no_read h1
    | some read_info =>
      cases h2 : map_lookup (mk_socket_key env.pid_tgid read_info.fd) s.active_l7_requests with
      | none => exact sys_exit_read_of_no_request h1 h2
      | some req => exact absurd ⟨not_le.mp hret, read_info, h1, req, h2⟩ h

theorem sys_exit_read_status (env : Env) (ctx : trace_event_raw_sys_exit_read) (s : State)
    (h : status_zero s) :
    status_zero (sys_exit_read env ctx s).state ∧
      ∀ e ∈ (sys_exit_read env ctx s).emitted, e.status = 0 := by
  by_cases hm : full_match env ctx s
  · obtain ⟨hret, read_info, h1, req, h2⟩ := hm
    rw [sys_exit_read_of_match hret h1 h2]
    refine ⟨fun cpu => ?_, fun e he => ?_⟩
    · by_cases hc : cpu = env.cpu
      · subst hc
        simp only [Function.update_same, make_event]
        exact h _
      · simp only [Function.update_noteq hc]
        exact h cpu
    · rw [List.mem_singleton] at he
      rw [he]
      exact h env.cpu
  · rw [sys_exit_read_of_not_match hm]
    exact ⟨h, fun e he => absurd he (List.not_mem_nil e)⟩

theorem step_status (s : State) (c : Call) (h : status_zero s) :
    status_zero (step s c).state ∧ ∀ e ∈ (step s c).emitted, e.status = 0 := by
  cases c with
  | enter_write env ctx =>
    refine ⟨fun cpu => ?_, fun e he => ?_⟩
    · simp only [step, sys_enter_write_event_heap]; exact h cpu
    · simp only [step, sys_enter_write_emitted] at he
      exact absurd he (List.not_mem_nil e)
  | enter_read env ctx =>
    refine ⟨fun cpu => ?_, fun e he => ?_⟩
    · simp only [step, sys_enter_read_event_heap]; exact h cpu
    · simp only [step, sys_enter_read_emitted] at he
      exact absurd he (List.not_mem_nil e)
  | exit_read env ctx => exact sys_exit_read_status env ctx s h

theorem run_status (calls : List Call) :
    ∀ s, status_zero s → ∀ e ∈ (run s calls).2, e.status = 0 := by
  induction calls with
  | nil => intro s _ e he; exact absurd he (List.not_mem_nil e)
  | cons c cs ih =>
    intro s hs e he
    rw [run_cons] at he
    rcases List.mem_append.mp he with h | h
    · exact (step_status s c hs).2 e h
    · exact ih _ (step_status s c hs).1 e h

/-! ## The claims -/

/-- C1, amended. A write whose buffer starts with the bytes `G`, `E`, `T`, the
buffer reference being non-null and the sixteen bytes the classifier copies
being readable at it, made at
time `t0`, then a read-entry on the same pid and fd, then the read-exit of that
context with a positive return value at time `t1 ≥ t0`, started with
`active_reads` below its capacity: exactly one event is emitted by the three
calls, and it has the fd of the write, as pid the upper 32 bits of the context
id, protocol HTTP (1), method GET (1) and duration `t1 - t0`. The capacity of
`active_l7_requests` plays no part: the write stores its request whatever the
table evicts. -/
theorem C1_get_write_then_read_emits_one_event
    (s : State) (ew er ex : Env) (w : trace_event_raw_sys_enter_write)
    (r : trace_event_raw_sys_enter_read) (x : trace_event_raw_sys_exit_read)
    (hcap : s.active_reads.length < ACTIVE_READS_MAX)
    (hget : get_prefixed_write ew w)
    (hid : er.pid_tgid < 2 ^ 64)
    (hpid : er.pid_tgid >>> 32 = ew.pid_tgid >>> 32) (hfd : r.fd = w.fd)
    (hctx : ex.pid_tgid = er.pid_tgid) (hret : 0 < x.ret)
    (ht1 : ex.ktime_ns < 2 ^ 64) (hle : ew.ktime_ns ≤ ex.ktime_ns) :
    ∃ e, (run s [.enter_write ew w, .enter_read er r, .exit_read ex x]).2 = [e] ∧
      e.fd = w.fd ∧ e.pid = er.pid_tgid >>> 32 ∧ e.protocol = PROTOCOL_HTTP ∧
      e.method = METHOD_GET ∧ e.duration = ex.ktime_ns - ew.ktime_ns := by
  have hcls : classified_get ew w := classified_get_of_get_prefixed hget
  have hk : mk_socket_key er.pid_tgid r.fd = mk_socket_key ew.pid_tgid w.fd := by
    simp only [mk_socket_key, hpid, hfd]
  have hreq : map_lookup (mk_socket_key er.pid_tgid r.fd)
      (sys_enter_write ew w s).state.active_l7_requests = some (get_request ew w) := by
    rw [hk]; exact map_lookup_after_get_write s hcls
  have hroom : (map_lookup er.pid_tgid (sys_enter_write ew w s).state.active_reads).isSome ∨
      (sys_enter_write ew w s).state.active_reads.length < ACTIVE_READS_MAX := by
    rw [sys_enter_write_active_reads]; exact Or.inr hcap
  refine ⟨make_event ((sys_enter_write ew w s).state.l7_event_heap ex.cpu)
    (mk_socket_key er.pid_tgid r.fd) (get_request ew w) ex.ktime_ns, ?_, ?_, ?_, ?_, ?_, ?_⟩
  · simp only [run_cons, run_nil, step, sys_enter_write_emitted, sys_enter_read_emitted,
      read_pair_emitted hreq hroom hctx hret, List.nil_append, List.append_nil]
  · simp only [make_event, mk_socket_key, hfd]
  · exact mk_socket_key_pid_of_lt r.fd hid
  · rfl
  · rfl
  · exact u64_sub_of_le ht1 hle

/-- The example of the specification: the write at `t = 0`, the read that
enters at 1 ms and returns 200 bytes at 5 ms give one event with fd 5, pid 100,
protocol HTTP, method GET and a duration of 5 ms. -/
theorem C1_witness :
    ∃ e, (run State.init [.enter_write ex_env_write ex_write, .enter_read ex_env_read ex_read,
        .exit_read ex_env_exit ex_exit]).2 = [e] ∧
      e.fd = 5 ∧ e.pid = 100 ∧ e.protocol = 1 ∧ e.method = 1 ∧ e.duration = 5000000 :=
  C1_get_write_then_read_emits_one_event State.init ex_env_write ex_env_read ex_env_exit
    ex_write ex_read ex_exit (by decide) (by decide) (by decide) (by decide) (by decide)
    (by decide) (by decide) (by decide) (by decide)

/-- C2, counterexample. The write of the 19 bytes of `GET /x HTTP/1.1\r\n\r\n`
followed in memory by bytes `Z`: the event's payload byte 19 is `Z` (90), where
the claim has 0. And when the mapping ends with the 19 bytes, so that the
16-byte copy succeeds and the 512-byte copy faults, the event's payload byte 0
is 0, where the claim has `G` (71). -/
theorem C2_counterexample :
    ((run State.init [.enter_write ex_env_write ex_write, .enter_read ex_env_read ex_read,
        .exit_read ex_env_exit ex_exit]).2.map (fun e => e.payload.getD 19 0) = [90] ∧
      (spec_payload ex_env_write.mem ex_write.buf ex_write.count).getD 19 0 = 0) ∧
    ((run State.init [.enter_write ex_env_write_short ex_write, .enter_read ex_env_read ex_read,
        .exit_read ex_env_exit ex_exit]).2.map (fun e => e.payload.getD 0 0) = [0] ∧
      (spec_payload ex_env_write_short.mem ex_write.buf ex_write.count).getD 0 0 = 71) := by
  set_option maxRecDepth 100000 in decide

/-- C2, amended. For a write the classifier tracks whose 512-byte payload copy
succeeds, the event emitted by the resolving read carries the 512 bytes of
memory that start at the buffer reference: byte `i` of the payload is the byte
at `buf + i` for every `i < 512`, whatever the length `count` of the write. So
the first `min count 512` bytes are those of the write buffer, and the bytes
after them are the ones that follow the buffer in memory. -/
theorem C2_payload_is_memory_at_buf
    (s : State) (ew er ex : Env) (w : trace_event_raw_sys_enter_write)
    (r : trace_event_raw_sys_enter_read) (x : trace_event_raw_sys_exit_read)
    (hroom : (map_lookup er.pid_tgid s.active_reads).isSome ∨
      s.active_reads.length < ACTIVE_READS_MAX)
    (hget : get_prefixed_write ew w)
    (hcopy : ∀ i < MAX_PAYLOAD_SIZE, (ew.mem (w.buf + i)).isSome)
    (hpid : er.pid_tgid >>> 32 = ew.pid_tgid >>> 32) (hfd : r.fd = w.fd)
    (hctx : ex.pid_tgid = er.pid_tgid) (hret : 0 < x.ret) :
    ∃ e, (run s [.enter_write ew w, .enter_read er r, .exit_read ex x]).2 = [e] ∧
      e.payload.length = MAX_PAYLOAD_SIZE ∧
      (∀ i < MAX_PAYLOAD_SIZE, e.payload.get? i = ew.mem (w.buf + i)) ∧
      (∀ i < min w.count MAX_PAYLOAD_SIZE, e.payload.get? i = ew.mem (w.buf + i)) := by
  have hcls : classified_get ew w := classified_get_of_get_prefixed hget
  have hk : mk_socket_key er.pid_tgid r.fd = mk_socket_key ew.pid_tgid w.fd := by
    simp only [mk_socket_key, hpid, hfd]
  have hreq : map_lookup (mk_socket_key er.pid_tgid r.fd)
      (sys_enter_write ew w s).state.active_l7_requests = some (get_request ew w) := by
    rw [hk]; exact map_lookup_after_get_write s hcls
  have hroom' : (map_lookup er.pid_tgid (sys_enter_write ew w s).state.active_reads).isSome ∨
      (sys_enter_write ew w s).state.active_reads.length < ACTIVE_READS_MAX := by
    rw [sys_enter_write_active_reads]; exact hroom
  refine ⟨make_event ((sys_enter_write ew w s).state.l7_event_heap ex.cpu)
    (mk_socket_key er.pid_tgid r.fd) (get_request ew w) ex.ktime_ns, ?_, ?_, ?_, ?_⟩
  · simp only [run_cons, run_nil, step, sys_enter_write_emitted, sys_enter_read_emitted,
      read_pair_emitted hreq hroom' hctx hret, List.nil_append, List.append_nil]
  · simp only [make_event, get_request]
    exact bpf_probe_read_length _ _ _
  · intro i hi
    simp only [make_event, get_request]
    exact bpf_probe_read_get_opt hcopy hi
  · intro i hi
    simp only [make_event, get_request]
    exact bpf_probe_read_get_opt hcopy (lt_of_lt_of_le hi (min_le_right _ _))

/-- The amended C2 at the write of the 19 bytes followed by bytes `Z`. -/
theorem C2_witness :
    ∃ e, (run State.init [.enter_write ex_env_write ex_write, .enter_read ex_env_read ex_read,
        .exit_read ex_env_exit ex_exit]).2 = [e] ∧
      e.payload.length = MAX_PAYLOAD_SIZE ∧
      (∀ i < MAX_PAYLOAD_SIZE, e.payload.get? i = ex_env_write.mem (ex_write.buf + i)) ∧
      (∀ i < min ex_write.count MAX_PAYLOAD_SIZE,
        e.payload.get? i = ex_env_write.mem (ex_write.buf + i)) :=
  C2_payload_is_memory_at_buf State.init ex_env_write ex_env_read ex_env_exit
    ex_write ex_read ex_exit (by decide) (by decide)
    (by set_option maxRecDepth 100000 in decide) (by decide) (by decide) (by decide)
    (by decide)

/-- C3, counterexample. After the write of a GET request to fd 5, a write to
the same fd whose buffer starts with `POST` leaves the request pending under
the key, and the next read on that socket emits an event. And in the state left
by a GET write to fd 5, a read-entry on fd 5 and its read-exit with `-EAGAIN`,
a write of `POST` to fd 7 leaves no entry for fd 7, yet the next read-entry on
fd 7 followed by its read-exit emits an event. -/
theorem C3_counterexample :
    ((map_lookup (mk_socket_key ex_id 5)
        (run State.init [.enter_write ex_env_write ex_write,
          .enter_write ex_env_write_post ex_write_post]).1.active_l7_requests).isSome = true ∧
      (run State.init [.enter_write ex_env_write ex_write,
        .enter_write ex_env_write_post ex_write_post,
        .enter_read ex_env_read ex_read, .exit_read ex_env_exit ex_exit]).2.length = 1) ∧
    (map_lookup (mk_socket_key ex_id 7)
        (run State.init [.enter_write ex_env_write ex_write, .enter_read ex_env_read ex_read,
          .exit_read ex_env_exit ex_exit_eagain,
          .enter_write ex_env_write_post ex_write_fd7]).1.active_l7_requests = none ∧
      (run State.init [.enter_write ex_env_write ex_write, .enter_read ex_env_read ex_read,
        .exit_read ex_env_exit ex_exit_eagain, .enter_write ex_env_write_post ex_write_fd7,
        .enter_read ex_env_read ex_read_fd7, .exit_read ex_env_exit ex_exit]).2.length = 1) := by
  set_option maxRecDepth 100000 in decide

/-- C3, amended. A write whose buffer does not start with `GET` emits nothing
and changes neither table. So when the table holds no entry for the key of the
write beforehand it holds none afterwards, and then the next read-entry on that
socket followed by the read-exit of that context, a context without an entry in
`active_reads`, emits no event, whatever the return value. -/
theorem C3_non_get_write_tracks_nothing
    (s : State) (ew : Env) (w : trace_event_raw_sys_enter_write)
    (hnot : ¬ starts_with_get ew.mem w.buf) :
    (sys_enter_write ew w s).emitted = [] ∧
      (sys_enter_write ew w s).state.active_l7_requests = s.active_l7_requests ∧
      (sys_enter_write ew w s).state.active_reads = s.active_reads ∧
      (map_lookup (mk_socket_key ew.pid_tgid w.fd) s.active_l7_requests = none →
        map_lookup (mk_socket_key ew.pid_tgid w.fd)
          (sys_enter_write ew w s).state.active_l7_requests = none ∧
        ∀ (er ex : Env) (r : trace_event_raw_sys_enter_read)
          (x : trace_event_raw_sys_exit_read),
          er.pid_tgid >>> 32 = ew.pid_tgid >>> 32 → r.fd = w.fd →
          ex.pid_tgid = er.pid_tgid → map_lookup er.pid_tgid s.active_reads = none →
          (run (sys_enter_write ew w s).state [.enter_read er r, .exit_read ex x]).2 = []) := by
  have hreqs := sys_enter_write_requests_of_not_get s (not_classified_get_of_not_starts hnot)
  have hreads := sys_enter_write_active_reads ew w s
  refine ⟨sys_enter_write_emitted ew w s, hreqs, hreads, fun hnone => ⟨?_, ?_⟩⟩
  · rw [hreqs]; exact hnone
  · intro er ex r x hpid hfd hctx hfresh
    have hk : mk_socket_key er.pid_tgid r.fd = mk_socket_key ew.pid_tgid w.fd := by
      simp only [mk_socket_key, hpid, hfd]
    have hnone' : map_lookup (mk_socket_key er.pid_tgid r.fd)
        (sys_enter_write ew w s).state.active_l7_requests = none := by
      rw [hk, hreqs]; exact hnone
    have hfresh' : map_lookup ex.pid_tgid (sys_enter_write ew w s).state.active_reads = none := by
      rw [hctx, hreads]; exact hfresh
    simp only [run_cons, run_nil, step, sys_enter_read_of_untracked hnone',
      sys_exit_read_of_no_read hfresh', List.nil_append, List.append_nil]

/-- The amended C3 at the write of `POST` to fd 7 in the initial state, followed
by the read-entry on fd 7 and the read-exit that returns 200 bytes. -/
theorem C3_witness :
    (sys_enter_write ex_env_write_post ex_write_fd7 State.init).emitted = [] ∧
      (sys_enter_write ex_env_write_post ex_write_fd7 State.init).state.active_l7_requests =
        State.init.active_l7_requests ∧
      (sys_enter_write ex_env_write_post ex_write_fd7 State.init).state.active_reads =
        State.init.active_reads ∧
      map_lookup (mk_socket_key ex_env_write_post.pid_tgid ex_write_fd7.fd)
        (sys_enter_write ex_env_write_post ex_write_fd7 State.init).state.active_l7_requests
          = none ∧
      (run (sys_enter_write ex_env_write_post ex_write_fd7 State.init).state
        [.enter_read ex_env_read ex_read_fd7, .exit_read ex_env_exit ex_exit]).2 = [] :=
  have h := C3_non_get_write_tracks_nothing State.init ex_env_write_post ex_write_fd7
    (by decide)
  ⟨h.1, h.2.1, h.2.2.1, (h.2.2.2 (by decide)).1,
    (h.2.2.2 (by decide)).2 ex_env_read ex_env_exit ex_read_fd7 ex_exit (by decide) (by decide)
      (by decide) (by decide)⟩

/-- C4. Two writes that start with `GET` on the same key, the first at `t1`,
the second at `t2`, with nothing in between: neither write emits an event; the
first leaves its request under the key; after the second the table holds
exactly one entry under the key, and it carries the
payload snapshot of the second write and `write_time_ns = t2`; and the next
read on the socket that returns data (its entry fitting in `active_reads`)
emits one event whose duration is measured from `t2` and whose payload is the
snapshot of the second write. -/
theorem C4_last_write_wins
    (s : State) (ew1 ew2 er ex : Env) (w1 w2 : trace_event_raw_sys_enter_write)
    (r : trace_event_raw_sys_enter_read) (x : trace_event_raw_sys_exit_read)
    (h1 : get_prefixed_write ew1 w1) (h2 : get_prefixed_write ew2 w2)
    (hkey : mk_socket_key ew2.pid_tgid w2.fd = mk_socket_key ew1.pid_tgid w1.fd)
    (hpid : er.pid_tgid >>> 32 = ew2.pid_tgid >>> 32) (hfd : r.fd = w2.fd)
    (hctx : ex.pid_tgid = er.pid_tgid) (hret : 0 < x.ret)
    (hroom : (map_lookup er.pid_tgid s.active_reads).isSome ∨
      s.active_reads.length < ACTIVE_READS_MAX) :
    (run s [.enter_write ew1 w1, .enter_write ew2 w2]).2 = [] ∧
      map_lookup (mk_socket_key ew1.pid_tgid w1.fd)
        (run s [.enter_write ew1 w1]).1.active_l7_requests =
          some { write_time_ns := ew1.ktime_ns, protocol := PROTOCOL_HTTP,
                 method := METHOD_GET,
                 payload := (bpf_probe_read ew1.mem MAX_PAYLOAD_SIZE w1.buf).2 } ∧
      map_count (mk_socket_key ew1.pid_tgid w1.fd)
        (run s [.enter_write ew1 w1, .enter_write ew2 w2]).1.active_l7_requests = 1 ∧
      map_lookup (mk_socket_key ew1.pid_tgid w1.fd)
        (run s [.enter_write ew1 w1, .enter_write ew2 w2]).1.active_l7_requests =
          some { write_time_ns := ew2.ktime_ns, protocol := PROTOCOL_HTTP,
                 method := METHOD_GET,
                 payload := (bpf_probe_read ew2.mem MAX_PAYLOAD_SIZE w2.buf).2 } ∧
      ∃ e, (run (run s [.enter_write ew1 w1, .enter_write ew2 w2]).1
          [.enter_read er r, .exit_read ex x]).2 = [e] ∧
        e.duration = u64_sub ex.ktime_ns ew2.ktime_ns ∧
        e.payload = (bpf_probe_read ew2.mem MAX_PAYLOAD_SIZE w2.buf).2 := by
  have hc2 := classified_get_of_get_prefixed h2
  have hk : mk_socket_key er.pid_tgid r.fd = mk_socket_key ew2.pid_tgid w2.fd := by
    simp only [mk_socket_key, hpid, hfd]
  have hs2 : (run s [.enter_write ew1 w1, .enter_write ew2 w2]).1 =
      (sys_enter_write ew2 w2 (sys_enter_write ew1 w1 s).state).state := rfl
  have hreq : map_lookup (mk_socket_key er.pid_tgid r.fd)
      (sys_enter_write ew2 w2 (sys_enter_write ew1 w1 s).state).state.active_l7_requests =
        some (get_request ew2 w2) := by
    rw [hk]; exact map_lookup_after_get_write _ hc2
  have hroom' : (map_lookup er.pid_tgid
        (sys_enter_write ew2 w2 (sys_enter_write ew1 w1 s).state).state.active_reads).isSome ∨
      (sys_enter_write ew2 w2 (sys_enter_write ew1 w1 s).state).state.active_reads.length <
        ACTIVE_READS_MAX := by
    rw [sys_enter_write_active_reads, sys_enter_write_active_reads]; exact hroom
  refine ⟨?_, ?_, ?_, ?_, ?_⟩
  · simp only [run_cons, run_nil, step, sys_enter_write_emitted, List.append_nil]
  · exact map_lookup_after_get_write s (classified_get_of_get_prefixed h1)
  · rw [hs2, sys_enter_write_requests_of_get _ hc2, ← hkey]
    exact map_count_lru_update_self _ _ _ _ _
  · rw [hs2, ← hkey]
    exact map_lookup_after_get_write _ hc2
  · rw [hs2]
    refine ⟨make_event ((sys_enter_write ew2 w2 (sys_enter_write ew1 w1 s).state).state.l7_event_heap
      ex.cpu) (mk_socket_key er.pid_tgid r.fd) (get_request ew2 w2) ex.ktime_ns, ?_, ?_, ?_⟩
    rotate_left
    · simp only [make_event, get_request]
    · simp only [make_event, get_request]
    simp only [run_cons, run_nil, step, sys_enter_read_emitted,
      read_pair_emitted hreq hroom' hctx hret, List.nil_append, List.append_nil]

/-- C4 at two GET writes to fd 5, at 0 and at 3 ms, then the read that returns at
5 ms: the duration is 2 ms and byte 19 of the payload is the `Y` of the second
buffer. -/
theorem C4_witness :
    (run State.init [.enter_write ex_env_write ex_write,
        .enter_write ex_env_write_second ex_write]).2 = [] ∧
      map_lookup (mk_socket_key ex_env_write.pid_tgid ex_write.fd)
        (run State.init [.enter_write ex_env_write ex_write]).1.active_l7_requests =
          some { write_time_ns := ex_env_write.ktime_ns, protocol := PROTOCOL_HTTP,
                 method := METHOD_GET,
                 payload := (bpf_probe_read ex_env_write.mem MAX_PAYLOAD_SIZE
                   ex_write.buf).2 } ∧
      map_count (mk_socket_key ex_env_write.pid_tgid ex_write.fd)
        (run State.init [.enter_write ex_env_write ex_write,
          .enter_write ex_env_write_second ex_write]).1.active_l7_requests = 1 ∧
      map_lookup (mk_socket_key ex_env_write.pid_tgid ex_write.fd)
        (run State.init [.enter_write ex_env_write ex_write,
          .enter_write ex_env_write_second ex_write]).1.active_l7_requests =
          some { write_time_ns := ex_env_write_second.ktime_ns, protocol := PROTOCOL_HTTP,
                 method := METHOD_GET,
                 payload := (bpf_probe_read ex_env_write_second.mem MAX_PAYLOAD_SIZE
                   ex_write.buf).2 } ∧
      ∃ e, (run (run State.init [.enter_write ex_env_write ex_write,
            .enter_write ex_env_write_second ex_write]).1
          [.enter_read ex_env_read ex_read, .exit_read ex_env_exit ex_exit]).2 = [e] ∧
        e.duration = u64_sub ex_env_exit.ktime_ns ex_env_write_second.ktime_ns ∧
        e.payload = (bpf_probe_read ex_env_write_second.mem MAX_PAYLOAD_SIZE ex_write.buf).2 :=
  C4_last_write_wins State.init ex_env_write ex_env_write_second ex_env_read ex_env_exit
    ex_write ex_write ex_read ex_exit (by decide) (by decide) (by decide) (by decide)
    (by decide) (by decide) (by decide) (by decide)

/-- C5, amended. A `sys_exit_read` whose return value is at most 0 emits
nothing and returns the state it was given, both tables included. Hence a
read-entry on a socket with a pending request that comes later, followed by the
read-exit of that context with a positive return value, still emits the event
made from that pending request, provided the entry of the reading context fits
in `active_reads`: the context has one already, as after its own failed read,
or `active_reads` holds fewer than 10240 entries. -/
theorem C5_failed_read_changes_nothing
    (s : State) (ex0 : Env) (x0 : trace_event_raw_sys_exit_read) (hfail : x0.ret ≤ 0) :
    sys_exit_read ex0 x0 s = { state := s, ret := 0, emitted := [], delivered := [] } ∧
      ∀ (er ex : Env) (r : trace_event_raw_sys_enter_read)
        (x : trace_event_raw_sys_exit_read) (req : l7_request),
        map_lookup (mk_socket_key er.pid_tgid r.fd) s.active_l7_requests = some req →
        ((map_lookup er.pid_tgid s.active_reads).isSome ∨
          s.active_reads.length < ACTIVE_READS_MAX) →
        ex.pid_tgid = er.pid_tgid → 0 < x.ret →
        (run s [.exit_read ex0 x0, .enter_read er r, .exit_read ex x]).2 =
          [make_event (s.l7_event_heap ex.cpu) (mk_socket_key er.pid_tgid r.fd) req
            ex.ktime_ns] := by
  refine ⟨sys_exit_read_of_ret_le s hfail, ?_⟩
  intro er ex r x req hreq hroom hctx hret
  simp only [run_cons, run_nil, step, sys_exit_read_of_ret_le s hfail, sys_enter_read_emitted,
    read_pair_emitted hreq hroom hctx hret, List.nil_append, List.append_nil]

/-- C5 at the read-exit with `-EAGAIN` that follows the GET write to fd 5 and
the read-entry on fd 5, and the retry of the read by the same context. -/
theorem C5_witness :
    sys_exit_read ex_env_exit ex_exit_eagain ex_state_reading =
      { state := ex_state_reading, ret := 0, emitted := [], delivered := [] } ∧
      (run ex_state_reading [.exit_read ex_env_exit ex_exit_eagain,
        .enter_read ex_env_read ex_read, .exit_read ex_env_exit ex_exit]).2 =
        [make_event (ex_state_reading.l7_event_heap ex_env_exit.cpu)
          (mk_socket_key ex_env_read.pid_tgid ex_read.fd) (get_request ex_env_write ex_write)
          ex_env_exit.ktime_ns] :=
  have h := C5_failed_read_changes_nothing ex_state_reading ex_env_exit ex_exit_eagain
    (by decide)
  ⟨h.1, h.2 ex_env_read ex_env_exit ex_read ex_exit (get_request ex_env_write ex_write)
    (by set_option maxRecDepth 100000 in decide) (by decide) (by decide) (by decide)⟩

/-- C6. Neither `sys_enter_write` nor `sys_enter_read` ever emits an event.
`sys_exit_read` emits an event exactly when the correlation is complete
(`full_match`: positive return value, an entry of `active_reads` for the
context, an entry of `active_l7_requests` for the key made from it); it then
emits exactly one record, whose fd, pid, duration, protocol, method and payload
are all filled from the two entries. Otherwise it emits nothing and returns the
state it was given. -/
theorem C6_event_iff_full_correlation :
    (∀ (env : Env) (ctx : trace_event_raw_sys_enter_write) (s : State),
        (sys_enter_write env ctx s).emitted = []) ∧
    (∀ (env : Env) (ctx : trace_event_raw_sys_enter_read) (s : State),
        (sys_enter_read env ctx s).emitted = []) ∧
    (∀ (env : Env) (ctx : trace_event_raw_sys_exit_read) (s : State),
        ((sys_exit_read env ctx s).emitted ≠ [] ↔ full_match env ctx s) ∧
        (∀ read_info req, 0 < ctx.ret →
          map_lookup env.pid_tgid s.active_reads = some read_info →
          map_lookup (mk_socket_key env.pid_tgid read_info.fd) s.active_l7_requests =
            some req →
          (sys_exit_read env ctx s).emitted =
            [{ fd := read_info.fd, pid := (env.pid_tgid >>> 32) % 2 ^ 32,
               status := (s.l7_event_heap env.cpu).status,
               duration := u64_sub env.ktime_ns req.write_time_ns,
               protocol := req.protocol, method := req.method,
               padding := (s.l7_event_heap env.cpu).padding, payload := req.payload }]) ∧
        (¬ full_match env ctx s →
          sys_exit_read env ctx s =
            { state := s, ret := 0, emitted := [], delivered := [] })) := by
  refine ⟨sys_enter_write_emitted, sys_enter_read_emitted, fun env ctx s => ⟨?_, ?_, ?_⟩⟩
  · constructor
    · intro hne
      by_contra hm
      rw [sys_exit_read_of_not_match hm] at hne
      exact hne rfl
    · rintro ⟨hret, read_info, h1, req, h2⟩
      rw [sys_exit_read_of_match hret h1 h2]
      exact List.cons_ne_nil _ _
  · intro read_info req hret h1 h2
    rw [sys_exit_read_of_match hret h1 h2]
    rfl
  · exact fun hm => sys_exit_read_of_not_match hm

/-- C7. The failing input, evaluated. In the state left by a GET write to
fd 5, a read-entry on fd 5 and its read-exit with `-EAGAIN`, fd 7 of the same
process has no pending request. A read-entry on fd 7 leaves `active_reads`
as it was, and the read-exit that follows, returning 200 bytes, emits an
event all the same: the one of fd 5. -/
theorem C7_read_on_untracked_socket_emits_event :
    map_lookup (mk_socket_key ex_env_read.pid_tgid ex_read_fd7.fd)
        ex_state_after_eagain.active_l7_requests = none ∧
      (sys_enter_read ex_env_read ex_read_fd7 ex_state_after_eagain).state.active_reads =
        ex_state_after_eagain.active_reads ∧
      (run ex_state_after_eagain [.enter_read ex_env_read ex_read_fd7,
        .exit_read ex_env_exit ex_exit]).2.map l7_event.fd = [5] := by
  set_option maxRecDepth 100000 in decide

/-- C8. When `sys_exit_read` matches (positive return value, an entry for the
context in `active_reads`, a request under its key), it emits one event and
leaves neither an entry for the context in `active_reads` nor a request under
the key; a second `sys_exit_read` of the same context run directly afterwards
emits nothing, whatever its return value. -/
theorem C8_one_shot_consumption
    (s : State) (ex : Env) (x : trace_event_raw_sys_exit_read) (read_info : read_args)
    (req : l7_request) (hret : 0 < x.ret)
    (h1 : map_lookup ex.pid_tgid s.active_reads = some read_info)
    (h2 : map_lookup (mk_socket_key ex.pid_tgid read_info.fd) s.active_l7_requests =
      some req) :
    (sys_exit_read ex x s).emitted.length = 1 ∧
      map_lookup ex.pid_tgid (sys_exit_read ex x s).state.active_reads = none ∧
      map_lookup (mk_socket_key ex.pid_tgid read_info.fd)
        (sys_exit_read ex x s).state.active_l7_requests = none ∧
      ∀ (ex' : Env) (x' : trace_event_raw_sys_exit_read), ex'.pid_tgid = ex.pid_tgid →
        (sys_exit_read ex' x' (sys_exit_read ex x s).state).emitted = [] := by
  have hgone : map_lookup ex.pid_tgid (sys_exit_read ex x s).state.active_reads = none := by
    rw [sys_exit_read_of_match hret h1 h2]
    exact map_lookup_delete_self _ _
  refine ⟨?_, hgone, ?_, ?_⟩
  · rw [sys_exit_read_of_match hret h1 h2]; rfl
  · rw [sys_exit_read_of_match hret h1 h2]
    exact map_lookup_delete_self _ _
  · intro ex' x' hid
    rw [← hid] at hgone
    rw [sys_exit_read_of_no_read hgone]

/-- C8 at the read-exit of the example of the specification, and a second
read-exit of the same context that returns 10 bytes. -/
theorem C8_witness :
    (sys_exit_read ex_env_exit ex_exit ex_state_reading).emitted.length = 1 ∧
      map_lookup ex_env_exit.pid_tgid
        (sys_exit_read ex_env_exit ex_exit ex_state_reading).state.active_reads = none ∧
      map_lookup (mk_socket_key ex_env_exit.pid_tgid ex_read.fd)
        (sys_exit_read ex_env_exit ex_exit ex_state_reading).state.active_l7_requests = none ∧
      (sys_exit_read ex_env_exit { ret := 10 }
        (sys_exit_read ex_env_exit ex_exit ex_state_reading).state).emitted = [] :=
  have h := C8_one_shot_consumption ex_state_reading ex_env_exit ex_exit
    { fd := ex_read.fd, buf := ex_read.buf, size := ex_read.count }
    (get_request ex_env_write ex_write) (by decide) (by decide)
    (by set_option maxRecDepth 100000 in decide)
  ⟨h.1, h.2.1, h.2.2.1, h.2.2.2 ex_env_exit { ret := 10 } rfl⟩

/-- C9. From any state whose scratch events have `status = 0`, as the zeroed
scratch records of the initial state do, and whatever the sequence of handler
invocations, every event emitted has `status = 0`: no handler writes the field. -/
theorem C9_status_always_zero (s : State)
    (hs : ∀ cpu, (s.l7_event_heap cpu).status = 0) (calls : List Call) (e : l7_event)
    (he : e ∈ (run s calls).2) : e.status = 0 :=
  run_status calls s hs e he

/-- C9 at the example of the specification, run from the initial state. -/
theorem C9_witness :
    (make_event l7_event_zero (mk_socket_key ex_id 5) (get_request ex_env_write ex_write)
      5000000).status = 0 :=
  C9_status_always_zero State.init (fun _ => rfl)
    [.enter_write ex_env_write ex_write, .enter_read ex_env_read ex_read,
      .exit_read ex_env_exit ex_exit] _ (by set_option maxRecDepth 100000 in decide)

/-- C10. A write whose buffer reference is null, or at which the sixteen
bytes of the classifier cannot all be read, emits nothing and leaves both
tables as they were: nothing is stored under its key and what was pending
there stays. -/
theorem C10_unreadable_write_changes_nothing
    (s : State) (ew : Env) (w : trace_event_raw_sys_enter_write)
    (h : w.buf = 0 ∨ ∃ i < 16, ew.mem (w.buf + i) = none) :
    (sys_enter_write ew w s).emitted = [] ∧
      (sys_enter_write ew w s).state.active_l7_requests = s.active_l7_requests ∧
      (sys_enter_write ew w s).state.active_reads = s.active_reads :=
  ⟨sys_enter_write_emitted ew w s,
    sys_enter_write_requests_of_not_get s (not_classified_get_of_unreadable h),
    sys_enter_write_active_reads ew w s⟩

/-- C10 at the write of the three bytes `GET` that end a mapping, made while
the request of the example is pending on the same socket. -/
theorem C10_witness :
    (sys_enter_write ex_env_write_edge ex_write_edge
        (run State.init [.enter_write ex_env_write ex_write]).1).emitted = [] ∧
      (sys_enter_write ex_env_write_edge ex_write_edge
        (run State.init [.enter_write ex_env_write ex_write]).1).state.active_l7_requests =
        (run State.init [.enter_write ex_env_write ex_write]).1.active_l7_requests ∧
      (sys_enter_write ex_env_write_edge ex_write_edge
        (run State.init [.enter_write ex_env_write ex_write]).1).state.active_reads =
        (run State.init [.enter_write ex_env_write ex_write]).1.active_reads :=
  C10_unreadable_write_changes_nothing _ ex_env_write_edge ex_write_edge
    (Or.inr ⟨3, by decide, by decide⟩)

/-! ## More on the maps, the handlers and sequences of calls -/

section maps
variable {K V : Type} [DecidableEq K]

theorem map_lookup_mem {k : K} {v : V} {m : BpfMap K V} (h : map_lookup k m = some v) :
    (k, v) ∈ m := by
  induction m with
  | nil => exact absurd h (by simp [map_lookup])
  | cons e m ih =>
    obtain ⟨k', v'⟩ := e
    by_cases hk : k' = k
    · rw [map_lookup, if_pos hk] at h
      cases h
      rw [hk]
      exact List.mem_cons_self _ _
    · rw [map_lookup, if_neg hk] at h
      exact List.mem_cons_of_mem _ (ih h)

theorem map_lookup_eq_none_of_forall_ne {k : K} {m : BpfMap K V} (h : ∀ p ∈ m, p.1 ≠ k) :
    map_lookup k m = none := by
  induction m with
  | nil => rfl
  | cons e m ih =>
    obtain ⟨k', v'⟩ := e
    rw [map_lookup, if_neg (h (k', v') (List.mem_cons_self _ _))]
    exact ih (fun p hp => h p (List.mem_cons_of_mem _ hp))

theorem map_lookup_append_of_forall_ne {k : K} {m₁ : BpfMap K V} (m₂ : BpfMap K V)
    (h : ∀ p ∈ m₁, p.1 ≠ k) : map_lookup k (m₁ ++ m₂) = map_lookup k m₂ := by
  induction m₁ with
  | nil => rfl
  | cons e m ih =>
    obtain ⟨k', v'⟩ := e
    rw [List.cons_append, map_lookup, if_neg (h (k', v') (List.mem_cons_self _ _))]
    exact ih (fun p hp => h p (List.mem_cons_of_mem _ hp))

theorem map_delete_subset (k : K) (m : BpfMap K V) : map_delete k m ⊆ m :=
  fun _ hp => (List.mem_filter.mp hp).1

theorem map_delete_length_le (k : K) (m : BpfMap K V) : (map_delete k m).length ≤ m.length :=
  List.length_filter_le _ _

theorem map_delete_length_lt {k : K} {v : V} {m : BpfMap K V} (h : map_lookup k m = some v) :
    (map_delete k m).length < m.length := by
  unfold map_delete
  rw [List.length_filter_lt_length_iff_exists]
  exact ⟨(k, v), map_lookup_mem h, by simp⟩

theorem lru_lookup_length_le (k : K) (m : BpfMap K V) : (lru_lookup k m).2.length ≤ m.length := by
  cases h : map_lookup k m with
  | none => rw [lru_lookup_snd_none h]
  | some v =>
    rw [lru_lookup_snd_some h, List.length_cons]
    exact map_delete_length_lt h

/-- An update of the hash map never changes what another key holds. -/
theorem map_lookup_hash_update_ne (cap : Nat) {k k' : K} (v : V) (m : BpfMap K V)
    (h : k' ≠ k) : map_lookup k' (hash_update cap k v m).2 = map_lookup k' m := by
  unfold hash_update
  split_ifs
  · rw [map_lookup_cons_ne _ _ (Ne.symm h), map_lookup_delete_ne _ h]
  · rw [map_lookup_cons_ne _ _ (Ne.symm h)]
  · rfl

/-- A full hash map that does not hold the key is left as it was. -/
theorem hash_update_of_full {cap : Nat} {k : K} (v : V) {m : BpfMap K V}
    (h₁ : map_lookup k m = none) (h₂ : cap ≤ m.length) : (hash_update cap k v m).2 = m := by
  unfold hash_update
  rw [if_neg (by simp [h₁]), if_neg (not_lt.mpr h₂)]

theorem hash_update_length_le (cap : Nat) (k : K) (v : V) (m : BpfMap K V) :
    (hash_update cap k v m).2.length ≤ m.length + 1 := by
  unfold hash_update
  split_ifs
  · rw [List.length_cons]; exact Nat.succ_le_succ (map_delete_length_le k m)
  · rw [List.length_cons]
  · exact Nat.le_succ _

theorem map_count_hash_update_self {cap : Nat} {k : K} (v : V) {m : BpfMap K V}
    (h : (map_lookup k m).isSome ∨ m.length < cap) :
    map_count k (hash_update cap k v m).2 = 1 := by
  unfold hash_update
  split_ifs with h₁ h₂
  · rw [map_count_cons_self, map_count_delete_self]
  · have hn : map_lookup k m = none := by simpa using h₁
    rw [map_count_cons_self, map_count_of_lookup_none hn]
  · rcases h with h | h
    · exact absurd h h₁
    · exact absurd h h₂

theorem map_lookup_filter_key (p : K → Bool) (k : K) (m : BpfMap K V) :
    map_lookup k (m.filter (fun e => p e.1)) = if p k then map_lookup k m else none := by
  induction m with
  | nil => simp [map_lookup]
  | cons e m ih =>
    obtain ⟨k', v'⟩ := e
    by_cases hp : p k' = true
    · rw [List.filter_cons_of_pos (by simpa using hp)]
      by_cases hk : k' = k
      · subst hk
        rw [map_lookup_cons_self, map_lookup_cons_self, if_pos hp]
      · rw [map_lookup_cons_ne _ _ hk, map_lookup_cons_ne _ _ hk, ih]
    · rw [List.filter_cons_of_neg (by simpa using hp), ih]
      by_cases hk : k' = k
      · subst hk
        rw [if_neg hp, if_neg hp]
      · rw [map_lookup_cons_ne _ _ hk]

theorem map_lookup_take (k : K) (m : BpfMap K V) :
    ∀ n, map_lookup k (m.take n) = map_lookup k m ∨ map_lookup k (m.take n) = none := by
  induction m with
  | nil => intro n; left; simp
  | cons e m ih =>
    intro n
    obtain ⟨k', v'⟩ := e
    cases n with
    | zero => right; rfl
    | succ n =>
      rw [List.take_succ_cons]
      by_cases hk : k' = k
      · subst hk
        left
        rw [map_lookup_cons_self, map_lookup_cons_self]
      · rw [map_lookup_cons_ne _ _ hk, map_lookup_cons_ne _ _ hk]
        exact ih n

/-- An update of the LRU map leaves under another key what it held, or
nothing: the entry can be evicted, never changed. -/
theorem map_lookup_lru_update_ne_or (cap : Nat) (evict : K → Bool) {k k' : K} (v : V)
    (m : BpfMap K V) (h : k' ≠ k) :
    map_lookup k' (lru_update cap evict k v m).2 = map_lookup k' m ∨
      map_lookup k' (lru_update cap evict k v m).2 = none := by
  show map_lookup k' ((k, v) :: _) = _ ∨ map_lookup k' ((k, v) :: _) = none
  rw [map_lookup_cons_ne _ _ (Ne.symm h)]
  rcases map_lookup_take k' ((map_delete k m).filter (fun e => !evict e.1)) (cap - 1)
    with h' | h'
  · rw [h', map_lookup_filter_key (fun a => !evict a) k' (map_delete k m)]
    by_cases he : (!evict k') = true
    · left; rw [if_pos he, map_lookup_delete_ne _ h]
    · right; rw [if_neg he]
  · right; exact h'

/-- An entry the kernel evicts during the update is gone. -/
theorem map_lookup_lru_update_evicted (cap : Nat) {evict : K → Bool} {k k' : K} (v : V)
    (m : BpfMap K V) (h : k' ≠ k) (hev : evict k' = true) :
    map_lookup k' (lru_update cap evict k v m).2 = none := by
  show map_lookup k' ((k, v) :: _) = none
  rw [map_lookup_cons_ne _ _ (Ne.symm h)]
  rcases map_lookup_take k' ((map_delete k m).filter (fun e => !evict e.1)) (cap - 1)
    with h' | h'
  · rw [h', map_lookup_filter_key (fun a => !evict a) k' (map_delete k m), if_neg (by simp [hev])]
  · exact h'

/-- An update of the LRU map during which the kernel does not evict the entry
of another key, in a map that has room once the key written is set aside,
leaves what that key holds. -/
theorem map_lookup_lru_update_ne {cap : Nat} {evict : K → Bool} {k k' : K} (v : V)
    {m : BpfMap K V} (hroom : (map_delete k m).length < cap) (h : k' ≠ k)
    (hev : evict k' = false) :
    map_lookup k' (lru_update cap evict k v m).2 = map_lookup k' m := by
  show map_lookup k' ((k, v) :: _) = _
  have hlen : ((map_delete k m).filter (fun e => !evict e.1)).length ≤ cap - 1 :=
    (List.length_filter_le _ _).trans (by omega)
  rw [map_lookup_cons_ne _ _ (Ne.symm h), List.take_of_length_le hlen,
    map_lookup_filter_key (fun a => !evict a) k' (map_delete k m), if_pos (by simp [hev]),
    map_lookup_delete_ne _ h]

/-- The entries an update of the LRU map leaves besides the one written are
entries the map had, in their order, and at most `cap - 1` of them. -/
theorem lru_update_sublist (cap : Nat) (evict : K → Bool) (k : K) (v : V) (m : BpfMap K V) :
    ∃ rest, (lru_update cap evict k v m).2 = (k, v) :: rest ∧ rest.Sublist m ∧
      rest.length ≤ cap - 1 :=
  ⟨_, rfl, ((List.take_sublist _ _).trans (List.filter_sublist _)).trans
    (List.filter_sublist _), by rw [List.length_take]; exact Nat.min_le_left _ _⟩

end maps

theorem sys_enter_read_request_heap (env : Env) (ctx : trace_event_raw_sys_enter_read)
    (s : State) : (sys_enter_read env ctx s).state.l7_request_heap = s.l7_request_heap := by
  simp only [sys_enter_read]
  split <;> rfl

/-- What `sys_enter_read` leaves in `active_reads`, whether the key is tracked
or not. -/
theorem sys_enter_read_reads (env : Env) (ctx : trace_event_raw_sys_enter_read) (s : State) :
    (sys_enter_read env ctx s).state.active_reads = s.active_reads ∨
      (sys_enter_read env ctx s).state.active_reads =
        (hash_update ACTIVE_READS_MAX env.pid_tgid
          { fd := ctx.fd, buf := ctx.buf, size := ctx.count } s.active_reads).2 := by
  cases h : map_lookup (mk_socket_key env.pid_tgid ctx.fd) s.active_l7_requests with
  | none => rw [sys_enter_read_of_untracked h]; exact Or.inl rfl
  | some req => exact Or.inr (sys_enter_read_reads_of_tracked h)

theorem sys_enter_read_reads_ne (env : Env) (ctx : trace_event_raw_sys_enter_read) (s : State)
    {id : Nat} (h : id ≠ env.pid_tgid) :
    map_lookup id (sys_enter_read env ctx s).state.active_reads = map_lookup id s.active_reads := by
  rcases sys_enter_read_reads env ctx s with h' | h'
  · rw [h']
  · rw [h', map_lookup_hash_update_ne _ _ _ h]

theorem sys_enter_read_requests_lookup (env : Env) (ctx : trace_event_raw_sys_enter_read)
    (s : State) (k : socket_key) :
    map_lookup k (sys_enter_read env ctx s).state.active_l7_requests =
      map_lookup k s.active_l7_requests := by
  rw [sys_enter_read_requests, map_lookup_lru_lookup]

/-- A write leaves under another key what it held, or nothing: the entry can
be evicted, never changed. -/
theorem sys_enter_write_requests_lookup_ne_or (env : Env)
    (ctx : trace_event_raw_sys_enter_write) (s : State) {k : socket_key}
    (h : k ≠ mk_socket_key env.pid_tgid ctx.fd) :
    map_lookup k (sys_enter_write env ctx s).state.active_l7_requests =
        map_lookup k s.active_l7_requests ∨
      map_lookup k (sys_enter_write env ctx s).state.active_l7_requests = none := by
  by_cases hc : classified_get env ctx
  · rw [sys_enter_write_requests_of_get s hc]
    exact map_lookup_lru_update_ne_or _ _ _ _ h
  · rw [sys_enter_write_requests_of_not_get s hc]
    exact Or.inl rfl

/-- A write to a table below capacity leaves what another key holds when the
kernel does not evict that key during the insertion. -/
theorem sys_enter_write_requests_lookup_ne (env : Env) (ctx : trace_event_raw_sys_enter_write)
    {s : State} {k : socket_key}
    (hroom : s.active_l7_requests.length < ACTIVE_L7_REQUESTS_MAX)
    (h : k ≠ mk_socket_key env.pid_tgid ctx.fd) (hev : env.lru_evict k = false) :
    map_lookup k (sys_enter_write env ctx s).state.active_l7_requests =
      map_lookup k s.active_l7_requests := by
  by_cases hc : classified_get env ctx
  · rw [sys_enter_write_requests_of_get s hc,
      map_lookup_lru_update_ne _ (lt_of_le_of_lt (map_delete_length_le _ _) hroom) h hev]
  · rw [sys_enter_write_requests_of_not_get s hc]

theorem sys_exit_read_reads_ne (env : Env) (ctx : trace_event_raw_sys_exit_read) (s : State)
    {id : Nat} (h : id ≠ env.pid_tgid) :
    map_lookup id (sys_exit_read env ctx s).state.active_reads = map_lookup id s.active_reads := by
  by_cases hm : full_match env ctx s
  · obtain ⟨hret, read_info, h1, req, h2⟩ := hm
    rw [sys_exit_read_of_match hret h1 h2]
    exact map_lookup_delete_ne _ h
  · rw [sys_exit_read_of_not_match hm]

theorem sys_exit_read_requests_ne (env : Env) (ctx : trace_event_raw_sys_exit_read) {s : State}
    {read_info : read_args} (h1 : map_lookup env.pid_tgid s.active_reads = some read_info)
    {k : socket_key} (h : k ≠ mk_socket_key env.pid_tgid read_info.fd) :
    map_lookup k (sys_exit_read env ctx s).state.active_l7_requests =
      map_lookup k s.active_l7_requests := by
  by_cases hm : full_match env ctx s
  · obtain ⟨hret, read_info', h1', req, h2⟩ := hm
    rw [sys_exit_read_of_match hret h1' h2]
    have : read_info' = read_info := Option.some.inj (h1'.symm.trans h1)
    rw [this]
    exact map_lookup_delete_ne _ h
  · rw [sys_exit_read_of_not_match hm]

theorem hash_update_lookup_fd (cap : Nat) (id id' : Nat) (a₁ a₂ : read_args)
    (m : BpfMap Nat read_args) (h : a₁.fd = a₂.fd) :
    (map_lookup id' (hash_update cap id a₁ m).2).map read_args.fd =
      (map_lookup id' (hash_update cap id a₂ m).2).map read_args.fd := by
  by_cases hid : id' = id
  · subst hid
    unfold hash_update
    split_ifs
    · rw [map_lookup_cons_self, map_lookup_cons_self, Option.map_some', Option.map_some', h]
    · rw [map_lookup_cons_self, map_lookup_cons_self, Option.map_some', Option.map_some', h]
    · rfl
  · rw [map_lookup_hash_update_ne _ _ _ hid, map_lookup_hash_update_ne _ _ _ hid]

/-- What `sys_exit_read` emits depends on the state only through the table,
the scratch event of the CPU and the fd stored for the context, and on the call
only through the sign of the return value, the context id, the time and the
CPU. -/
theorem sys_exit_read_emitted_congr {ex₁ ex₂ : Env} {x₁ x₂ : trace_event_raw_sys_exit_read}
    {s₁ s₂ : State} (hid : ex₁.pid_tgid = ex₂.pid_tgid) (ht : ex₁.ktime_ns = ex₂.ktime_ns)
    (hcpu : ex₁.cpu = ex₂.cpu) (h₁ : 0 < x₁.ret) (h₂ : 0 < x₂.ret)
    (hreq : s₁.active_l7_requests = s₂.active_l7_requests)
    (hheap : s₁.l7_event_heap = s₂.l7_event_heap)
    (hfd : (map_lookup ex₁.pid_tgid s₁.active_reads).map read_args.fd =
      (map_lookup ex₂.pid_tgid s₂.active_reads).map read_args.fd) :
    (sys_exit_read ex₁ x₁ s₁).emitted = (sys_exit_read ex₂ x₂ s₂).emitted := by
  cases ha : map_lookup ex₁.pid_tgid s₁.active_reads with
  | none =>
    rw [ha] at hfd
    have hb : map_lookup ex₂.pid_tgid s₂.active_reads = none := by
      cases hb : map_lookup ex₂.pid_tgid s₂.active_reads with
      | none => rfl
      | some b => rw [hb] at hfd; exact absurd hfd (by simp)
    rw [sys_exit_read_of_no_read ha, sys_exit_read_of_no_read hb]
  | some a =>
    rw [ha] at hfd
    cases hb : map_lookup ex₂.pid_tgid s₂.active_reads with
    | none => rw [hb] at hfd; exact absurd hfd (by simp)
    | some b =>
      rw [hb] at hfd
      have hab : a.fd = b.fd := by simpa using hfd
      cases hr : map_lookup (mk_socket_key ex₁.pid_tgid a.fd) s₁.active_l7_requests with
      | none =>
        have hr' : map_lookup (mk_socket_key ex₂.pid_tgid b.fd) s₂.active_l7_requests = none := by
          rw [← hid, ← hab, ← hreq]; exact hr
        rw [sys_exit_read_of_no_request ha hr, sys_exit_read_of_no_request hb hr']
      | some req =>
        have hr' : map_lookup (mk_socket_key ex₂.pid_tgid b.fd) s₂.active_l7_requests =
            some req := by
          rw [← hid, ← hab, ← hreq]; exact hr
        rw [sys_exit_read_of_match h₁ ha hr, sys_exit_read_of_match h₂ hb hr']
        simp only [hid, ht, hcpu, hab, hheap]

/-- Two runs of a read-entry followed by a read-exit that agree on the
context, the fd, the CPU and the read-exit time emit the same events. -/
theorem read_pair_emitted_congr
    (s : State) (er₁ er₂ ex₁ ex₂ : Env) (r₁ r₂ : trace_event_raw_sys_enter_read)
    (x₁ x₂ : trace_event_raw_sys_exit_read)
    (hid : er₁.pid_tgid = er₂.pid_tgid) (hfd : r₁.fd = r₂.fd)
    (hxid : ex₁.pid_tgid = ex₂.pid_tgid) (ht : ex₁.ktime_ns = ex₂.ktime_ns)
    (hcpu : ex₁.cpu = ex₂.cpu) (h₁ : 0 < x₁.ret) (h₂ : 0 < x₂.ret) :
    (run s [.enter_read er₁ r₁, .exit_read ex₁ x₁]).2 =
      (run s [.enter_read er₂ r₂, .exit_read ex₂ x₂]).2 := by
  have hreq : (sys_enter_read er₁ r₁ s).state.active_l7_requests =
      (sys_enter_read er₂ r₂ s).state.active_l7_requests := by
    rw [sys_enter_read_requests, sys_enter_read_requests, hid, hfd]
  have hheap : (sys_enter_read er₁ r₁ s).state.l7_event_heap =
      (sys_enter_read er₂ r₂ s).state.l7_event_heap := by
    rw [sys_enter_read_event_heap, sys_enter_read_event_heap]
  have hreads : (map_lookup ex₁.pid_tgid (sys_enter_read er₁ r₁ s).state.active_reads).map
        read_args.fd =
      (map_lookup ex₂.pid_tgid (sys_enter_read er₂ r₂ s).state.active_reads).map
        read_args.fd := by
    rw [← hxid]
    cases hk : map_lookup (mk_socket_key er₁.pid_tgid r₁.fd) s.active_l7_requests with
    | none =>
      have hk' : map_lookup (mk_socket_key er₂.pid_tgid r₂.fd) s.active_l7_requests = none := by
        rw [← hid, ← hfd]; exact hk
      rw [sys_enter_read_of_untracked hk, sys_enter_read_of_untracked hk']
    | some req =>
      have hk' : map_lookup (mk_socket_key er₂.pid_tgid r₂.fd) s.active_l7_requests =
          some req := by
        rw [← hid, ← hfd]; exact hk
      rw [sys_enter_read_reads_of_tracked hk, sys_enter_read_reads_of_tracked hk', ← hid]
      exact hash_update_lookup_fd _ _ _ _ _ _ hfd
  simp only [run_cons, run_nil, step, sys_enter_read_emitted, List.nil_append, List.append_nil]
  exact sys_exit_read_emitted_congr hxid ht hcpu h₁ h₂ hreq hheap hreads

theorem mk_socket_key_ne_of_pid_ne {id₁ id₂ : Nat} (fd₁ fd₂ : Nat) (h₁ : id₁ < 2 ^ 64)
    (h₂ : id₂ < 2 ^ 64) (h : id₁ >>> 32 ≠ id₂ >>> 32) :
    mk_socket_key id₁ fd₁ ≠ mk_socket_key id₂ fd₂ := by
  intro he
  have hp : (mk_socket_key id₁ fd₁).pid = (mk_socket_key id₂ fd₂).pid := by rw [he]
  rw [mk_socket_key_pid_of_lt fd₁ h₁, mk_socket_key_pid_of_lt fd₂ h₂] at hp
  exact h hp

theorem sys_exit_read_requests_lookup_of_pid_ne (env : Env) (ctx : trace_event_raw_sys_exit_read)
    (s : State) {id : Nat} (fd : Nat) (h₁ : id < 2 ^ 64) (h₂ : env.pid_tgid < 2 ^ 64)
    (h : id >>> 32 ≠ env.pid_tgid >>> 32) :
    map_lookup (mk_socket_key id fd) (sys_exit_read env ctx s).state.active_l7_requests =
      map_lookup (mk_socket_key id fd) s.active_l7_requests := by
  cases h1 : map_lookup env.pid_tgid s.active_reads with
  | none => rw [sys_exit_read_of_no_read h1]
  | some read_info =>
    exact sys_exit_read_requests_ne env ctx h1 (mk_socket_key_ne_of_pid_ne _ _ h₁ h₂ h)

theorem get_prefixed_of_classified_get {env : Env} {ctx : trace_event_raw_sys_enter_write}
    (h : classified_get env ctx) : get_prefixed_write env ctx :=
  (classified_get_iff env ctx).mp h

theorem run_append (s : State) (a b : List Call) :
    run s (a ++ b) = ((run (run s a).1 b).1, (run s a).2 ++ (run (run s a).1 b).2) := by
  induction a generalizing s with
  | nil => rfl
  | cons c cs ih =>
    rw [List.cons_append, run_cons, ih, run_cons, List.append_assoc]

section maps
variable {K V : Type} [DecidableEq K]

theorem lru_update_of_new {cap : Nat} {evict : K → Bool} {k : K} (v : V) {m : BpfMap K V}
    (h₁ : map_lookup k m = none) (h₂ : m.length < cap)
    (hev : ∀ p ∈ m, evict p.1 = false) :
    (lru_update cap evict k v m).2 = (k, v) :: m := by
  show (k, v) :: _ = _
  rw [map_delete_of_lookup_none h₁, List.filter_eq_self.mpr (fun p hp => by simp [hev p hp]),
    List.take_of_length_le (by omega)]

theorem hash_update_of_new {cap : Nat} {k : K} (v : V) {m : BpfMap K V}
    (h₁ : map_lookup k m = none) (h₂ : m.length < cap) :
    (hash_update cap k v m).2 = (k, v) :: m := by
  unfold hash_update
  rw [if_neg (by simp [h₁]), if_pos h₂]

end maps

/-- The state after writes that start with `GET` on keys that are new and
distinct, while the table has room for them and the kernel evicts nothing: the
requests are in the table in the order of their writes, the latest first. -/
theorem run_writes (ew : Nat → Env) (w : Nat → trace_event_raw_sys_enter_write) (n : Nat) :
    ∀ s : State, (∀ i < n, classified_get (ew i) (w i)) →
      (∀ i < n, ∀ j < n, i ≠ j →
        mk_socket_key (ew i).pid_tgid (w i).fd ≠ mk_socket_key (ew j).pid_tgid (w j).fd) →
      (∀ i < n, ∀ p ∈ s.active_l7_requests, p.1 ≠ mk_socket_key (ew i).pid_tgid (w i).fd) →
      s.active_l7_requests.length + n ≤ ACTIVE_L7_REQUESTS_MAX →
      (∀ i < n, ∀ k, (ew i).lru_evict k = false) →
      (run s ((List.range n).map (fun i => Call.enter_write (ew i) (w i)))).1.active_l7_requests
          = (List.range n).reverse.map
              (fun i => (mk_socket_key (ew i).pid_tgid (w i).fd, get_request (ew i) (w i)))
            ++ s.active_l7_requests ∧
        (run s ((List.range n).map (fun i => Call.enter_write (ew i) (w i)))).1.active_reads
          = s.active_reads ∧
        (run s ((List.range n).map (fun i => Call.enter_write (ew i) (w i)))).1.l7_event_heap
          = s.l7_event_heap ∧
        (run s ((List.range n).map (fun i => Call.enter_write (ew i) (w i)))).2 = [] := by
  induction n with
  | zero => intro s _ _ _ _ _; exact ⟨rfl, rfl, rfl, rfl⟩
  | succ n ih =>
    intro s hget hkeys hnew hcap hev
    obtain ⟨h1, h2, h3, h4⟩ := ih s (fun i hi => hget i (Nat.lt_succ_of_lt hi))
      (fun i hi j hj => hkeys i (Nat.lt_succ_of_lt hi) j (Nat.lt_succ_of_lt hj))
      (fun i hi => hnew i (Nat.lt_succ_of_lt hi)) (by omega)
      (fun i hi => hev i (Nat.lt_succ_of_lt hi))
    rw [List.range_succ, List.map_append, run_append]
    simp only [List.map_cons, List.map_nil, run_cons, run_nil, step, List.append_nil]
    have hnone : map_lookup (mk_socket_key (ew n).pid_tgid (w n).fd)
        (run s ((List.range n).map
          (fun i => Call.enter_write (ew i) (w i)))).1.active_l7_requests = none := by
      apply map_lookup_eq_none_of_forall_ne
      intro p hp
      rw [h1] at hp
      rcases List.mem_append.mp hp with hp | hp
      · obtain ⟨i, hi, rfl⟩ := List.mem_map.mp hp
        have hi' : i < n := List.mem_range.mp (List.mem_reverse.mp hi)
        exact hkeys i (Nat.lt_succ_of_lt hi') n (Nat.lt_succ_self n) (Nat.ne_of_lt hi')
      · exact hnew n (Nat.lt_succ_self n) p hp
    have hlen : (run s ((List.range n).map
        (fun i => Call.enter_write (ew i) (w i)))).1.active_l7_requests.length <
          ACTIVE_L7_REQUESTS_MAX := by
      rw [h1, List.length_append, List.length_map, List.length_reverse, List.length_range]
      omega
    refine ⟨?_, ?_, ?_, ?_⟩
    · rw [sys_enter_write_requests_of_get _ (hget n (Nat.lt_succ_self n)),
        lru_update_of_new _ hnone hlen (fun p _ => hev n (Nat.lt_succ_self n) p.1), h1, List.reverse_append, List.reverse_singleton,
        List.singleton_append, List.map_cons, List.cons_append]
    · rw [sys_enter_write_active_reads, h2]
    · rw [sys_enter_write_event_heap, h3]
    · rw [h4, sys_enter_write_emitted]; rfl

/-- The state after read-entries by distinct contexts that have no entry in
`active_reads`, each on a key with a pending request, while `active_reads` has
room for them: their entries are in `active_reads` in the order of the reads,
the latest first, and the contents of the table are as before. -/
theorem run_reads (er : Nat → Env) (r : Nat → trace_event_raw_sys_enter_read) (n : Nat) :
    ∀ s : State,
      (∀ i < n, (map_lookup (mk_socket_key (er i).pid_tgid (r i).fd)
        s.active_l7_requests).isSome) →
      (∀ i < n, ∀ j < n, i ≠ j → (er i).pid_tgid ≠ (er j).pid_tgid) →
      (∀ i < n, ∀ p ∈ s.active_reads, p.1 ≠ (er i).pid_tgid) →
      s.active_reads.length + n ≤ ACTIVE_READS_MAX →
      (run s ((List.range n).map (fun i => Call.enter_read (er i) (r i)))).1.active_reads
          = (List.range n).reverse.map
              (fun i => ((er i).pid_tgid,
                ({ fd := (r i).fd, buf := (r i).buf, size := (r i).count } : read_args)))
            ++ s.active_reads ∧
        (∀ k, map_lookup k
          (run s ((List.range n).map
            (fun i => Call.enter_read (er i) (r i)))).1.active_l7_requests
          = map_lookup k s.active_l7_requests) ∧
        (run s ((List.range n).map (fun i => Call.enter_read (er i) (r i)))).1.l7_event_heap
          = s.l7_event_heap ∧
        (run s ((List.range n).map (fun i => Call.enter_read (er i) (r i)))).2 = [] := by
  induction n with
  | zero => intro s _ _ _ _; exact ⟨rfl, fun _ => rfl, rfl, rfl⟩
  | succ n ih =>
    intro s htracked hids hnew hcap
    obtain ⟨h1, h2, h3, h4⟩ := ih s (fun i hi => htracked i (Nat.lt_succ_of_lt hi))
      (fun i hi j hj => hids i (Nat.lt_succ_of_lt hi) j (Nat.lt_succ_of_lt hj))
      (fun i hi => hnew i (Nat.lt_succ_of_lt hi)) (by omega)
    rw [List.range_succ, List.map_append, run_append]
    simp only [List.map_cons, List.map_nil, run_cons, run_nil, step, List.append_nil]
    have hnone : map_lookup (er n).pid_tgid
        (run s ((List.range n).map
          (fun i => Call.enter_read (er i) (r i)))).1.active_reads = none := by
      apply map_lookup_eq_none_of_forall_ne
      intro p hp
      rw [h1] at hp
      rcases List.mem_append.mp hp with hp | hp
      · obtain ⟨i, hi, rfl⟩ := List.mem_map.mp hp
        have hi' : i < n := List.mem_range.mp (List.mem_reverse.mp hi)
        exact hids i (Nat.lt_succ_of_lt hi') n (Nat.lt_succ_self n) (Nat.ne_of_lt hi')
      · exact hnew n (Nat.lt_succ_self n) p hp
    have hlen : (run s ((List.range n).map
        (fun i => Call.enter_read (er i) (r i)))).1.active_reads.length < ACTIVE_READS_MAX := by
      rw [h1, List.length_append, List.length_map, List.length_reverse, List.length_range]
      omega
    obtain ⟨req, hreq⟩ := Option.isSome_iff_exists.mp (htracked n (Nat.lt_succ_self n))
    rw [← h2] at hreq
    refine ⟨?_, fun k => ?_, ?_, ?_⟩
    · rw [sys_enter_read_reads_of_tracked hreq, hash_update_of_new _ hnone hlen, h1,
        List.reverse_append, List.reverse_singleton, List.singleton_append, List.map_cons,
        List.cons_append]
    · rw [sys_enter_read_requests_lookup, h2]
    · rw [sys_enter_read_event_heap, h3]
    · rw [h4, sys_enter_read_emitted]; rfl

theorem sys_exit_read_reads_subset (env : Env) (ctx : trace_event_raw_sys_exit_read)
    (s : State) : (sys_exit_read env ctx s).state.active_reads ⊆ s.active_reads := by
  by_cases hm : full_match env ctx s
  · obtain ⟨hret, read_info, h1, req, h2⟩ := hm
    rw [sys_exit_read_of_match hret h1 h2]
    exact map_delete_subset _ _
  · rw [sys_exit_read_of_not_match hm]
    exact List.Subset.refl _

/-- The fd of an event `sys_exit_read` emits is the fd of an entry of
`active_reads`. -/
theorem sys_exit_read_emitted_fd (env : Env) (ctx : trace_event_raw_sys_exit_read) (s : State) :
    ∀ e ∈ (sys_exit_read env ctx s).emitted, ∃ p ∈ s.active_reads, e.fd = p.2.fd := by
  intro e he
  by_cases hm : full_match env ctx s
  · obtain ⟨hret, read_info, h1, req, h2⟩ := hm
    rw [sys_exit_read_of_match hret h1 h2, List.mem_singleton] at he
    exact ⟨_, map_lookup_mem h1, by rw [he]; rfl⟩
  · rw [sys_exit_read_of_not_match hm] at he
    exact absurd he (List.not_mem_nil e)

/-- Read-exits alone emit no event for an fd that no entry of `active_reads`
carries. -/
theorem run_exits_fd_ne (f : Nat) (ex : Nat → Env) (x : Nat → trace_event_raw_sys_exit_read)
    (l : List Nat) :
    ∀ s : State, (∀ p ∈ s.active_reads, p.2.fd ≠ f) →
      ∀ e ∈ (run s (l.map (fun i => Call.exit_read (ex i) (x i)))).2, e.fd ≠ f := by
  induction l with
  | nil => intro s _ e he; exact absurd he (List.not_mem_nil e)
  | cons i l ih =>
    intro s hs e he
    rw [List.map_cons, run_cons] at he
    rcases List.mem_append.mp he with h | h
    · obtain ⟨p, hp, hfd⟩ := sys_exit_read_emitted_fd (ex i) (x i) s e h
      rw [hfd]; exact hs p hp
    · exact ih _ (fun p hp => hs p (sys_exit_read_reads_subset (ex i) (x i) s hp)) e h

/-! ## Schedules -/

theorem interleave_append (S : Nat → Session) (a b : List Nat) :
    ∀ ph, interleave S (a ++ b) ph = interleave S a ph ++ interleave S b (phases_after a ph) := by
  induction a with
  | nil => intro ph; rfl
  | cons i a ih =>
    intro ph
    rw [List.cons_append, interleave, interleave, phases_after, ih, List.cons_append]

theorem phases_after_append (a b : List Nat) :
    ∀ ph, phases_after (a ++ b) ph = phases_after b (phases_after a ph) := by
  induction a with
  | nil => intro ph; rfl
  | cons i a ih =>
    intro ph
    rw [List.cons_append, phases_after, phases_after, ih]

/-- After a schedule each socket has made one call more for each time the
schedule names it. -/
theorem phases_after_apply (l : List Nat) :
    ∀ (ph : Nat → Nat) (j : Nat), phases_after l ph j = ph j + l.count j := by
  induction l with
  | nil => intro ph j; simp [phases_after]
  | cons i l ih =>
    intro ph j
    rw [phases_after, ih]
    by_cases h : i = j
    · subst h
      rw [Function.update_same, List.count_cons_self]
      omega
    · rw [Function.update_noteq (Ne.symm h), List.count_cons_of_ne (Ne.symm h)]

theorem phases_after_range (n : Nat) (ph : Nat → Nat) (j : Nat) :
    phases_after (List.range n) ph j = if j < n then ph j + 1 else ph j := by
  rw [phases_after_apply]
  by_cases h : j < n
  · rw [if_pos h, List.count_eq_one_of_mem (List.nodup_range n) (List.mem_range.mpr h)]
  · rw [if_neg h, List.count_eq_zero_of_not_mem (fun hm => h (List.mem_range.mp hm))]
    rfl

/-- One round: the sockets below `n`, in order, each make the call of the phase
they are in. -/
theorem interleave_range (S : Nat → Session) (n : Nat) (ph : Nat → Nat) :
    interleave S (List.range n) ph = (List.range n).map (fun i => (S i).call (ph i)) := by
  induction n with
  | zero => rfl
  | succ n ih =>
    rw [List.range_succ, interleave_append, ih, List.map_append]
    simp only [interleave, List.map_cons, List.map_nil]
    rw [phases_after_range, if_neg (Nat.lt_irrefl n)]

theorem interleave_writes_then_reads (S : Nat → Session) (n m : Nat) (hm : m ≤ n) :
    interleave S (List.range n ++ List.range m) (fun _ => 0) =
      (List.range n).map (fun i => Call.enter_write (S i).ew (S i).w) ++
        (List.range m).map (fun i => Call.enter_read (S i).er (S i).r) := by
  rw [interleave_append, interleave_range, interleave_range]
  congr 1
  apply List.map_congr_left
  intro i hi
  have hi' : i < n := lt_of_lt_of_le (List.mem_range.mp hi) hm
  rw [phases_after_range, if_pos hi']
  rfl

theorem interleave_three_rounds (S : Nat → Session) (n : Nat) :
    interleave S (List.range n ++ (List.range n ++ List.range n)) (fun _ => 0) =
      (List.range n).map (fun i => Call.enter_write (S i).ew (S i).w) ++
        ((List.range n).map (fun i => Call.enter_read (S i).er (S i).r) ++
          (List.range n).map (fun i => Call.exit_read (S i).ex (S i).x)) := by
  rw [interleave_append, interleave_append, interleave_range, interleave_range,
    interleave_range]
  congr 1
  congr 1
  · apply List.map_congr_left
    intro i hi
    rw [phases_after_range, if_pos (List.mem_range.mp hi)]
    rfl
  · apply List.map_congr_left
    intro i hi
    rw [phases_after_range, if_pos (List.mem_range.mp hi), phases_after_range,
      if_pos (List.mem_range.mp hi)]
    rfl

/-! ## The example sockets -/

theorem classified_get_congr {env env' : Env} {ctx ctx' : trace_event_raw_sys_enter_write}
    (hm : env.mem = env'.mem) (hb : ctx.buf = ctx'.buf) (h : classified_get env' ctx') :
    classified_get env ctx := by
  unfold classified_get at h ⊢
  rw [hm, hb]; exact h

theorem ex_session_classified (i : Nat) : classified_get (ex_session i).ew (ex_session i).w :=
  @classified_get_congr _ ex_env_write _ ex_write rfl rfl (by decide)

theorem ex_session_key (i : Nat) (hi : i < 2 ^ 32) :
    mk_socket_key (ex_session i).ew.pid_tgid (ex_session i).w.fd = { fd := i, pid := 100 } := by
  simp only [mk_socket_key, ex_session, Nat.shiftRight_eq_div_pow]
  congr 1
  omega

theorem ex_session_read_key (i : Nat) (hi : i < 2 ^ 32) :
    mk_socket_key (ex_session i).er.pid_tgid (ex_session i).r.fd = { fd := i, pid := 100 } :=
  ex_session_key i hi

theorem ex_session_keys_ne {n : Nat} (hn : n ≤ 2 ^ 32) :
    ∀ i < n, ∀ j < n, i ≠ j →
      mk_socket_key (ex_session i).ew.pid_tgid (ex_session i).w.fd ≠
        mk_socket_key (ex_session j).ew.pid_tgid (ex_session j).w.fd := by
  intro i hi j hj hne h
  rw [ex_session_key i (lt_of_lt_of_le hi hn), ex_session_key j (lt_of_lt_of_le hj hn)] at h
  exact hne (congrArg socket_key.fd h)

theorem ex_session_exit_id (i : Nat) :
    (ex_session i).ex.pid_tgid = (ex_session i).er.pid_tgid := rfl

theorem ex_session_ids_ne {i j : Nat} (h : i ≠ j) :
    (ex_session i).er.pid_tgid ≠ (ex_session j).er.pid_tgid := by
  simp only [ex_session]
  omega

section maps
variable {K V : Type} [DecidableEq K]

theorem map_lookup_map_of_mem (f : Nat → K) (g : Nat → V) (l : List Nat) (j : Nat)
    (hj : j ∈ l) (hinj : ∀ i ∈ l, f i = f j → i = j) :
    map_lookup (f j) (l.map (fun i => (f i, g i))) = some (g j) := by
  induction l with
  | nil => exact absurd hj (List.not_mem_nil j)
  | cons a l ih =>
    rw [List.map_cons, map_lookup]
    by_cases h : f a = f j
    · rw [if_pos h, hinj a (List.mem_cons_self _ _) h]
    · rw [if_neg h]
      rcases List.mem_cons.mp hj with hj | hj
      · exact absurd (congrArg f hj.symm) h
      · exact ih hj (fun i hi => hinj i (List.mem_cons_of_mem _ hi))

end maps

/-- The state after the writes of the sockets below `n` and the read-entries
of the sockets below `m`, for `m ≤ n`, `m` within the capacity of
`active_reads` and `n` within that of the table. -/
theorem ex_state_after_fill (n m : Nat) (hm : m ≤ n) (hm' : m ≤ ACTIVE_READS_MAX)
    (hn : n ≤ ACTIVE_L7_REQUESTS_MAX) :
    (run State.init (interleave ex_session (List.range n ++ List.range m)
        (fun _ => 0))).1.active_reads =
      (List.range m).reverse.map (fun i => ((ex_session i).er.pid_tgid,
        ({ fd := (ex_session i).r.fd, buf := (ex_session i).r.buf,
           size := (ex_session i).r.count } : read_args))) ∧
    (∀ j < n, map_lookup (mk_socket_key (ex_session j).er.pid_tgid (ex_session j).r.fd)
      (run State.init (interleave ex_session (List.range n ++ List.range m)
        (fun _ => 0))).1.active_l7_requests =
        some (get_request (ex_session j).ew (ex_session j).w)) ∧
    (run State.init (interleave ex_session (List.range n ++ List.range m) (fun _ => 0))).2
      = [] := by
  have hn32 : n ≤ 2 ^ 32 := le_trans hn (by decide)
  obtain ⟨w1, w2, -, w4⟩ := run_writes (fun i => (ex_session i).ew) (fun i => (ex_session i).w)
    n State.init (fun i _ => ex_session_classified i) (ex_session_keys_ne hn32)
    (fun i _ p hp => absurd hp (List.not_mem_nil p))
    (by rw [show State.init.active_l7_requests = [] from rfl, List.length_nil, Nat.zero_add]
        exact hn)
    (fun _ _ _ => rfl)
  rw [show State.init.active_l7_requests = [] from rfl, List.append_nil] at w1
  rw [show State.init.active_reads = [] from rfl] at w2
  -- every socket below `n` has its request in the table after the writes
  have hlook : ∀ j < n, map_lookup
      (mk_socket_key (ex_session j).er.pid_tgid (ex_session j).r.fd)
      (run State.init ((List.range n).map
        (fun i => Call.enter_write (ex_session i).ew (ex_session i).w))).1.active_l7_requests =
        some (get_request (ex_session j).ew (ex_session j).w) := by
    intro j hj
    rw [w1]
    exact map_lookup_map_of_mem
      (fun i => mk_socket_key (ex_session i).ew.pid_tgid (ex_session i).w.fd)
      (fun i => get_request (ex_session i).ew (ex_session i).w) _ j
      (List.mem_reverse.mpr (List.mem_range.mpr hj))
      (fun i hi h => by
        by_contra hne
        exact ex_session_keys_ne hn32 i (List.mem_range.mp (List.mem_reverse.mp hi)) j hj hne h)
  obtain ⟨r1, r2, -, r4⟩ := run_reads (fun i => (ex_session i).er) (fun i => (ex_session i).r)
    m (run State.init ((List.range n).map
        (fun i => Call.enter_write (ex_session i).ew (ex_session i).w))).1
    (fun i hi => by rw [hlook i (lt_of_lt_of_le hi hm)]; rfl)
    (fun i _ j _ h => ex_session_ids_ne h)
    (fun i _ p hp => by rw [w2] at hp; exact absurd hp (List.not_mem_nil p))
    (by rw [w2, List.length_nil, Nat.zero_add]; exact hm')
  rw [interleave_writes_then_reads _ _ _ hm, run_append]
  refine ⟨?_, fun j hj => ?_, ?_⟩
  · rw [r1, w2, List.append_nil]
  · rw [r2, hlook j hj]
  · rw [w4, r4]; rfl

theorem interleave_three_rounds_succ (S : Nat → Session) (c : Nat) :
    interleave S (List.range (c + 1) ++ (List.range (c + 1) ++ List.range (c + 1)))
        (fun _ => 0) =
      (List.range (c + 1)).map (fun i => Call.enter_write (S i).ew (S i).w) ++
        ((List.range c).map (fun i => Call.enter_read (S i).er (S i).r) ++
          ([Call.enter_read (S c).er (S c).r] ++
            (List.range (c + 1)).map (fun i => Call.exit_read (S i).ex (S i).x))) := by
  have hr : (List.range (c + 1)).map (fun i => Call.enter_read (S i).er (S i).r) =
      (List.range c).map (fun i => Call.enter_read (S i).er (S i).r) ++
        [Call.enter_read (S c).er (S c).r] := by
    rw [List.range_succ, List.map_append]
    rfl
  rw [interleave_three_rounds, hr, List.append_assoc]

/-- With `active_reads` filled by the reads of the sockets below 10240, the
read-entry on socket 10240 is not stashed. -/
theorem ex_last_read_not_stashed (c : Nat) (hc : c = ACTIVE_READS_MAX) :
    map_lookup (mk_socket_key (ex_session c).er.pid_tgid (ex_session c).r.fd)
        (run State.init (interleave ex_session (List.range (c + 1) ++ List.range c)
          (fun _ => 0))).1.active_l7_requests =
        some (get_request (ex_session c).ew (ex_session c).w) ∧
      (sys_enter_read (ex_session c).er (ex_session c).r
        (run State.init (interleave ex_session (List.range (c + 1) ++ List.range c)
          (fun _ => 0))).1).state.active_reads =
        (List.range c).reverse.map (fun i => ((ex_session i).er.pid_tgid,
          ({ fd := (ex_session i).r.fd, buf := (ex_session i).r.buf,
             size := (ex_session i).r.count } : read_args))) ∧
      (run State.init (interleave ex_session (List.range (c + 1) ++ List.range c)
          (fun _ => 0))).2 = [] := by
  obtain ⟨h1, h2, h3⟩ := ex_state_after_fill (c + 1) c (Nat.le_succ c) (le_of_eq hc)
    (by rw [hc]; decide)
  have hreq := h2 c (Nat.lt_succ_self c)
  have hnone : map_lookup (ex_session c).er.pid_tgid
      (run State.init (interleave ex_session (List.range (c + 1) ++ List.range c)
        (fun _ => 0))).1.active_reads = none := by
    apply map_lookup_eq_none_of_forall_ne
    intro p hp
    rw [h1] at hp
    obtain ⟨i, hi, rfl⟩ := List.mem_map.mp hp
    exact ex_session_ids_ne (Nat.ne_of_lt (List.mem_range.mp (List.mem_reverse.mp hi)))
  have hfull : ACTIVE_READS_MAX ≤
      (run State.init (interleave ex_session (List.range (c + 1) ++ List.range c)
        (fun _ => 0))).1.active_reads.length := by
    rw [h1, List.length_map, List.length_reverse, List.length_range]
    exact le_of_eq hc.symm
  refine ⟨hreq, ?_, h3⟩
  rw [sys_enter_read_reads_of_tracked hreq, hash_update_of_full _ hnone hfull, h1]

/-- In the interleaving "all writes, all read-entries, all read-exits" of the
sockets 0 to 10240, no event carries the fd of socket 10240. -/
theorem ex_last_socket_no_event (c : Nat) (hc : c = ACTIVE_READS_MAX) :
    ¬ ∃ e, e ∈ (run State.init (interleave ex_session
        (List.range (c + 1) ++ (List.range (c + 1) ++ List.range (c + 1)))
        (fun _ => 0))).2 ∧ e.fd = (ex_session c).w.fd := by
  rintro ⟨e, he, hfd⟩
  obtain ⟨-, h2, h3⟩ := ex_last_read_not_stashed c hc
  rw [interleave_writes_then_reads ex_session (c + 1) c (Nat.le_succ c), run_append] at h2 h3
  rw [interleave_three_rounds_succ, run_append, run_append, run_append] at he
  rw [List.append_eq_nil] at h3
  simp only [h3.1, h3.2, List.nil_append, run_cons, run_nil, step, sys_enter_read_emitted,
    List.append_nil] at he
  refine run_exits_fd_ne (ex_session c).w.fd (fun i => (ex_session i).ex)
    (fun i => (ex_session i).x) (List.range (c + 1)) _ ?_ e he hfd
  intro p hp
  rw [h2] at hp
  obtain ⟨i, hi, rfl⟩ := List.mem_map.mp hp
  exact Nat.ne_of_lt (List.mem_range.mp (List.mem_reverse.mp hi))

/-- With `active_reads` full of the entries of other contexts, the retry of a
failed read on a socket whose request is pending emits nothing. -/
theorem ex_full_bridge_retry (c : Nat) (hc : c = ACTIVE_READS_MAX) :
    map_lookup (mk_socket_key (ex_session c).er.pid_tgid (ex_session c).r.fd)
        (run State.init (interleave ex_session (List.range (c + 1) ++ List.range c)
          (fun _ => 0))).1.active_l7_requests =
        some (get_request (ex_session c).ew (ex_session c).w) ∧
      (run State.init (interleave ex_session (List.range (c + 1) ++ List.range c)
          (fun _ => 0))).1.active_reads.length = ACTIVE_READS_MAX ∧
      map_lookup (ex_session c).er.pid_tgid
        (run State.init (interleave ex_session (List.range (c + 1) ++ List.range c)
          (fun _ => 0))).1.active_reads = none ∧
      (run (run State.init (interleave ex_session (List.range (c + 1) ++ List.range c)
          (fun _ => 0))).1
        [Call.exit_read (ex_session c).ex ex_exit_eagain,
          Call.enter_read (ex_session c).er (ex_session c).r,
          Call.exit_read (ex_session c).ex (ex_session c).x]).2 = [] := by
  obtain ⟨h1, -, -⟩ := ex_state_after_fill (c + 1) c (Nat.le_succ c) (le_of_eq hc)
    (by rw [hc]; decide)
  obtain ⟨hreq, h2, -⟩ := ex_last_read_not_stashed c hc
  have hnone : ∀ m : BpfMap Nat read_args,
      m = (List.range c).reverse.map (fun i => ((ex_session i).er.pid_tgid,
        ({ fd := (ex_session i).r.fd, buf := (ex_session i).r.buf,
           size := (ex_session i).r.count } : read_args))) →
      map_lookup (ex_session c).er.pid_tgid m = none := by
    intro m hm
    apply map_lookup_eq_none_of_forall_ne
    intro p hp
    rw [hm] at hp
    obtain ⟨i, hi, rfl⟩ := List.mem_map.mp hp
    exact ex_session_ids_ne (Nat.ne_of_lt (List.mem_range.mp (List.mem_reverse.mp hi)))
  refine ⟨hreq, ?_, hnone _ h1, ?_⟩
  · rw [h1, List.length_map, List.length_reverse, List.length_range]
    exact hc
  · generalize (run State.init (interleave ex_session (List.range (c + 1) ++ List.range c)
      (fun _ => 0))).1 = s at h2
    have hret : ex_exit_eagain.ret ≤ 0 := by decide
    have hid : map_lookup (ex_session c).ex.pid_tgid
        (sys_enter_read (ex_session c).er (ex_session c).r s).state.active_reads = none := by
      rw [ex_session_exit_id c]
      exact hnone _ h2
    simp only [run_cons, run_nil, step, sys_exit_read_of_ret_le s hret, sys_enter_read_emitted,
      sys_exit_read_of_no_read hid, List.nil_append, List.append_nil]

/-! ## Counting sockets by phase -/

theorem countP_update (p : Nat → Bool) (ph : Nat → Nat) (i c : Nat) (l : List Nat)
    (hl : l.Nodup) :
    l.countP (fun j => p (Function.update ph i c j)) +
        (if i ∈ l ∧ p (ph i) = true then 1 else 0) =
      l.countP (fun j => p (ph j)) + (if i ∈ l ∧ p c = true then 1 else 0) := by
  induction l with
  | nil => simp
  | cons a l ih =>
    have hnd := List.nodup_cons.mp hl
    have ih' := ih hnd.2
    rw [List.countP_cons, List.countP_cons]
    by_cases ha : a = i
    · subst ha
      have hnot : a ∉ l := hnd.1
      simp only [hnot, false_and, if_false, Nat.add_zero] at ih'
      simp only [Function.update_same, List.mem_cons, true_or, true_and, ih']
      by_cases h1 : p (ph a) = true <;> by_cases h2 : p c = true <;> simp [h1, h2]
    · have hne : i ≠ a := fun h => ha h.symm
      simp only [Function.update_noteq ha, List.mem_cons, hne, false_or]
      omega

theorem countP_range_update_same (p : Nat → Bool) (ph : Nat → Nat) (i c N : Nat)
    (h : p c = p (ph i)) :
    (List.range N).countP (fun j => p (Function.update ph i c j)) =
      (List.range N).countP (fun j => p (ph j)) := by
  have := countP_update p ph i c (List.range N) (List.nodup_range N)
  rw [h] at this
  omega

theorem countP_range_update_inc (p : Nat → Bool) (ph : Nat → Nat) (i c N : Nat) (hi : i < N)
    (h₁ : p (ph i) = false) (h₂ : p c = true) :
    (List.range N).countP (fun j => p (Function.update ph i c j)) =
      (List.range N).countP (fun j => p (ph j)) + 1 := by
  have := countP_update p ph i c (List.range N) (List.nodup_range N)
  simp only [List.mem_range, hi, h₁, h₂, true_and, if_true] at this
  simpa using this

theorem countP_range_update_dec (p : Nat → Bool) (ph : Nat → Nat) (i c N : Nat) (hi : i < N)
    (h₁ : p (ph i) = true) (h₂ : p c = false) :
    (List.range N).countP (fun j => p (Function.update ph i c j)) + 1 =
      (List.range N).countP (fun j => p (ph j)) := by
  have := countP_update p ph i c (List.range N) (List.nodup_range N)
  simp only [List.mem_range, hi, h₁, h₂, true_and, if_true] at this
  simpa using this

theorem in_flight_update_same (N : Nat) (ph : Nat → Nat) (i c : Nat) (h₁ : ph i ≠ 2)
    (h₂ : c ≠ 2) : in_flight N (Function.update ph i c) = in_flight N ph :=
  countP_range_update_same (fun v => decide (v = 2)) ph i c N (by simp [h₁, h₂])

theorem in_flight_update_inc (N : Nat) (ph : Nat → Nat) (i : Nat) (hi : i < N)
    (h : ph i ≠ 2) : in_flight N (Function.update ph i 2) = in_flight N ph + 1 :=
  countP_range_update_inc (fun v => decide (v = 2)) ph i 2 N hi (by simp [h]) (by simp)

theorem in_flight_update_dec (N : Nat) (ph : Nat → Nat) (i c : Nat) (hi : i < N)
    (h₁ : ph i = 2) (h₂ : c ≠ 2) :
    in_flight N (Function.update ph i c) + 1 = in_flight N ph :=
  countP_range_update_dec (fun v => decide (v = 2)) ph i c N hi (by simp [h₁]) (by simp [h₂])

theorem pending_update_same (N : Nat) (ph : Nat → Nat) (i : Nat) (h : ph i = 1) :
    pending N (Function.update ph i 2) = pending N ph :=
  countP_range_update_same (fun v => decide (v = 1 ∨ v = 2)) ph i 2 N (by simp [h])

theorem pending_update_inc (N : Nat) (ph : Nat → Nat) (i : Nat) (hi : i < N) (h : ph i = 0) :
    pending N (Function.update ph i 1) = pending N ph + 1 :=
  countP_range_update_inc (fun v => decide (v = 1 ∨ v = 2)) ph i 1 N hi (by simp [h])
    (by simp)

theorem pending_update_dec (N : Nat) (ph : Nat → Nat) (i : Nat) (hi : i < N) (h : ph i = 2) :
    pending N (Function.update ph i 3) + 1 = pending N ph :=
  countP_range_update_dec (fun v => decide (v = 1 ∨ v = 2)) ph i 3 N hi (by simp [h])
    (by simp)

theorem pending_le (N : Nat) (ph : Nat → Nat) : pending N ph ≤ N := by
  unfold pending
  exact le_trans (List.countP_le_length _) (le_of_eq (List.length_range N))

/-! ## Sockets served side by side: one step -/

theorem session_key_eq {pid : Nat} {σ : Session} (h : σ.ok pid) :
    σ.key = { fd := σ.w.fd, pid := pid } := by
  obtain ⟨-, -, hp, -⟩ := h
  simp only [mk_socket_key] at hp
  simp only [Session.key, mk_socket_key, hp]

theorem session_read_key {pid : Nat} {σ : Session} (h : σ.ok pid) :
    mk_socket_key σ.er.pid_tgid σ.r.fd = σ.key := by
  rw [session_key_eq h]
  obtain ⟨-, hfd, -, hp, -⟩ := h
  simp only [mk_socket_key] at hp
  simp only [mk_socket_key, hp, hfd]

theorem session_keys_ne {S : Nat → Session} {N pid : Nat} (hok : ∀ i < N, (S i).ok pid)
    (hfd : ∀ i < N, ∀ j < N, i ≠ j → (S i).w.fd ≠ (S j).w.fd) {i j : Nat} (hi : i < N)
    (hj : j < N) (h : i ≠ j) : (S i).key ≠ (S j).key := by
  rw [session_key_eq (hok i hi), session_key_eq (hok j hj)]
  intro he
  exact hfd i hi j hj h (congrArg socket_key.fd he)

/-- The event `sys_exit_read` makes of the request of a session is the event
of the session. -/
theorem make_event_of_session {pid : Nat} {σ : Session} (h : σ.ok pid) (scratch : l7_event)
    (hs : scratch.status = 0) (hp : scratch.padding = 0) :
    make_event scratch σ.key (get_request σ.ew σ.w) σ.ex.ktime_ns = σ.event pid := by
  have hk := session_key_eq h
  obtain ⟨-, -, -, -, -, -, hle, hlt⟩ := h
  simp only [make_event, Session.event, get_request, hk, hs, hp, u64_sub_of_le hlt hle]

/-- The step of a socket that has not been written. -/
theorem sockets_inv_write {S : Nat → Session} {N pid : Nat}
    (hN : N ≤ ACTIVE_L7_REQUESTS_MAX) (hok : ∀ i < N, (S i).ok pid)
    (hfd : ∀ i < N, ∀ j < N, i ≠ j → (S i).w.fd ≠ (S j).w.fd)
    {s : State} {ph : Nat → Nat} {i : Nat} (hinv : sockets_inv S N s ph) (hi : i < N)
    (h0 : ph i = 0) (hev : ∀ k, (S i).ew.lru_evict k = false) :
    sockets_inv S N (sys_enter_write (S i).ew (S i).w s).state (Function.update ph i 1) := by
  obtain ⟨ha, hb, hc, hd, he, hf, hg⟩ := hinv
  have hcls := classified_get_of_get_prefixed (hok i hi).1
  have hnone : map_lookup (mk_socket_key (S i).ew.pid_tgid (S i).w.fd) s.active_l7_requests
      = none := ha i hi (Or.inl h0)
  have hpend := pending_update_inc N ph i hi h0
  have hple := pending_le N (Function.update ph i 1)
  have hlen : s.active_l7_requests.length < ACTIVE_L7_REQUESTS_MAX := by omega
  have hreqs : (sys_enter_write (S i).ew (S i).w s).state.active_l7_requests =
      ((S i).key, get_request (S i).ew (S i).w) :: s.active_l7_requests := by
    rw [sys_enter_write_requests_of_get s hcls, lru_update_of_new _ hnone hlen (fun p _ => hev p.1)]
    rfl
  refine ⟨fun j hj hp => ?_, fun j hj hp => ?_, fun j hj hp => ?_,
    fun j hj k hk hjk hpj hpk => ?_, ?_, ?_, ?_⟩
  · by_cases hji : j = i
    · subst hji; rw [Function.update_same] at hp; omega
    · rw [Function.update_noteq hji] at hp
      rw [hreqs, map_lookup_cons_ne _ _ (session_keys_ne hok hfd hi hj (Ne.symm hji))]
      exact ha j hj hp
  · by_cases hji : j = i
    · subst hji; rw [hreqs, map_lookup_cons_self]
    · rw [Function.update_noteq hji] at hp
      rw [hreqs, map_lookup_cons_ne _ _ (session_keys_ne hok hfd hi hj (Ne.symm hji))]
      exact hb j hj hp
  · by_cases hji : j = i
    · subst hji; rw [Function.update_same] at hp; omega
    · rw [Function.update_noteq hji] at hp
      rw [sys_enter_write_active_reads]
      exact hc j hj hp
  · have hji : j ≠ i := by
      intro h; subst h; rw [Function.update_same] at hpj; omega
    have hki : k ≠ i := by
      intro h; subst h; rw [Function.update_same] at hpk; omega
    rw [Function.update_noteq hji] at hpj
    rw [Function.update_noteq hki] at hpk
    exact hd j hj k hk hjk hpj hpk
  · rw [hreqs, List.length_cons, hpend]; omega
  · rw [sys_enter_write_active_reads, in_flight_update_same N ph i 1 (by omega) (by omega)]
    exact hf
  · rw [sys_enter_write_event_heap]; exact hg

/-- The step of a socket whose read enters. -/
theorem sockets_inv_read {S : Nat → Session} {N pid : Nat}
    (hok : ∀ i < N, (S i).ok pid)
    {s : State} {ph : Nat → Nat} {i : Nat} (hinv : sockets_inv S N s ph) (hi : i < N)
    (h1 : ph i = 1)
    (hctx : ∀ j < N, ph j = 2 → (S j).er.pid_tgid ≠ (S i).er.pid_tgid)
    (hroom : in_flight N ph < ACTIVE_READS_MAX) :
    sockets_inv S N (sys_enter_read (S i).er (S i).r s).state (Function.update ph i 2) := by
  obtain ⟨ha, hb, hc, hd, he, hf, hg⟩ := hinv
  have hreq : map_lookup (mk_socket_key (S i).er.pid_tgid (S i).r.fd) s.active_l7_requests =
      some (get_request (S i).ew (S i).w) := by
    rw [session_read_key (hok i hi)]; exact hb i hi (Or.inl h1)
  have hrm : (map_lookup (S i).er.pid_tgid s.active_reads).isSome ∨
      s.active_reads.length < ACTIVE_READS_MAX := Or.inr (lt_of_le_of_lt hf hroom)
  refine ⟨fun j hj hp => ?_, fun j hj hp => ?_, fun j hj hp => ?_,
    fun j hj k hk hjk hpj hpk => ?_, ?_, ?_, ?_⟩
  · by_cases hji : j = i
    · subst hji; rw [Function.update_same] at hp; omega
    · rw [Function.update_noteq hji] at hp
      rw [sys_enter_read_requests_lookup]
      exact ha j hj hp
  · rw [sys_enter_read_requests_lookup]
    by_cases hji : j = i
    · subst hji; exact hb j hj (Or.inl h1)
    · rw [Function.update_noteq hji] at hp
      exact hb j hj hp
  · by_cases hji : j = i
    · subst hji
      rw [sys_enter_read_reads_of_tracked hreq]
      exact map_lookup_hash_update_self _ hrm
    · rw [Function.update_noteq hji] at hp
      rw [sys_enter_read_reads_ne _ _ _ (hctx j hj hp)]
      exact hc j hj hp
  · by_cases hji : j = i
    · subst hji
      have hki : k ≠ j := fun h => hjk h.symm
      rw [Function.update_noteq hki] at hpk
      exact (hctx k hk hpk).symm
    · rw [Function.update_noteq hji] at hpj
      by_cases hki : k = i
      · subst hki; exact hctx j hj hpj
      · rw [Function.update_noteq hki] at hpk
        exact hd j hj k hk hjk hpj hpk
  · rw [sys_enter_read_requests, pending_update_same N ph i h1]
    exact le_trans (lru_lookup_length_le _ _) he
  · rw [sys_enter_read_reads_of_tracked hreq, in_flight_update_inc N ph i hi (by omega)]
    exact le_trans (hash_update_length_le _ _ _ _) (Nat.succ_le_succ hf)
  · rw [sys_enter_read_event_heap]; exact hg

/-- The step of a socket whose read exits: its event is emitted. -/
theorem sockets_inv_exit {S : Nat → Session} {N pid : Nat}
    (hok : ∀ i < N, (S i).ok pid)
    (hfd : ∀ i < N, ∀ j < N, i ≠ j → (S i).w.fd ≠ (S j).w.fd)
    {s : State} {ph : Nat → Nat} {i : Nat} (hinv : sockets_inv S N s ph) (hi : i < N)
    (h2 : ph i = 2) :
    sockets_inv S N (sys_exit_read (S i).ex (S i).x s).state (Function.update ph i 3) ∧
      (sys_exit_read (S i).ex (S i).x s).emitted = [(S i).event pid] := by
  obtain ⟨ha, hb, hc, hd, he, hf, hg⟩ := hinv
  have hoki := hok i hi
  have hex : (S i).ex.pid_tgid = (S i).er.pid_tgid := hoki.2.2.2.2.1
  have hret : 0 < (S i).x.ret := hoki.2.2.2.2.2.1
  have hread : map_lookup (S i).ex.pid_tgid s.active_reads =
      some { fd := (S i).r.fd, buf := (S i).r.buf, size := (S i).r.count } := by
    rw [hex]; exact hc i hi h2
  have hkey : mk_socket_key (S i).ex.pid_tgid (S i).r.fd = (S i).key := by
    rw [hex]; exact session_read_key hoki
  have hreq : map_lookup (mk_socket_key (S i).ex.pid_tgid
      ({ fd := (S i).r.fd, buf := (S i).r.buf, size := (S i).r.count } : read_args).fd)
      s.active_l7_requests = some (get_request (S i).ew (S i).w) := by
    show map_lookup (mk_socket_key (S i).ex.pid_tgid (S i).r.fd) s.active_l7_requests = _
    rw [hkey]; exact hb i hi (Or.inr h2)
  have hout := sys_exit_read_of_match hret hread hreq
  have hkey' : mk_socket_key (S i).ex.pid_tgid
      ({ fd := (S i).r.fd, buf := (S i).r.buf, size := (S i).r.count } : read_args).fd =
        (S i).key := hkey
  rw [hkey'] at hout
  rw [hout]
  refine ⟨⟨fun j hj hp => ?_, fun j hj hp => ?_, fun j hj hp => ?_,
    fun j hj k hk hjk hpj hpk => ?_, ?_, ?_, fun cpu => ?_⟩, ?_⟩
  · by_cases hji : j = i
    · subst hji; exact map_lookup_delete_self _ _
    · rw [Function.update_noteq hji] at hp
      show map_lookup (S j).key (map_delete (S i).key s.active_l7_requests) = none
      rw [map_lookup_delete_ne _ (session_keys_ne hok hfd hj hi hji)]
      exact ha j hj hp
  · by_cases hji : j = i
    · subst hji; rw [Function.update_same] at hp; omega
    · rw [Function.update_noteq hji] at hp
      show map_lookup (S j).key (map_delete (S i).key s.active_l7_requests) = _
      rw [map_lookup_delete_ne _ (session_keys_ne hok hfd hj hi hji)]
      exact hb j hj hp
  · by_cases hji : j = i
    · subst hji; rw [Function.update_same] at hp; omega
    · rw [Function.update_noteq hji] at hp
      show map_lookup (S j).er.pid_tgid (map_delete (S i).ex.pid_tgid s.active_reads) = _
      rw [hex, map_lookup_delete_ne _ (hd j hj i hi hji hp h2)]
      exact hc j hj hp
  · have hji : j ≠ i := by
      intro h; subst h; rw [Function.update_same] at hpj; omega
    have hki : k ≠ i := by
      intro h; subst h; rw [Function.update_same] at hpk; omega
    rw [Function.update_noteq hji] at hpj
    rw [Function.update_noteq hki] at hpk
    exact hd j hj k hk hjk hpj hpk
  · show (map_delete (S i).key s.active_l7_requests).length ≤ _
    have h1 := map_delete_length_lt (hb i hi (Or.inr h2))
    have h3 := pending_update_dec N ph i hi h2
    omega
  · show (map_delete (S i).ex.pid_tgid s.active_reads).length ≤ _
    have h1 := map_delete_length_lt hread
    have h3 := in_flight_update_dec N ph i 3 hi h2 (by omega)
    omega
  · show (Function.update s.l7_event_heap (S i).ex.cpu _ cpu).status = 0 ∧
      (Function.update s.l7_event_heap (S i).ex.cpu _ cpu).padding = 0
    by_cases hcpu : cpu = (S i).ex.cpu
    · subst hcpu
      rw [Function.update_same]
      exact hg _
    · rw [Function.update_noteq hcpu]
      exact hg cpu
  · show [make_event (s.l7_event_heap (S i).ex.cpu) (S i).key (get_request (S i).ew (S i).w)
      (S i).ex.ktime_ns] = _
    rw [make_event_of_session hoki _ (hg _).1 (hg _).2]

/-! ## Sockets served side by side: the whole schedule -/

theorem sockets_inv_init (S : Nat → Session) (N : Nat) :
    sockets_inv S N State.init (fun _ => 0) := by
  refine ⟨fun _ _ _ => rfl, fun _ _ h => ?_, fun _ _ h => ?_, fun _ _ _ _ _ h _ => ?_,
    Nat.zero_le _, Nat.zero_le _, fun _ => ⟨rfl, rfl⟩⟩
  · rcases h with h | h <;> exact absurd h (by simp)
  · exact absurd h (by simp)
  · exact absurd h (by simp)

/-- The events of a schedule are those of its read-exits, in its order, when
the kernel evicts nothing from the table during the writes. -/
theorem run_interleave {S : Nat → Session} {N pid : Nat}
    (hN : N ≤ ACTIVE_L7_REQUESTS_MAX) (hok : ∀ i < N, (S i).ok pid)
    (hfd : ∀ i < N, ∀ j < N, i ≠ j → (S i).w.fd ≠ (S j).w.fd)
    (hev : ∀ i < N, ∀ k, (S i).ew.lru_evict k = false) (sched : List Nat) :
    ∀ (s : State) (ph : Nat → Nat), sockets_inv S N s ph → interleaving_ok S N sched ph →
      reads_in_flight_below N ACTIVE_READS_MAX sched ph →
      (run s (interleave S sched ph)).2 = exit_events S pid sched ph := by
  induction sched with
  | nil => intro s ph _ _ _; rfl
  | cons i rest ih =>
    intro s ph hinv hsched hflight
    obtain ⟨hi, hlt, hctx, hrest⟩ := hsched
    obtain ⟨hroom, hflight'⟩ := hflight
    rw [interleave, exit_events, run_cons]
    have hcases : ph i = 0 ∨ ph i = 1 ∨ ph i = 2 := by omega
    rcases hcases with h | h | h
    · have hcall : (S i).call (ph i) = Call.enter_write (S i).ew (S i).w := by
        rw [h]; rfl
      have hinv' := sockets_inv_write hN hok hfd hinv hi h (hev i hi)
      have hph : ph i + 1 = 1 := by omega
      rw [hph] at hrest hflight' ⊢
      rw [hcall, step, sys_enter_write_emitted, if_neg (by omega), List.nil_append]
      exact ih _ _ hinv' hrest hflight'
    · have hcall : (S i).call (ph i) = Call.enter_read (S i).er (S i).r := by
        rw [h]; rfl
      have hinv' := sockets_inv_read hok hinv hi h (hctx h) (hroom h)
      have hph : ph i + 1 = 2 := by omega
      rw [hph] at hrest hflight' ⊢
      rw [hcall, step, sys_enter_read_emitted, if_neg (by omega), List.nil_append]
      exact ih _ _ hinv' hrest hflight'
    · have hcall : (S i).call (ph i) = Call.exit_read (S i).ex (S i).x := by
        rw [h]; rfl
      have hinv' := sockets_inv_exit hok hfd hinv hi h
      have hph : ph i + 1 = 3 := by omega
      rw [hph] at hrest hflight' ⊢
      rw [hcall, step, hinv'.2, if_pos h]
      rw [ih _ _ hinv'.1 hrest hflight']

theorem filter_phase_of_exit {N : Nat} {ph : Nat → Nat} {i : Nat} (hi : i < N)
    (h : ph i = 2) :
    List.Perm ((List.range N).filter (fun j => decide (ph j ≤ 2)))
      (i :: (List.range N).filter (fun j => decide (Function.update ph i 3 j ≤ 2))) := by
  have hmem : i ∈ (List.range N).filter (fun j => decide (ph j ≤ 2)) :=
    List.mem_filter.mpr ⟨List.mem_range.mpr hi, by simp [h]⟩
  have hnd : ((List.range N).filter (fun j => decide (ph j ≤ 2))).Nodup :=
    (List.nodup_range N).filter _
  refine (List.perm_cons_erase hmem).trans (List.Perm.cons _ (List.Perm.of_eq ?_))
  rw [hnd.erase_eq_filter, List.filter_filter]
  apply List.filter_congr
  intro j _
  by_cases hji : j = i
  · subst hji; simp
  · simp [Function.update_noteq hji, hji]

theorem filter_phase_of_other (N : Nat) (ph : Nat → Nat) (i c : Nat) (h₁ : ph i ≤ 2)
    (h₂ : c ≤ 2) :
    (List.range N).filter (fun j => decide (ph j ≤ 2)) =
      (List.range N).filter (fun j => decide (Function.update ph i c j ≤ 2)) := by
  apply List.filter_congr
  intro j _
  by_cases hji : j = i
  · subst hji; simp [h₁, h₂]
  · simp [Function.update_noteq hji]

/-- When a schedule lets every socket below `N` finish, the events of its
read-exits are those of the sockets that had not finished before, each once. -/
theorem exit_events_perm (S : Nat → Session) (N pid : Nat) (sched : List Nat) :
    ∀ ph : Nat → Nat, interleaving_ok S N sched ph →
      (∀ j < N, phases_after sched ph j = 3) →
      List.Perm (exit_events S pid sched ph)
        (((List.range N).filter (fun j => decide (ph j ≤ 2))).map
          (fun i => (S i).event pid)) := by
  induction sched with
  | nil =>
    intro ph _ hdone
    have hnil : (List.range N).filter (fun j => decide (ph j ≤ 2)) = [] := by
      rw [List.filter_eq_nil_iff]
      intro j hj
      have := hdone j (List.mem_range.mp hj)
      simp only [phases_after] at this
      simp [this]
    rw [hnil]
    exact List.Perm.refl _
  | cons i rest ih =>
    intro ph hsched hdone
    obtain ⟨hi, hlt, -, hrest⟩ := hsched
    rw [phases_after] at hdone
    have hrec := ih _ hrest hdone
    rw [exit_events]
    by_cases h : ph i = 2
    · have hph : ph i + 1 = 3 := by omega
      rw [hph] at hrec ⊢
      rw [if_pos h, List.singleton_append]
      refine (List.Perm.cons _ hrec).trans ?_
      rw [← List.map_cons (fun i => (S i).event pid)]
      exact (filter_phase_of_exit hi h).symm.map _
    · rw [if_neg h, List.nil_append]
      rw [filter_phase_of_other N ph i (ph i + 1) (by omega) (by omega)]
      exact hrec

theorem ex_session_ok (i : Nat) (hi : i < 2 ^ 32) : (ex_session i).ok 100 := by
  refine ⟨get_prefixed_of_classified_get (ex_session_classified i), rfl, ?_, ?_, rfl,
    (by decide : (0 : Int) < 200), ?_, ?_⟩
  · rw [ex_session_key i hi]
  · rw [ex_session_read_key i hi]
  · simp only [ex_session]; omega
  · simp only [ex_session]; omega

theorem interleaving_ok_append (S : Nat → Session) (N : Nat) (a b : List Nat) :
    ∀ ph, interleaving_ok S N a ph → interleaving_ok S N b (phases_after a ph) →
      interleaving_ok S N (a ++ b) ph := by
  induction a with
  | nil => intro ph _ h; exact h
  | cons i a ih =>
    intro ph ha hb
    rw [phases_after] at hb
    exact ⟨ha.1, ha.2.1, ha.2.2.1, ih _ ha.2.2.2 hb⟩

/-- A round in which the sockets `m`, ..., `m + n - 1` make their call number
`k`, those below `m` having made theirs, is an interleaving. -/
theorem interleaving_ok_round (S : Nat → Session) (N k : Nat) (hk : k < 3)
    (hids : k = 1 → ∀ i < N, ∀ j < N, j ≠ i → (S j).er.pid_tgid ≠ (S i).er.pid_tgid) :
    ∀ (n m : Nat) (ph : Nat → Nat), m + n ≤ N → (∀ j, j < m → ph j = k + 1) →
      (∀ j, m ≤ j → j < N → ph j = k) → interleaving_ok S N (List.range' m n) ph := by
  intro n
  induction n with
  | zero => intro m ph _ _ _; exact True.intro
  | succ n ih =>
    intro m ph hmn hlt hge
    have hm : ph m = k := hge m (Nat.le_refl m) (by omega)
    rw [List.range'_succ]
    refine ⟨by omega, by omega, fun h1 j hj hj2 => ?_, ih (m + 1) _ (by omega) ?_ ?_⟩
    · have hjm : j < m := by
        by_contra hcon
        have := hge j (Nat.le_of_not_lt hcon) hj
        omega
      exact hids (by omega) m (by omega) j hj (by omega)
    · intro j hj
      by_cases hjm : j = m
      · subst hjm; rw [Function.update_same, hm]
      · rw [Function.update_noteq hjm]; exact hlt j (by omega)
    · intro j hj hjN
      rw [Function.update_noteq (by omega)]
      exact hge j (by omega) hjN

theorem interleaving_ok_three_rounds (S : Nat → Session) (N : Nat)
    (hids : ∀ i < N, ∀ j < N, j ≠ i → (S j).er.pid_tgid ≠ (S i).er.pid_tgid) :
    interleaving_ok S N (List.range N ++ (List.range N ++ List.range N)) (fun _ => 0) := by
  have hround : ∀ (k : Nat), k < 3 → ∀ ph : Nat → Nat, (∀ j, j < N → ph j = k) →
      interleaving_ok S N (List.range N) ph := by
    intro k hk ph h
    rw [List.range_eq_range']
    exact interleaving_ok_round S N k hk (fun _ => hids) N 0 ph (by omega)
      (fun j hj => absurd hj (Nat.not_lt_zero j)) (fun j _ hj => h j hj)
  have h1 : ∀ j, j < N → phases_after (List.range N) (fun _ => 0) j = 1 := by
    intro j hj
    rw [phases_after_range, if_pos hj]
  have h2 : ∀ j, j < N →
      phases_after (List.range N) (phases_after (List.range N) (fun _ => 0)) j = 2 := by
    intro j hj
    rw [phases_after_range, if_pos hj, h1 j hj]
  exact interleaving_ok_append S N _ _ _ (hround 0 (by omega) _ (fun _ _ => rfl))
    (interleaving_ok_append S N _ _ _ (hround 1 (by omega) _ h1) (hround 2 (by omega) _ h2))

/-- Three rounds end with every socket having made its three calls. -/
theorem phases_after_three_rounds (N : Nat) :
    ∀ j < N, phases_after (List.range N ++ (List.range N ++ List.range N)) (fun _ => 0) j
      = 3 := by
  intro j hj
  rw [phases_after_append, phases_after_append, phases_after_range, phases_after_range,
    phases_after_range, if_pos hj, if_pos hj, if_pos hj]

/-- The schedule "all writes, all read-entries, all read-exits" of the sockets
`0`, ..., `c` of `ex_session` is an interleaving of sessions of process 100. -/
theorem ex_three_rounds_ok (c : Nat) (hc : c = ACTIVE_READS_MAX) :
    c + 1 ≤ ACTIVE_L7_REQUESTS_MAX ∧
      (∀ i < c + 1, (ex_session i).ok 100) ∧
      (∀ i < c + 1, ∀ j < c + 1, i ≠ j → (ex_session i).w.fd ≠ (ex_session j).w.fd) ∧
      (∀ i < c + 1, ∀ k, (ex_session i).ew.lru_evict k = false) ∧
      interleaving_ok ex_session (c + 1)
        (List.range (c + 1) ++ (List.range (c + 1) ++ List.range (c + 1))) (fun _ => 0) ∧
      (∀ j < c + 1, phases_after
        (List.range (c + 1) ++ (List.range (c + 1) ++ List.range (c + 1)))
        (fun _ => 0) j = 3) := by
  have hc' : c + 1 ≤ ACTIVE_L7_REQUESTS_MAX := by
    rw [hc]; decide
  have h32 : ACTIVE_L7_REQUESTS_MAX < 2 ^ 32 := by
    unfold ACTIVE_L7_REQUESTS_MAX; norm_num
  exact ⟨hc', fun i hi => ex_session_ok i (by omega), fun _ _ _ _ h => h,
    fun _ _ _ => rfl,
    interleaving_ok_three_rounds ex_session (c + 1) (fun _ _ _ _ h => ex_session_ids_ne h),
    phases_after_three_rounds (c + 1)⟩

/-! ## Eviction from the table -/

theorem ex_entry_fst (i : Nat) (hi : i < 2 ^ 32) : (ex_entry i).1 = { fd := i, pid := 100 } :=
  ex_session_key i hi

theorem ex_entry_fst_ne {i j : Nat} (hi : i < 2 ^ 32) (hj : j < 2 ^ 32) (h : i ≠ j) :
    (ex_entry i).1 ≠ (ex_entry j).1 := by
  rw [ex_entry_fst i hi, ex_entry_fst j hj]
  exact fun he => h (congrArg socket_key.fd he)

/-- A read-entry on a socket without a pending request, by a context whose
entry in `active_reads` is one of an earlier read, followed by the read-exit of
that context with data: the event of the request the earlier read was on. -/
theorem read_pair_of_stale_entry {er ex : Env} {r : trace_event_raw_sys_enter_read}
    {x : trace_event_raw_sys_exit_read} {s : State} {read_info : read_args} {req : l7_request}
    (hgone : map_lookup (mk_socket_key er.pid_tgid r.fd) s.active_l7_requests = none)
    (hret : 0 < x.ret) (hid : map_lookup ex.pid_tgid s.active_reads = some read_info)
    (hreq : map_lookup (mk_socket_key ex.pid_tgid read_info.fd) s.active_l7_requests =
      some req) :
    (run s [Call.enter_read er r, Call.exit_read ex x]).2 =
      [make_event (s.l7_event_heap ex.cpu) (mk_socket_key ex.pid_tgid read_info.fd) req
        ex.ktime_ns] := by
  simp only [run_cons, run_nil, step, sys_enter_read_of_untracked hgone,
    sys_exit_read_of_match hret hid hreq, List.nil_append, List.append_nil]

/-- The key of a read by the thread of socket `i` on the fd of socket `j`. -/
theorem ex_session_thread_key (i j : Nat) (hi : i < 2 ^ 32) :
    mk_socket_key (ex_session i).er.pid_tgid (ex_session j).r.fd = { fd := j, pid := 100 } := by
  simp only [mk_socket_key, ex_session, Nat.shiftRight_eq_div_pow]
  congr 1
  omega

section maps
variable {K V : Type} [DecidableEq K]

/-- The most recently used entry stays at an update of another key when the
kernel does not evict it. -/
theorem map_lookup_lru_update_head {cap : Nat} {evict : K → Bool} {k k' : K} (v v' : V)
    (m : BpfMap K V) (h : k' ≠ k) (hev : evict k' = false) (hcap : 1 < cap) :
    map_lookup k' (lru_update cap evict k v ((k', v') :: m)).2 = some v' := by
  show map_lookup k' ((k, v) :: _) = some v'
  obtain ⟨j, hj⟩ : ∃ j, cap - 1 = j + 1 := ⟨cap - 2, by omega⟩
  rw [map_lookup_cons_ne _ _ (Ne.symm h), map_delete_cons, if_neg h,
    List.filter_cons_of_pos (by simp [hev]), hj, List.take_succ_cons]
  exact map_lookup_cons_self _ _ _

end maps

/-- A read-entry on a socket without a pending request by a context without an
entry in `active_reads`, followed by the read-exit of that context: no event. -/
theorem read_pair_of_untracked {er ex : Env} {r : trace_event_raw_sys_enter_read}
    (x : trace_event_raw_sys_exit_read) {s : State}
    (hgone : map_lookup (mk_socket_key er.pid_tgid r.fd) s.active_l7_requests = none)
    (hctx : ex.pid_tgid = er.pid_tgid) (hid : map_lookup er.pid_tgid s.active_reads = none) :
    (run s [Call.enter_read er r, Call.exit_read ex x]).2 = [] := by
  have hid' : map_lookup ex.pid_tgid s.active_reads = none := by rw [hctx]; exact hid
  simp only [run_cons, run_nil, step, sys_enter_read_of_untracked hgone,
    sys_exit_read_of_no_read hid', List.nil_append, List.append_nil]

theorem ex_env_write_evicting_classified (i : Nat) :
    classified_get (ex_env_write_evicting i) (ex_session i).w :=
  @classified_get_congr _ ex_env_write _ ex_write rfl rfl (by decide)

theorem ex_env_write_evicting_request (i : Nat) :
    (mk_socket_key (ex_env_write_evicting i).pid_tgid (ex_session i).w.fd,
      get_request (ex_env_write_evicting i) (ex_session i).w) = ex_entry i := rfl

theorem ex_env_write_evicting_evicts (i j : Nat) (hj : j < 2 ^ 32) :
    (ex_env_write_evicting i).lru_evict (ex_entry j).1 = decide (j < 128) := by
  rw [ex_entry_fst j hj]
  rfl

/-- The table after the writes of `ex_writes n`, the latest first. -/
theorem ex_writes_state (n : Nat) (hn : n ≤ ACTIVE_L7_REQUESTS_MAX) :
    (run State.init (ex_writes n)).1.active_l7_requests = (List.range n).reverse.map ex_entry ∧
      (run State.init (ex_writes n)).1.active_reads = [] ∧
      (run State.init (ex_writes n)).2 = [] := by
  have h32 : ACTIVE_L7_REQUESTS_MAX ≤ 2 ^ 32 := by
    unfold ACTIVE_L7_REQUESTS_MAX; norm_num
  obtain ⟨w1, w2, -, w4⟩ := run_writes (fun i => (ex_session i).ew) (fun i => (ex_session i).w)
    n State.init (fun i _ => ex_session_classified i) (ex_session_keys_ne (hn.trans h32))
    (fun i _ p hp => absurd hp (List.not_mem_nil p))
    (by rw [show State.init.active_l7_requests = [] from rfl, List.length_nil, Nat.zero_add]
        exact hn)
    (fun _ _ _ => rfl)
  rw [show State.init.active_l7_requests = [] from rfl, List.append_nil] at w1
  exact ⟨w1, w2, w4⟩

theorem ex_table_lookup (n j : Nat) (hn : n ≤ 2 ^ 32) (hj : j < n) :
    map_lookup (ex_entry j).1 ((List.range n).reverse.map ex_entry) = some (ex_entry j).2 :=
  map_lookup_map_of_mem (fun i => (ex_entry i).1) (fun i => (ex_entry i).2)
    (List.range n).reverse j (List.mem_reverse.mpr (List.mem_range.mpr hj))
    (fun i hi h => by
      by_contra hne
      exact ex_entry_fst_ne (lt_of_lt_of_le (List.mem_range.mp (List.mem_reverse.mp hi)) hn)
        (lt_of_lt_of_le hj hn) hne h)

theorem ex_table_lookup_none (n j : Nat) (hn : n ≤ j) (hj : j < 2 ^ 32) :
    map_lookup (ex_entry j).1 ((List.range n).reverse.map ex_entry) = none := by
  apply map_lookup_eq_none_of_forall_ne
  intro p hp
  obtain ⟨i, hi, rfl⟩ := List.mem_map.mp hp
  have hi' := List.mem_range.mp (List.mem_reverse.mp hi)
  exact ex_entry_fst_ne (by omega) hj (by omega)

theorem ex_table_succ (c : Nat) :
    (List.range (c + 1)).reverse.map ex_entry =
      ((ex_entry c).1, (ex_entry c).2) :: (List.range c).reverse.map ex_entry := by
  rw [List.range_succ, List.reverse_append, List.reverse_singleton, List.singleton_append,
    List.map_cons]

section maps
variable {K V : Type} [DecidableEq K]

theorem lru_update_length_le {cap : Nat} (evict : K → Bool) (k : K) (v : V) (m : BpfMap K V)
    (hcap : 0 < cap) : (lru_update cap evict k v m).2.length ≤ cap := by
  show ((k, v) :: _).length ≤ cap
  rw [List.length_cons, List.length_take]
  omega

end maps

/-- No handler makes the table exceed its capacity. -/
theorem step_requests_length_le (s : State) (c : Call)
    (h : s.active_l7_requests.length ≤ ACTIVE_L7_REQUESTS_MAX) :
    (step s c).state.active_l7_requests.length ≤ ACTIVE_L7_REQUESTS_MAX := by
  cases c with
  | enter_write env ctx =>
    rw [step]
    by_cases hc : classified_get env ctx
    · rw [sys_enter_write_requests_of_get s hc]
      exact lru_update_length_le _ _ _ _ (by decide)
    · rw [sys_enter_write_requests_of_not_get s hc]
      exact h
  | enter_read env ctx =>
    rw [step, sys_enter_read_requests]
    exact (lru_lookup_length_le _ _).trans h
  | exit_read env ctx =>
    rw [step]
    by_cases hm : full_match env ctx s
    · obtain ⟨hret, read_info, h1, req, h2⟩ := hm
      rw [sys_exit_read_of_match hret h1 h2]
      exact (map_delete_length_le _ _).trans h
    · rw [sys_exit_read_of_not_match hm]
      exact h

theorem run_requests_length_le (calls : List Call) :
    ∀ s : State, s.active_l7_requests.length ≤ ACTIVE_L7_REQUESTS_MAX →
      (run s calls).1.active_l7_requests.length ≤ ACTIVE_L7_REQUESTS_MAX := by
  induction calls with
  | nil => intro s h; exact h
  | cons c cs ih =>
    intro s h
    rw [run_cons]
    exact ih _ (step_requests_length_le s c h)

/-- A write to a table below capacity during which the kernel evicts a batch
of entries: the request pending on socket 0 is gone. -/
theorem ex_eviction_below_capacity (n : Nat) (hn : n + 127 = ACTIVE_L7_REQUESTS_MAX) :
    (run State.init (ex_writes n)).1.active_l7_requests.length < ACTIVE_L7_REQUESTS_MAX ∧
      (ex_entry 0).1 ≠ mk_socket_key (ex_env_write_evicting n).pid_tgid (ex_session n).w.fd ∧
      map_lookup (ex_entry 0).1 (run State.init (ex_writes n)).1.active_l7_requests =
        some (ex_entry 0).2 ∧
      map_lookup (ex_entry 0).1
        (sys_enter_write (ex_env_write_evicting n) (ex_session n).w
          (run State.init (ex_writes n)).1).state.active_l7_requests = none := by
  have hmax : ACTIVE_L7_REQUESTS_MAX = 32768 := rfl
  have hn' : n ≤ ACTIVE_L7_REQUESTS_MAX := by omega
  obtain ⟨h1, -, -⟩ := ex_writes_state n hn'
  have hne : (ex_entry 0).1 ≠
      mk_socket_key (ex_env_write_evicting n).pid_tgid (ex_session n).w.fd :=
    ex_entry_fst_ne (by norm_num) (by omega) (by omega)
  refine ⟨?_, hne, ?_, ?_⟩
  · rw [h1, List.length_map, List.length_reverse, List.length_range]
    omega
  · rw [h1]
    exact ex_table_lookup n 0 (by omega) (by omega)
  · rw [sys_enter_write_requests_of_get _ (ex_env_write_evicting_classified n)]
    exact map_lookup_lru_update_evicted _ _ _ hne
      (by rw [ex_env_write_evicting_evicts n 0 (by norm_num)]; rfl)

/-- The state after the writes of the sockets 0, ..., `c` and the failed read
of thread `c` on fd `c`: the requests are pending, the one of socket `c` the
most recently used, and the entry of thread `c` has stayed in `active_reads`. -/
theorem ex_stale_state (c : Nat) (hc : c + 1 ≤ ACTIVE_L7_REQUESTS_MAX) :
    (run State.init (ex_writes (c + 1) ++ ex_failed_read c)).1.active_l7_requests =
        (List.range (c + 1)).reverse.map ex_entry ∧
      (run State.init (ex_writes (c + 1) ++ ex_failed_read c)).1.active_reads =
        [((ex_session c).er.pid_tgid,
          { fd := (ex_session c).r.fd, buf := (ex_session c).r.buf,
            size := (ex_session c).r.count })] ∧
      (run State.init (ex_writes (c + 1) ++ ex_failed_read c)).2 = [] := by
  have hmax : ACTIVE_L7_REQUESTS_MAX = 32768 := rfl
  obtain ⟨h1, h2, h3⟩ := ex_writes_state (c + 1) hc
  rw [run_append, h3, List.nil_append]
  generalize (run State.init (ex_writes (c + 1))).1 = s at h1 h2
  rw [ex_table_succ] at h1
  have hk : mk_socket_key (ex_session c).er.pid_tgid (ex_session c).r.fd = (ex_entry c).1 := rfl
  have hlook : map_lookup (mk_socket_key (ex_session c).er.pid_tgid (ex_session c).r.fd)
      s.active_l7_requests = some (ex_entry c).2 := by
    rw [h1, hk]; exact map_lookup_cons_self _ _ _
  have hret : ex_exit_eagain.ret ≤ 0 := by decide
  simp only [ex_failed_read, run_cons, run_nil, step, sys_exit_read_of_ret_le _ hret,
    sys_enter_read_emitted, List.append_nil, and_true]
  constructor
  · rw [sys_enter_read_requests, lru_lookup_snd_some hlook, h1, hk, map_delete_cons_self,
      map_delete_of_lookup_none (ex_table_lookup_none c c (le_refl c) (by omega)), ex_table_succ]
  · rw [sys_enter_read_reads_of_tracked hlook, h2]
    exact hash_update_of_new _ rfl (by decide)

/-- The eviction example. The table holds the requests of the sockets 0, ...,
`c`, as many as it can hold, and thread `c` has an entry left in `active_reads`.
The write of socket `c + 1`, during which the kernel evicts the entries of the
fds below 128, removes the requests of the sockets 0 and 1 and stores its own;
the read of thread `c` on fd 0 that follows emits an event, with fd `c`. -/
theorem ex_eviction_run (c n : Nat) (hc : c + 1 = n) (hn : n = ACTIVE_L7_REQUESTS_MAX) :
    (run State.init (ex_writes n ++ ex_failed_read c)).1.active_l7_requests.length =
        ACTIVE_L7_REQUESTS_MAX ∧
      (run State.init (ex_writes n ++ ex_failed_read c)).1.active_l7_requests.getLast? =
        some (ex_entry 0) ∧
      map_lookup (ex_entry n).1
        (run State.init (ex_writes n ++ ex_failed_read c)).1.active_l7_requests = none ∧
      map_lookup (ex_entry 1).1
        (run State.init (ex_writes n ++ ex_failed_read c)).1.active_l7_requests =
          some (ex_entry 1).2 ∧
      (sys_enter_write (ex_env_write_evicting n) (ex_session n).w
        (run State.init (ex_writes n ++ ex_failed_read c)).1).emitted = [] ∧
      map_lookup (ex_entry n).1
        (sys_enter_write (ex_env_write_evicting n) (ex_session n).w
          (run State.init (ex_writes n ++ ex_failed_read c)).1).state.active_l7_requests =
          some (ex_entry n).2 ∧
      map_lookup (ex_entry 0).1
        (sys_enter_write (ex_env_write_evicting n) (ex_session n).w
          (run State.init (ex_writes n ++ ex_failed_read c)).1).state.active_l7_requests =
          none ∧
      map_lookup (ex_entry 1).1
        (sys_enter_write (ex_env_write_evicting n) (ex_session n).w
          (run State.init (ex_writes n ++ ex_failed_read c)).1).state.active_l7_requests =
          none ∧
      mk_socket_key (ex_session c).er.pid_tgid (ex_session 0).r.fd = (ex_entry 0).1 ∧
      (run (sys_enter_write (ex_env_write_evicting n) (ex_session n).w
        (run State.init (ex_writes n ++ ex_failed_read c)).1).state
        (ex_read_fd0 c)).2.map (fun e => e.fd) = [(ex_session c).w.fd] := by
  subst hc
  have hmax : ACTIVE_L7_REQUESTS_MAX = 32768 := rfl
  obtain ⟨h1, h2, -⟩ := ex_stale_state c (le_of_eq hn)
  generalize (run State.init (ex_writes (c + 1) ++ ex_failed_read c)).1 = s at h1 h2
  have hcls := ex_env_write_evicting_classified (c + 1)
  have hkey : ∀ j, j < c + 1 →
      (ex_entry j).1 ≠
        mk_socket_key (ex_env_write_evicting (c + 1)).pid_tgid (ex_session (c + 1)).w.fd :=
    fun j hj => ex_entry_fst_ne (by omega) (by omega) (by omega)
  have hgone0 : map_lookup (ex_entry 0).1
      (sys_enter_write (ex_env_write_evicting (c + 1)) (ex_session (c + 1)).w
        s).state.active_l7_requests = none := by
    rw [sys_enter_write_requests_of_get _ hcls]
    exact map_lookup_lru_update_evicted _ _ _ (hkey 0 (by omega))
      (by rw [ex_env_write_evicting_evicts _ 0 (by norm_num)]; rfl)
  have hgone1 : map_lookup (ex_entry 1).1
      (sys_enter_write (ex_env_write_evicting (c + 1)) (ex_session (c + 1)).w
        s).state.active_l7_requests = none := by
    rw [sys_enter_write_requests_of_get _ hcls]
    exact map_lookup_lru_update_evicted _ _ _ (hkey 1 (by omega))
      (by rw [ex_env_write_evicting_evicts _ 1 (by norm_num)]; rfl)
  have hstays : map_lookup (ex_entry c).1
      (sys_enter_write (ex_env_write_evicting (c + 1)) (ex_session (c + 1)).w
        s).state.active_l7_requests = some (ex_entry c).2 := by
    rw [sys_enter_write_requests_of_get _ hcls, h1, ex_table_succ]
    exact map_lookup_lru_update_head _ _ _ (hkey c (by omega))
      (by rw [ex_env_write_evicting_evicts _ c (by omega)]; simp; omega) (by decide)
  have hk0 : mk_socket_key (ex_session c).er.pid_tgid (ex_session 0).r.fd = (ex_entry 0).1 := by
    rw [ex_entry_fst 0 (by norm_num)]
    exact ex_session_thread_key c 0 (by omega)
  refine ⟨?_, ?_, ?_, ?_, sys_enter_write_emitted _ _ _, ?_, hgone0, hgone1, hk0, ?_⟩
  · rw [h1, List.length_map, List.length_reverse, List.length_range]
    exact hn
  · rw [h1, List.getLast?_map, List.getLast?_reverse, List.head?_range]
    rw [if_neg (by omega)]
    rfl
  · rw [h1]
    exact ex_table_lookup_none _ _ (le_refl _) (by omega)
  · rw [h1]
    exact ex_table_lookup _ 1 (by omega) (by omega)
  · rw [sys_enter_write_requests_of_get _ hcls]
    exact map_lookup_lru_update_self _ _ _ _ _
  · have hreads : (sys_enter_write (ex_env_write_evicting (c + 1)) (ex_session (c + 1)).w
        s).state.active_reads = _ := (sys_enter_write_active_reads _ _ s).trans h2
    generalize (sys_enter_write (ex_env_write_evicting (c + 1)) (ex_session (c + 1)).w
      s).state = s' at hgone0 hstays hreads
    have hid : map_lookup (ex_session c).ex.pid_tgid s'.active_reads =
        some { fd := (ex_session c).r.fd, buf := (ex_session c).r.buf,
               size := (ex_session c).r.count } := by
      rw [hreads, ex_session_exit_id c]; exact map_lookup_cons_self _ _ _
    have hret : 0 < (ex_session c).x.ret := (by decide : (0 : Int) < 200)
    rw [← hk0] at hgone0
    have hk1 : (ex_entry c).1 = mk_socket_key (ex_session c).ex.pid_tgid
        ({ fd := (ex_session c).r.fd, buf := (ex_session c).r.buf,
           size := (ex_session c).r.count } : read_args).fd := by
      rw [ex_entry_fst c (by omega), ex_session_exit_id c]
      exact (ex_session_thread_key c c (by omega)).symm
    rw [hk1] at hstays
    rw [show ex_read_fd0 c = [Call.enter_read (ex_session c).er (ex_session 0).r,
        Call.exit_read (ex_session c).ex (ex_session c).x] from rfl,
      read_pair_of_stale_entry hgone0 hret hid hstays, List.map_cons, List.map_nil]
    rfl

/-- The full table of the writes of `ex_writes n` meets what the amended C12
asks of a state, for the write of socket `n` during which the kernel evicts a
batch. -/
theorem ex_full_table (n : Nat) (hn : n = ACTIVE_L7_REQUESTS_MAX) :
    get_prefixed_write (ex_env_write_evicting n) (ex_session n).w ∧
      map_lookup (mk_socket_key (ex_env_write_evicting n).pid_tgid (ex_session n).w.fd)
        (run State.init (ex_writes n)).1.active_l7_requests = none ∧
      (run State.init (ex_writes n)).1.active_l7_requests.length = ACTIVE_L7_REQUESTS_MAX ∧
      map_lookup (mk_socket_key (ex_session 0).er.pid_tgid (ex_session 0).r.fd)
        (sys_enter_write (ex_env_write_evicting n) (ex_session n).w
          (run State.init (ex_writes n)).1).state.active_l7_requests = none ∧
      map_lookup (ex_session 0).er.pid_tgid (run State.init (ex_writes n)).1.active_reads =
        none := by
  have hmax : ACTIVE_L7_REQUESTS_MAX = 32768 := rfl
  obtain ⟨h1, h2, -⟩ := ex_writes_state n (le_of_eq hn)
  have hne : (ex_entry 0).1 ≠
      mk_socket_key (ex_env_write_evicting n).pid_tgid (ex_session n).w.fd :=
    ex_entry_fst_ne (by norm_num) (by omega) (by omega)
  refine ⟨get_prefixed_of_classified_get (ex_env_write_evicting_classified n), ?_, ?_, ?_, ?_⟩
  · rw [h1]
    exact ex_table_lookup_none n n (le_refl n) (by omega)
  · rw [h1, List.length_map, List.length_reverse, List.length_range]
    exact hn
  · have hk : mk_socket_key (ex_session 0).er.pid_tgid (ex_session 0).r.fd = (ex_entry 0).1 := by
      rw [ex_entry_fst 0 (by norm_num)]
      exact ex_session_read_key 0 (by norm_num)
    rw [hk, sys_enter_write_requests_of_get _ (ex_env_write_evicting_classified n)]
    exact map_lookup_lru_update_evicted _ _ _ hne
      (by rw [ex_env_write_evicting_evicts n 0 (by norm_num)]; rfl)
  · rw [h2]; rfl

/-! ## The claims on capacity, interleaving and the bridge -/

/-! ### C1 -/

set_option maxRecDepth 100000 in
/-- C1, as stated, fails. The write buffer is the three bytes `G`, `E`, `T` at
the very end of a mapping, the tables are empty. The first three bytes of the
buffer are `GET`, yet the write to fd 5 at time 0, the read-entry on fd 5 and
the read-exit with 200 bytes at 5 ms emit no event: the classifier copies
sixteen bytes, the copy faults and the write is not tracked. -/
theorem C1_counterexample :
    starts_with_get ex_env_write_edge_first.mem ex_write_edge.buf ∧
      ex_env_write_edge_first.ktime_ns ≤ ex_env_exit.ktime_ns ∧
      (run State.init [.enter_write ex_env_write_edge_first ex_write_edge,
        .enter_read ex_env_read ex_read, .exit_read ex_env_exit ex_exit]).2 = [] := by
  decide

/-! ### C5 -/

/-- C5, as stated, fails. The sockets 0, ..., 10240 of process 100 are written
with a GET request and the reads of the sockets 0, ..., 10239 have entered,
each by a thread of its own: the request of socket 10240 is pending and
`active_reads` holds 10240 entries, none of thread 10240. After a read-exit of
thread 10240 with `-EAGAIN`, its read-entry on fd 10240 and the read-exit with
200 bytes emit no event: the read-entry found `active_reads` full. -/
theorem C5_counterexample :
    map_lookup (mk_socket_key (ex_session ACTIVE_READS_MAX).er.pid_tgid
          (ex_session ACTIVE_READS_MAX).r.fd)
        (run State.init (interleave ex_session
          (List.range (ACTIVE_READS_MAX + 1) ++ List.range ACTIVE_READS_MAX)
          (fun _ => 0))).1.active_l7_requests =
        some (get_request (ex_session ACTIVE_READS_MAX).ew (ex_session ACTIVE_READS_MAX).w) ∧
      (run State.init (interleave ex_session
          (List.range (ACTIVE_READS_MAX + 1) ++ List.range ACTIVE_READS_MAX)
          (fun _ => 0))).1.active_reads.length = ACTIVE_READS_MAX ∧
      map_lookup (ex_session ACTIVE_READS_MAX).er.pid_tgid
        (run State.init (interleave ex_session
          (List.range (ACTIVE_READS_MAX + 1) ++ List.range ACTIVE_READS_MAX)
          (fun _ => 0))).1.active_reads = none ∧
      (run (run State.init (interleave ex_session
          (List.range (ACTIVE_READS_MAX + 1) ++ List.range ACTIVE_READS_MAX)
          (fun _ => 0))).1
        [Call.exit_read (ex_session ACTIVE_READS_MAX).ex ex_exit_eagain,
          Call.enter_read (ex_session ACTIVE_READS_MAX).er (ex_session ACTIVE_READS_MAX).r,
          Call.exit_read (ex_session ACTIVE_READS_MAX).ex (ex_session ACTIVE_READS_MAX).x]).2
        = [] :=
  ex_full_bridge_retry ACTIVE_READS_MAX rfl

/-! ### C11 -/

/-- C11, as stated, fails: `ACTIVE_READS_MAX + 1` sockets of process 100 with
the fds 0, 1, ... make their GET writes, then their read-entries, each by a
thread of its own, then their read-exits with 200 bytes. This is an
interleaving as the claim asks (at most 32768 sockets, sessions of one pid with
distinct fds, each socket makes its three calls in order, no context enters a
read while one of its own is in flight), the table evicts nothing, and no event with the fd of the last
socket is emitted: its read-entry found `active_reads` full. -/
theorem C11_counterexample :
    (ACTIVE_READS_MAX + 1 ≤ ACTIVE_L7_REQUESTS_MAX ∧
      (∀ i < ACTIVE_READS_MAX + 1, (ex_session i).ok 100) ∧
      (∀ i < ACTIVE_READS_MAX + 1, ∀ j < ACTIVE_READS_MAX + 1, i ≠ j →
        (ex_session i).w.fd ≠ (ex_session j).w.fd) ∧
      (∀ i < ACTIVE_READS_MAX + 1, ∀ k, (ex_session i).ew.lru_evict k = false) ∧
      interleaving_ok ex_session (ACTIVE_READS_MAX + 1)
        (List.range (ACTIVE_READS_MAX + 1) ++
          (List.range (ACTIVE_READS_MAX + 1) ++ List.range (ACTIVE_READS_MAX + 1)))
        (fun _ => 0) ∧
      (∀ j < ACTIVE_READS_MAX + 1, phases_after
        (List.range (ACTIVE_READS_MAX + 1) ++
          (List.range (ACTIVE_READS_MAX + 1) ++ List.range (ACTIVE_READS_MAX + 1)))
        (fun _ => 0) j = 3)) ∧
    ¬ ∃ e, e ∈ (run State.init (interleave ex_session
        (List.range (ACTIVE_READS_MAX + 1) ++
          (List.range (ACTIVE_READS_MAX + 1) ++ List.range (ACTIVE_READS_MAX + 1)))
        (fun _ => 0))).2 ∧ e.fd = (ex_session ACTIVE_READS_MAX).w.fd :=
  ⟨ex_three_rounds_ok ACTIVE_READS_MAX rfl, ex_last_socket_no_event ACTIVE_READS_MAX rfl⟩

/-- C11, amended: sockets `0`, ..., `N - 1` of one process, `N` at most 32768,
with distinct fds, each with a GET-prefixed write, a read-entry and a read-exit
with positive return, served from the initial state in any interleaving that
keeps the three calls of each socket in order, in which no context enters a
read while one it entered has not exited and in which fewer than 10240 reads
are in flight at each read-entry, the kernel evicting nothing from the table
during the writes (the LRU map may evict before it is full). The events emitted are, up to order, one per
socket: there are `N` of them, and the event of socket `i` has the fd of its
write, the 512 bytes copied at its write and as duration the time of its
read-exit minus the time of its write; it is made of the calls of socket `i`
alone. -/
theorem C11_interleaved_sockets_emit_own_events (S : Nat → Session) (N pid : Nat)
    (sched : List Nat) (hN : N ≤ ACTIVE_L7_REQUESTS_MAX) (hok : ∀ i < N, (S i).ok pid)
    (hfd : ∀ i < N, ∀ j < N, i ≠ j → (S i).w.fd ≠ (S j).w.fd)
    (hev : ∀ i < N, ∀ k, (S i).ew.lru_evict k = false)
    (hsched : interleaving_ok S N sched (fun _ => 0))
    (hdone : ∀ j < N, phases_after sched (fun _ => 0) j = 3)
    (hflight : reads_in_flight_below N ACTIVE_READS_MAX sched (fun _ => 0)) :
    List.Perm (run State.init (interleave S sched (fun _ => 0))).2
        ((List.range N).map (fun i => (S i).event pid)) ∧
      (run State.init (interleave S sched (fun _ => 0))).2.length = N ∧
      ∀ i < N, ((S i).event pid).fd = (S i).w.fd ∧ ((S i).event pid).pid = pid ∧
        ((S i).event pid).payload =
          (bpf_probe_read (S i).ew.mem MAX_PAYLOAD_SIZE (S i).w.buf).2 ∧
        ((S i).event pid).duration = (S i).ex.ktime_ns - (S i).ew.ktime_ns := by
  have hrun := run_interleave hN hok hfd hev sched State.init (fun _ => 0)
    (sockets_inv_init S N) hsched hflight
  have hperm := exit_events_perm S N pid sched (fun _ => 0) hsched hdone
  have hall : (List.range N).filter (fun j => decide ((fun _ : Nat => 0) j ≤ 2)) =
      List.range N := by
    rw [List.filter_eq_self]
    intro j _
    simp
  rw [hall, ← hrun] at hperm
  refine ⟨hperm, ?_, ?_⟩
  · rw [hperm.length_eq, List.length_map, List.length_range]
  · intro i hi
    simp only [Session.event, and_self]

set_option maxRecDepth 100000 in
/-- The amended C11 applies to two sockets of `ex_session` served side by
side. -/
theorem C11_witness :
    List.Perm (run State.init (interleave ex_session ex_two_sockets (fun _ => 0))).2
        ((List.range 2).map (fun i => (ex_session i).event 100)) ∧
      (run State.init (interleave ex_session ex_two_sockets (fun _ => 0))).2.length = 2 ∧
      ∀ i < 2, ((ex_session i).event 100).fd = (ex_session i).w.fd ∧
        ((ex_session i).event 100).pid = 100 ∧
        ((ex_session i).event 100).payload =
          (bpf_probe_read (ex_session i).ew.mem MAX_PAYLOAD_SIZE (ex_session i).w.buf).2 ∧
        ((ex_session i).event 100).duration =
          (ex_session i).ex.ktime_ns - (ex_session i).ew.ktime_ns :=
  C11_interleaved_sockets_emit_own_events ex_session 2 100 ex_two_sockets (by decide)
    (fun i hi => ex_session_ok i (lt_trans hi (by norm_num)))
    (fun _ _ _ _ h => h) (fun _ _ _ => rfl)
    (by decide) (by decide) (by decide)

/-! ### C12 -/

/-- C12, as stated, fails. The sockets 0, ..., 32767 of process 100 are
written with a GET request, and thread 32767 enters a read on fd 32767 that
fails with `-EAGAIN`: the table holds 32768 entries, the request of socket 0 is
the least recently used one, and the key of socket 32768 is not in it. During
the GET write to socket 32768 the kernel evicts a batch of 128 entries, those
of the fds below 128, as the LRU hash map does. The write emits nothing and
stores its request. Not only the least recently used key is removed: the
request of socket 1 is gone as well. And the read of 200 bytes from fd 0, the
evicted key, by thread 32767 emits an event, with fd 32767, from the entry the
failed read left in `active_reads`. -/
theorem C12_counterexample :
    (run State.init (ex_writes ACTIVE_L7_REQUESTS_MAX ++
        ex_failed_read (ACTIVE_L7_REQUESTS_MAX - 1))).1.active_l7_requests.length =
        ACTIVE_L7_REQUESTS_MAX ∧
      (run State.init (ex_writes ACTIVE_L7_REQUESTS_MAX ++
        ex_failed_read (ACTIVE_L7_REQUESTS_MAX - 1))).1.active_l7_requests.getLast? =
        some (ex_entry 0) ∧
      map_lookup (ex_entry ACTIVE_L7_REQUESTS_MAX).1
        (run State.init (ex_writes ACTIVE_L7_REQUESTS_MAX ++
          ex_failed_read (ACTIVE_L7_REQUESTS_MAX - 1))).1.active_l7_requests = none ∧
      map_lookup (ex_entry 1).1
        (run State.init (ex_writes ACTIVE_L7_REQUESTS_MAX ++
          ex_failed_read (ACTIVE_L7_REQUESTS_MAX - 1))).1.active_l7_requests =
          some (ex_entry 1).2 ∧
      (sys_enter_write (ex_env_write_evicting ACTIVE_L7_REQUESTS_MAX)
        (ex_session ACTIVE_L7_REQUESTS_MAX).w
        (run State.init (ex_writes ACTIVE_L7_REQUESTS_MAX ++
          ex_failed_read (ACTIVE_L7_REQUESTS_MAX - 1))).1).emitted = [] ∧
      map_lookup (ex_entry ACTIVE_L7_REQUESTS_MAX).1
        (sys_enter_write (ex_env_write_evicting ACTIVE_L7_REQUESTS_MAX)
          (ex_session ACTIVE_L7_REQUESTS_MAX).w
          (run State.init (ex_writes ACTIVE_L7_REQUESTS_MAX ++
            ex_failed_read (ACTIVE_L7_REQUESTS_MAX - 1))).1).state.active_l7_requests =
          some (ex_entry ACTIVE_L7_REQUESTS_MAX).2 ∧
      map_lookup (ex_entry 0).1
        (sys_enter_write (ex_env_write_evicting ACTIVE_L7_REQUESTS_MAX)
          (ex_session ACTIVE_L7_REQUESTS_MAX).w
          (run State.init (ex_writes ACTIVE_L7_REQUESTS_MAX ++
            ex_failed_read (ACTIVE_L7_REQUESTS_MAX - 1))).1).state.active_l7_requests =
          none ∧
      map_lookup (ex_entry 1).1
        (sys_enter_write (ex_env_write_evicting ACTIVE_L7_REQUESTS_MAX)
          (ex_session ACTIVE_L7_REQUESTS_MAX).w
          (run State.init (ex_writes ACTIVE_L7_REQUESTS_MAX ++
            ex_failed_read (ACTIVE_L7_REQUESTS_MAX - 1))).1).state.active_l7_requests =
          none ∧
      mk_socket_key (ex_session (ACTIVE_L7_REQUESTS_MAX - 1)).er.pid_tgid
        (ex_session 0).r.fd = (ex_entry 0).1 ∧
      (run (sys_enter_write (ex_env_write_evicting ACTIVE_L7_REQUESTS_MAX)
        (ex_session ACTIVE_L7_REQUESTS_MAX).w
        (run State.init (ex_writes ACTIVE_L7_REQUESTS_MAX ++
          ex_failed_read (ACTIVE_L7_REQUESTS_MAX - 1))).1).state
        (ex_read_fd0 (ACTIVE_L7_REQUESTS_MAX - 1))).2.map (fun e => e.fd) =
        [(ex_session (ACTIVE_L7_REQUESTS_MAX - 1)).w.fd] :=
  ex_eviction_run (ACTIVE_L7_REQUESTS_MAX - 1) ACTIVE_L7_REQUESTS_MAX (by decide) rfl

/-- C12, amended. No handler makes the table hold more than 32768 entries. A
GET-prefixed write to a table that holds 32768 entries emits nothing and stores
its request under its key; the other entries left are entries the table had, in
their order and fewer than before, so that at least one entry is removed: which
ones, and how many, is the choice of the kernel map. Another key holds
afterwards what it held or nothing. A read-entry on a key that holds nothing
afterwards, by a context without an entry in `active_reads`, and the read-exit
of that context emit no event. -/
theorem C12_eviction_is_silent
    (s : State) (env : Env) (ctx : trace_event_raw_sys_enter_write)
    (hget : get_prefixed_write env ctx)
    (hfull : s.active_l7_requests.length = ACTIVE_L7_REQUESTS_MAX) :
    (∀ (s₀ : State) (c : Call), s₀.active_l7_requests.length ≤ ACTIVE_L7_REQUESTS_MAX →
        (step s₀ c).state.active_l7_requests.length ≤ ACTIVE_L7_REQUESTS_MAX) ∧
      (∀ calls, (run State.init calls).1.active_l7_requests.length ≤ ACTIVE_L7_REQUESTS_MAX) ∧
      (sys_enter_write env ctx s).emitted = [] ∧
      map_lookup (mk_socket_key env.pid_tgid ctx.fd)
        (sys_enter_write env ctx s).state.active_l7_requests = some (get_request env ctx) ∧
      (∃ rest, (sys_enter_write env ctx s).state.active_l7_requests =
          (mk_socket_key env.pid_tgid ctx.fd, get_request env ctx) :: rest ∧
        rest.Sublist s.active_l7_requests ∧ rest.length < s.active_l7_requests.length) ∧
      (∀ k, k ≠ mk_socket_key env.pid_tgid ctx.fd →
        map_lookup k (sys_enter_write env ctx s).state.active_l7_requests =
            map_lookup k s.active_l7_requests ∨
          map_lookup k (sys_enter_write env ctx s).state.active_l7_requests = none) ∧
      (sys_enter_write env ctx s).state.active_reads = s.active_reads ∧
      ∀ (er ex : Env) (r : trace_event_raw_sys_enter_read) (x : trace_event_raw_sys_exit_read),
        map_lookup (mk_socket_key er.pid_tgid r.fd)
          (sys_enter_write env ctx s).state.active_l7_requests = none →
        ex.pid_tgid = er.pid_tgid → map_lookup er.pid_tgid s.active_reads = none →
        (run (sys_enter_write env ctx s).state [.enter_read er r, .exit_read ex x]).2 = [] := by
  have hcls : classified_get env ctx := classified_get_of_get_prefixed hget
  refine ⟨step_requests_length_le,
    fun calls => run_requests_length_le calls State.init (Nat.zero_le _),
    sys_enter_write_emitted env ctx s, map_lookup_after_get_write s hcls, ?_,
    fun k hk => sys_enter_write_requests_lookup_ne_or env ctx s hk,
    sys_enter_write_active_reads env ctx s, fun er ex r x hgone hctx hid => ?_⟩
  · obtain ⟨rest, h1, h2, h3⟩ := lru_update_sublist ACTIVE_L7_REQUESTS_MAX env.lru_evict
      (mk_socket_key env.pid_tgid ctx.fd) (get_request env ctx) s.active_l7_requests
    refine ⟨rest, by rw [sys_enter_write_requests_of_get s hcls, h1], h2, ?_⟩
    rw [hfull]
    exact lt_of_le_of_lt h3 (by decide)
  · exact read_pair_of_untracked x hgone hctx
      (by rw [sys_enter_write_active_reads]; exact hid)

/-- The amended C12 at the table that holds the requests of the sockets 0,
..., 32767 of process 100: during the GET write to socket 32768 the kernel
evicts the entries of the fds below 128. The write emits nothing and stores its
request, and the read of 200 bytes from fd 0 by thread 0 that follows emits
nothing. -/
theorem C12_witness :
    (run State.init (ex_writes ACTIVE_L7_REQUESTS_MAX)).1.active_l7_requests.length =
        ACTIVE_L7_REQUESTS_MAX ∧
      map_lookup (mk_socket_key (ex_env_write_evicting ACTIVE_L7_REQUESTS_MAX).pid_tgid
          (ex_session ACTIVE_L7_REQUESTS_MAX).w.fd)
        (run State.init (ex_writes ACTIVE_L7_REQUESTS_MAX)).1.active_l7_requests = none ∧
      (sys_enter_write (ex_env_write_evicting ACTIVE_L7_REQUESTS_MAX)
        (ex_session ACTIVE_L7_REQUESTS_MAX).w
        (run State.init (ex_writes ACTIVE_L7_REQUESTS_MAX)).1).emitted = [] ∧
      map_lookup (mk_socket_key (ex_env_write_evicting ACTIVE_L7_REQUESTS_MAX).pid_tgid
          (ex_session ACTIVE_L7_REQUESTS_MAX).w.fd)
        (sys_enter_write (ex_env_write_evicting ACTIVE_L7_REQUESTS_MAX)
          (ex_session ACTIVE_L7_REQUESTS_MAX).w
          (run State.init (ex_writes ACTIVE_L7_REQUESTS_MAX)).1).state.active_l7_requests =
        some (get_request (ex_env_write_evicting ACTIVE_L7_REQUESTS_MAX)
          (ex_session ACTIVE_L7_REQUESTS_MAX).w) ∧
      (run (sys_enter_write (ex_env_write_evicting ACTIVE_L7_REQUESTS_MAX)
        (ex_session ACTIVE_L7_REQUESTS_MAX).w
        (run State.init (ex_writes ACTIVE_L7_REQUESTS_MAX)).1).state
        [.enter_read (ex_session 0).er (ex_session 0).r,
          .exit_read (ex_session 0).ex (ex_session 0).x]).2 = [] :=
  have hs := ex_full_table ACTIVE_L7_REQUESTS_MAX rfl
  have h := C12_eviction_is_silent (run State.init (ex_writes ACTIVE_L7_REQUESTS_MAX)).1
    (ex_env_write_evicting ACTIVE_L7_REQUESTS_MAX) (ex_session ACTIVE_L7_REQUESTS_MAX).w
    hs.1 hs.2.2.1
  ⟨hs.2.2.1, hs.2.1, h.2.2.1, h.2.2.2.1, h.2.2.2.2.2.2.2 (ex_session 0).er (ex_session 0).ex (ex_session 0).r
    (ex_session 0).x hs.2.2.2.1 (ex_session_exit_id 0) hs.2.2.2.2⟩

/-! ### C13 -/

/-- C13, counterexample. After the GET write to fd 5 and the read-entry on
fd 5, the read-exit of that context with `-EAGAIN` leaves the entry of the
context in `active_reads`. And with two threads reading fd 5, once the first
read-exit has consumed the request, the read-exit of the second thread, which
returns 200 bytes, leaves the entry of the second thread in `active_reads`. -/
theorem C13_counterexample :
    (map_lookup ex_env_exit.pid_tgid
        (sys_exit_read ex_env_exit ex_exit_eagain ex_state_reading).state.active_reads).isSome
        = true ∧
      (map_lookup ex_env_exit_b.pid_tgid
        (sys_exit_read ex_env_exit_b ex_exit ex_state_two_readers).state.active_reads).isSome
        = true := by
  set_option maxRecDepth 100000 in decide

/-- C13, amended. After `sys_exit_read` by a context, `active_reads` holds no
entry for the context exactly when the call was a full match (positive return
value, an entry for the context, a request under its key) or there was no entry
before. A call that is not a full match leaves `active_reads` as it was, so an
entry of the context stays after a return value at most 0 and after a read
whose request is gone. -/
theorem C13_read_entry_removed_iff_match
    (s : State) (env : Env) (ctx : trace_event_raw_sys_exit_read) :
    (map_lookup env.pid_tgid (sys_exit_read env ctx s).state.active_reads = none ↔
        (full_match env ctx s ∨ map_lookup env.pid_tgid s.active_reads = none)) ∧
      (¬ full_match env ctx s →
        (sys_exit_read env ctx s).state.active_reads = s.active_reads) := by
  by_cases hm : full_match env ctx s
  · obtain ⟨hret, read_info, h1, req, h2⟩ := hm
    refine ⟨⟨fun _ => Or.inl ⟨hret, read_info, h1, req, h2⟩, fun _ => ?_⟩,
      fun h => absurd ⟨hret, read_info, h1, req, h2⟩ h⟩
    rw [sys_exit_read_of_match hret h1 h2]
    exact map_lookup_delete_self _ _
  · rw [sys_exit_read_of_not_match hm]
    exact ⟨⟨fun h => Or.inr h, fun h => h.resolve_left hm⟩, fun _ => rfl⟩

/-! ### C14 -/

/-- C14. When `sys_exit_read` matches, the state it leaves, both tables
included, is the same whether `bpf_perf_event_output` accepts the record or
not: in both cases the entry of the context and the request under its key are
gone, the record is handed over once, and the handler returns 0. Only what the
channel delivers differs. -/
theorem C14_emission_is_fire_and_forget
    (s : State) (env : Env) (ctx : trace_event_raw_sys_exit_read) (read_info : read_args)
    (req : l7_request) (hret : 0 < ctx.ret)
    (h1 : map_lookup env.pid_tgid s.active_reads = some read_info)
    (h2 : map_lookup (mk_socket_key env.pid_tgid read_info.fd) s.active_l7_requests =
      some req) :
    (sys_exit_read { env with perf_ok := true } ctx s).state =
        (sys_exit_read { env with perf_ok := false } ctx s).state ∧
      (sys_exit_read { env with perf_ok := true } ctx s).state.active_reads =
        map_delete env.pid_tgid s.active_reads ∧
      (sys_exit_read { env with perf_ok := true } ctx s).state.active_l7_requests =
        map_delete (mk_socket_key env.pid_tgid read_info.fd) s.active_l7_requests ∧
      map_lookup env.pid_tgid
        (sys_exit_read { env with perf_ok := false } ctx s).state.active_reads = none ∧
      map_lookup (mk_socket_key env.pid_tgid read_info.fd)
        (sys_exit_read { env with perf_ok := false } ctx s).state.active_l7_requests = none ∧
      (sys_exit_read { env with perf_ok := true } ctx s).ret = 0 ∧
      (sys_exit_read { env with perf_ok := false } ctx s).ret = 0 ∧
      (sys_exit_read { env with perf_ok := true } ctx s).emitted =
        (sys_exit_read { env with perf_ok := false } ctx s).emitted ∧
      (sys_exit_read { env with perf_ok := false } ctx s).emitted.length = 1 ∧
      (sys_exit_read { env with perf_ok := true } ctx s).delivered =
        (sys_exit_read { env with perf_ok := true } ctx s).emitted ∧
      (sys_exit_read { env with perf_ok := false } ctx s).delivered = [] := by
  have ht := @sys_exit_read_of_match { env with perf_ok := true } ctx s read_info req hret h1 h2
  have hf := @sys_exit_read_of_match { env with perf_ok := false } ctx s read_info req hret h1 h2
  rw [ht, hf]
  refine ⟨rfl, rfl, rfl, map_lookup_delete_self _ _, map_lookup_delete_self _ _, rfl, rfl, rfl,
    rfl, rfl, rfl⟩

/-- C14 at the read-exit of the example of the specification. -/
theorem C14_witness :
    (sys_exit_read { ex_env_exit with perf_ok := true } ex_exit ex_state_reading).state =
        (sys_exit_read { ex_env_exit with perf_ok := false } ex_exit ex_state_reading).state ∧
      (sys_exit_read { ex_env_exit with perf_ok := true } ex_exit ex_state_reading).ret = 0 ∧
      (sys_exit_read { ex_env_exit with perf_ok := false } ex_exit ex_state_reading).ret = 0 ∧
      (sys_exit_read { ex_env_exit with perf_ok := false } ex_exit
        ex_state_reading).emitted.length = 1 ∧
      (sys_exit_read { ex_env_exit with perf_ok := false } ex_exit
        ex_state_reading).delivered = [] :=
  have h := C14_emission_is_fire_and_forget ex_state_reading ex_env_exit ex_exit
    { fd := ex_read.fd, buf := ex_read.buf, size := ex_read.count }
    (get_request ex_env_write ex_write) (by decide) (by decide)
    (by set_option maxRecDepth 100000 in decide)
  ⟨h.1, h.2.2.2.2.2.1, h.2.2.2.2.2.2.1, h.2.2.2.2.2.2.2.2.1, h.2.2.2.2.2.2.2.2.2.2⟩

/-! ### C15 -/

/-- C15, counterexample. After the writes of 10241 sockets of process 100 and
the read-entries of the first 10240 of them, each by a thread of its own,
`active_reads` is full. Socket 10240 has its request pending, yet after the
read-entry on it by thread 10240 `active_reads` holds no entry for that
context. -/
theorem C15_counterexample :
    (map_lookup (mk_socket_key (ex_session ACTIVE_READS_MAX).er.pid_tgid
        (ex_session ACTIVE_READS_MAX).r.fd)
        (run State.init (interleave ex_session
          (List.range (ACTIVE_READS_MAX + 1) ++ List.range ACTIVE_READS_MAX)
          (fun _ => 0))).1.active_l7_requests).isSome = true ∧
      map_lookup (ex_session ACTIVE_READS_MAX).er.pid_tgid
        (sys_enter_read (ex_session ACTIVE_READS_MAX).er (ex_session ACTIVE_READS_MAX).r
          (run State.init (interleave ex_session
            (List.range (ACTIVE_READS_MAX + 1) ++ List.range ACTIVE_READS_MAX)
            (fun _ => 0))).1).state.active_reads = none := by
  obtain ⟨h1, h2, -⟩ := ex_last_read_not_stashed ACTIVE_READS_MAX rfl
  refine ⟨by rw [h1]; rfl, ?_⟩
  rw [h2]
  apply map_lookup_eq_none_of_forall_ne
  intro p hp
  obtain ⟨i, hi, rfl⟩ := List.mem_map.mp hp
  exact ex_session_ids_ne (Nat.ne_of_lt (List.mem_range.mp (List.mem_reverse.mp hi)))

/-- C15, amended. A read-entry on a key that has a pending request emits
nothing, leaves the contents of the table and every other entry of
`active_reads` as they were, and, when `active_reads` holds an entry for the
context already or holds fewer than 10240 entries, leaves exactly one entry for
the context, `{fd, buf, count}` of this read. When `active_reads` is full and
has no entry for the context, it is left as it was. -/
theorem C15_read_entry_stashes_when_room
    (s : State) (env : Env) (ctx : trace_event_raw_sys_enter_read) (req : l7_request)
    (htracked : map_lookup (mk_socket_key env.pid_tgid ctx.fd) s.active_l7_requests =
      some req) :
    (sys_enter_read env ctx s).emitted = [] ∧
      (∀ k, map_lookup k (sys_enter_read env ctx s).state.active_l7_requests =
        map_lookup k s.active_l7_requests) ∧
      (∀ id, id ≠ env.pid_tgid →
        map_lookup id (sys_enter_read env ctx s).state.active_reads =
          map_lookup id s.active_reads) ∧
      ((map_lookup env.pid_tgid s.active_reads).isSome ∨
          s.active_reads.length < ACTIVE_READS_MAX →
        map_lookup env.pid_tgid (sys_enter_read env ctx s).state.active_reads =
            some { fd := ctx.fd, buf := ctx.buf, size := ctx.count } ∧
          map_count env.pid_tgid (sys_enter_read env ctx s).state.active_reads = 1) ∧
      (map_lookup env.pid_tgid s.active_reads = none →
          ACTIVE_READS_MAX ≤ s.active_reads.length →
        (sys_enter_read env ctx s).state.active_reads = s.active_reads) := by
  refine ⟨sys_enter_read_emitted env ctx s, sys_enter_read_requests_lookup env ctx s,
    fun id h => sys_enter_read_reads_ne env ctx s h, fun hroom => ?_, fun hnone hfull => ?_⟩
  · rw [sys_enter_read_reads_of_tracked htracked]
    exact ⟨map_lookup_hash_update_self _ hroom, map_count_hash_update_self _ hroom⟩
  · rw [sys_enter_read_reads_of_tracked htracked]
    exact hash_update_of_full _ hnone hfull

/-- The amended C15 at the read-entry of the example of the specification. -/
theorem C15_witness :
    (sys_enter_read ex_env_read ex_read
        (run State.init [.enter_write ex_env_write ex_write]).1).emitted = [] ∧
      map_lookup ex_env_read.pid_tgid (sys_enter_read ex_env_read ex_read
        (run State.init [.enter_write ex_env_write ex_write]).1).state.active_reads =
          some { fd := 5, buf := 8192, size := 1024 } :=
  have h := C15_read_entry_stashes_when_room
    (run State.init [.enter_write ex_env_write ex_write]).1 ex_env_read ex_read
    (get_request ex_env_write ex_write) (by set_option maxRecDepth 100000 in decide)
  ⟨h.1, (h.2.2.2.1 (by decide)).1⟩

/-! ### C16 -/

/-- C17, as stated, fails. After the GET writes to 32641 sockets the table is
below its capacity of 32768. During the GET write to one more socket the kernel
evicts a batch of 128 entries, those of the fds below 128, as the LRU hash map
does before it is full when its free lists are spread over the CPUs: the request
pending under the key of fd 0, which is not the key written, is gone. -/
theorem C17_counterexample :
    (run State.init (ex_writes (ACTIVE_L7_REQUESTS_MAX - 127))).1.active_l7_requests.length <
        ACTIVE_L7_REQUESTS_MAX ∧
      (ex_entry 0).1 ≠
        mk_socket_key (ex_env_write_evicting (ACTIVE_L7_REQUESTS_MAX - 127)).pid_tgid
          (ex_session (ACTIVE_L7_REQUESTS_MAX - 127)).w.fd ∧
      map_lookup (ex_entry 0).1
        (run State.init (ex_writes (ACTIVE_L7_REQUESTS_MAX - 127))).1.active_l7_requests =
        some (ex_entry 0).2 ∧
      map_lookup (ex_entry 0).1
        (sys_enter_write (ex_env_write_evicting (ACTIVE_L7_REQUESTS_MAX - 127))
          (ex_session (ACTIVE_L7_REQUESTS_MAX - 127)).w
          (run State.init
            (ex_writes (ACTIVE_L7_REQUESTS_MAX - 127))).1).state.active_l7_requests = none :=
  ex_eviction_below_capacity (ACTIVE_L7_REQUESTS_MAX - 127) (by decide)

/-- C17, amended. In a state whose table `active_l7_requests` is below
capacity: `sys_enter_write` leaves `active_reads` as it was and changes the
table at most under its own key and by what the kernel evicts at the insertion:
another key holds afterwards what it held or nothing, and what it held when the
kernel does not evict its entry; `sys_enter_read` changes `active_reads` at most under the
context id and leaves the contents of the table as they were; `sys_exit_read`
changes `active_reads` at most under the context id, and the table not at all
when `active_reads` has no entry for the context, and otherwise at most under
the key made of the pid of the context and the fd of that entry. -/
theorem C17_frame_of_the_handlers
    (s : State) (hcap : s.active_l7_requests.length < ACTIVE_L7_REQUESTS_MAX) :
    (∀ (env : Env) (ctx : trace_event_raw_sys_enter_write),
        (sys_enter_write env ctx s).state.active_reads = s.active_reads ∧
        ∀ k, k ≠ mk_socket_key env.pid_tgid ctx.fd →
          (map_lookup k (sys_enter_write env ctx s).state.active_l7_requests =
              map_lookup k s.active_l7_requests ∨
            map_lookup k (sys_enter_write env ctx s).state.active_l7_requests = none) ∧
          (env.lru_evict k = false →
            map_lookup k (sys_enter_write env ctx s).state.active_l7_requests =
              map_lookup k s.active_l7_requests)) ∧
    (∀ (env : Env) (ctx : trace_event_raw_sys_enter_read),
        (∀ id, id ≠ env.pid_tgid →
          map_lookup id (sys_enter_read env ctx s).state.active_reads =
            map_lookup id s.active_reads) ∧
        ∀ k, map_lookup k (sys_enter_read env ctx s).state.active_l7_requests =
          map_lookup k s.active_l7_requests) ∧
    (∀ (env : Env) (ctx : trace_event_raw_sys_exit_read),
        (∀ id, id ≠ env.pid_tgid →
          map_lookup id (sys_exit_read env ctx s).state.active_reads =
            map_lookup id s.active_reads) ∧
        (map_lookup env.pid_tgid s.active_reads = none →
          (sys_exit_read env ctx s).state = s) ∧
        ∀ read_info, map_lookup env.pid_tgid s.active_reads = some read_info →
          ∀ k, k ≠ mk_socket_key env.pid_tgid read_info.fd →
            map_lookup k (sys_exit_read env ctx s).state.active_l7_requests =
              map_lookup k s.active_l7_requests) := by
  refine ⟨fun env ctx => ⟨sys_enter_write_active_reads env ctx s, fun k hk => ?_⟩,
    fun env ctx => ⟨fun id h => sys_enter_read_reads_ne env ctx s h,
      sys_enter_read_requests_lookup env ctx s⟩,
    fun env ctx => ⟨fun id h => sys_exit_read_reads_ne env ctx s h, fun hnone => ?_,
      fun read_info h1 k hk => sys_exit_read_requests_ne env ctx h1 hk⟩⟩
  · exact ⟨sys_enter_write_requests_lookup_ne_or env ctx s hk,
      sys_enter_write_requests_lookup_ne env ctx hcap hk⟩
  · rw [sys_exit_read_of_no_read hnone]

/-- C17 in the state after the GET write to fd 5 and the read-entry on fd 5:
the GET write to fd 7 leaves the request of fd 5, and the read-exit of the
reading context leaves what another key and another context hold. -/
theorem C17_witness :
    map_lookup (mk_socket_key ex_id 5)
        (sys_enter_write ex_env_write ex_write_fd7 ex_state_reading).state.active_l7_requests =
      map_lookup (mk_socket_key ex_id 5) ex_state_reading.active_l7_requests ∧
    map_lookup (mk_socket_key ex_id 7)
        (sys_exit_read ex_env_exit ex_exit ex_state_reading).state.active_l7_requests =
      map_lookup (mk_socket_key ex_id 7) ex_state_reading.active_l7_requests ∧
    map_lookup ex_id_b (sys_exit_read ex_env_exit ex_exit ex_state_reading).state.active_reads =
      map_lookup ex_id_b ex_state_reading.active_reads :=
  have h := C17_frame_of_the_handlers ex_state_reading (by decide)
  ⟨((h.1 ex_env_write ex_write_fd7).2 _ (by decide)).2 rfl,
    (h.2.2 ex_env_exit ex_exit).2.2 { fd := 5, buf := 8192, size := 1024 }
      (by decide) _ (by decide),
    (h.2.2 ex_env_exit ex_exit).1 _ (by decide)⟩

/-! ### C18 -/

/-- C18. Two runs of a read-entry followed by a read-exit, from the same
state, by the same context on the same fd, on the same CPU and with the same
read-exit time, emit the same events, whatever the buffer references, the
requested sizes, the memories and the positive return values of the two runs;
when the read-exit of the first run matches, both runs emit one and the same
event. -/
theorem C18_response_never_influences_event
    (s : State) (er₁ er₂ ex₁ ex₂ : Env) (r₁ r₂ : trace_event_raw_sys_enter_read)
    (x₁ x₂ : trace_event_raw_sys_exit_read)
    (hid : er₁.pid_tgid = er₂.pid_tgid) (hfd : r₁.fd = r₂.fd)
    (hxid : ex₁.pid_tgid = ex₂.pid_tgid) (ht : ex₁.ktime_ns = ex₂.ktime_ns)
    (hcpu : ex₁.cpu = ex₂.cpu) (h₁ : 0 < x₁.ret) (h₂ : 0 < x₂.ret) :
    (run s [.enter_read er₁ r₁, .exit_read ex₁ x₁]).2 =
        (run s [.enter_read er₂ r₂, .exit_read ex₂ x₂]).2 ∧
      (full_match ex₁ x₁ (sys_enter_read er₁ r₁ s).state →
        ∃ e, (run s [.enter_read er₁ r₁, .exit_read ex₁ x₁]).2 = [e] ∧
          (run s [.enter_read er₂ r₂, .exit_read ex₂ x₂]).2 = [e]) := by
  have heq := read_pair_emitted_congr s er₁ er₂ ex₁ ex₂ r₁ r₂ x₁ x₂ hid hfd hxid ht hcpu h₁ h₂
  refine ⟨heq, fun hm => ?_⟩
  obtain ⟨hret, read_info, ha, req, hr⟩ := hm
  have hone : (run s [.enter_read er₁ r₁, .exit_read ex₁ x₁]).2 =
      [make_event ((sys_enter_read er₁ r₁ s).state.l7_event_heap ex₁.cpu)
        (mk_socket_key ex₁.pid_tgid read_info.fd) req ex₁.ktime_ns] := by
    simp only [run_cons, run_nil, step, sys_enter_read_emitted,
      sys_exit_read_of_match hret ha hr, List.nil_append, List.append_nil]
  exact ⟨_, hone, heq ▸ hone⟩

/-- C18 after the GET write to fd 5: the read into address 8192 that returns
200 bytes and the read into address 12288 of up to 64 bytes that returns 18
bytes give the same single event. -/
theorem C18_witness :
    (run (run State.init [.enter_write ex_env_write ex_write]).1
        [.enter_read ex_env_read ex_read, .exit_read ex_env_exit ex_exit]).2 =
      (run (run State.init [.enter_write ex_env_write ex_write]).1
        [.enter_read ex_env_read_other { fd := 5, buf := 12288, count := 64 },
          .exit_read ex_env_exit_other { ret := 18 }]).2 :=
  (C18_response_never_influences_event _ ex_env_read ex_env_read_other ex_env_exit
    ex_env_exit_other ex_read { fd := 5, buf := 12288, count := 64 } ex_exit { ret := 18 }
    (by decide) (by decide) (by decide) (by decide) (by decide) (by decide) (by decide)).1

/-! ### C19 -/

/-- C19. From empty tables, a write that starts with `GET` on an fd by
context `id1`, then a read-entry on that fd and its read-exit with a positive
return value by context `id2`: an event is emitted exactly when the upper 32
bits of the two ids agree, and its pid is then `id2 >> 32` and its fd the fd of
the write. `active_reads` is keyed by the whole id: a read-exit by any other
context, a thread of the same process included, emits nothing. A call by a
context of another pid never gives the key of the write another value,
whatever the fd it uses, in every state: a read-entry and a read-exit leave
what the key holds, and after a write the key holds what it held or, its entry
evicted, nothing (what it held when the table is below capacity and the kernel
does not evict the entry). -/
theorem C19_keyed_by_process_not_thread
    (s : State) (ew er ex : Env) (w : trace_event_raw_sys_enter_write)
    (r : trace_event_raw_sys_enter_read) (x : trace_event_raw_sys_exit_read)
    (hs₁ : s.active_l7_requests = []) (hs₂ : s.active_reads = [])
    (hget : get_prefixed_write ew w) (hfd : r.fd = w.fd)
    (hid₁ : ew.pid_tgid < 2 ^ 64) (hid₂ : er.pid_tgid < 2 ^ 64) (hret : 0 < x.ret) :
    (ex.pid_tgid = er.pid_tgid →
        ((run s [.enter_write ew w, .enter_read er r, .exit_read ex x]).2 ≠ [] ↔
          ew.pid_tgid >>> 32 = er.pid_tgid >>> 32) ∧
        ∀ e ∈ (run s [.enter_write ew w, .enter_read er r, .exit_read ex x]).2,
          e.pid = er.pid_tgid >>> 32 ∧ e.fd = w.fd) ∧
      (ex.pid_tgid ≠ er.pid_tgid →
        (run s [.enter_write ew w, .enter_read er r, .exit_read ex x]).2 = []) ∧
      (ew.pid_tgid >>> 32 ≠ er.pid_tgid >>> 32 →
        map_lookup (mk_socket_key ew.pid_tgid w.fd)
          (run s [.enter_write ew w, .enter_read er r, .exit_read ex x]).1.active_l7_requests =
            some (get_request ew w)) ∧
      ∀ (s' : State) (env : Env), env.pid_tgid < 2 ^ 64 →
        ew.pid_tgid >>> 32 ≠ env.pid_tgid >>> 32 →
        (∀ ctx : trace_event_raw_sys_enter_write,
          (map_lookup (mk_socket_key ew.pid_tgid w.fd)
              (sys_enter_write env ctx s').state.active_l7_requests =
                map_lookup (mk_socket_key ew.pid_tgid w.fd) s'.active_l7_requests ∨
            map_lookup (mk_socket_key ew.pid_tgid w.fd)
              (sys_enter_write env ctx s').state.active_l7_requests = none) ∧
          (s'.active_l7_requests.length < ACTIVE_L7_REQUESTS_MAX →
            env.lru_evict (mk_socket_key ew.pid_tgid w.fd) = false →
            map_lookup (mk_socket_key ew.pid_tgid w.fd)
              (sys_enter_write env ctx s').state.active_l7_requests =
                map_lookup (mk_socket_key ew.pid_tgid w.fd) s'.active_l7_requests)) ∧
        (∀ ctx : trace_event_raw_sys_enter_read,
          map_lookup (mk_socket_key ew.pid_tgid w.fd)
            (sys_enter_read env ctx s').state.active_l7_requests =
              map_lookup (mk_socket_key ew.pid_tgid w.fd) s'.active_l7_requests) ∧
        (∀ ctx : trace_event_raw_sys_exit_read,
          map_lookup (mk_socket_key ew.pid_tgid w.fd)
            (sys_exit_read env ctx s').state.active_l7_requests =
              map_lookup (mk_socket_key ew.pid_tgid w.fd) s'.active_l7_requests) := by
  have hcls : classified_get ew w := classified_get_of_get_prefixed hget
  have hreads : (sys_enter_write ew w s).state.active_reads = [] := by
    rw [sys_enter_write_active_reads]; exact hs₂
  have hwreq : map_lookup (mk_socket_key ew.pid_tgid w.fd)
      (sys_enter_write ew w s).state.active_l7_requests = some (get_request ew w) :=
    map_lookup_after_get_write s hcls
  -- a read on another key finds nothing after the write
  have hother : ew.pid_tgid >>> 32 ≠ er.pid_tgid >>> 32 →
      map_lookup (mk_socket_key er.pid_tgid r.fd)
        (sys_enter_write ew w s).state.active_l7_requests = none := by
    intro hne
    rcases sys_enter_write_requests_lookup_ne_or ew w s
      (mk_socket_key_ne_of_pid_ne _ _ hid₂ hid₁ (Ne.symm hne)) with h | h
    · rw [h, hs₁]; rfl
    · exact h
  have hsame : ew.pid_tgid >>> 32 = er.pid_tgid >>> 32 →
      map_lookup (mk_socket_key er.pid_tgid r.fd)
        (sys_enter_write ew w s).state.active_l7_requests = some (get_request ew w) := by
    intro he
    have hk : mk_socket_key er.pid_tgid r.fd = mk_socket_key ew.pid_tgid w.fd := by
      simp only [mk_socket_key, he, hfd]
    rw [hk]; exact hwreq
  have hroom : (map_lookup er.pid_tgid (sys_enter_write ew w s).state.active_reads).isSome ∨
      (sys_enter_write ew w s).state.active_reads.length < ACTIVE_READS_MAX := by
    rw [hreads]; exact Or.inr (by decide)
  -- the events of the three calls, by cases on the pids
  have hemit_ne : ew.pid_tgid >>> 32 ≠ er.pid_tgid >>> 32 →
      (run s [.enter_write ew w, .enter_read er r, .exit_read ex x]).2 = [] := by
    intro hne
    have hnr : map_lookup ex.pid_tgid (sys_enter_write ew w s).state.active_reads = none := by
      rw [hreads]; rfl
    simp only [run_cons, run_nil, step, sys_enter_write_emitted,
      sys_enter_read_of_untracked (hother hne), sys_exit_read_of_no_read hnr,
      List.nil_append, List.append_nil]
  have hemit_eq : ex.pid_tgid = er.pid_tgid → ew.pid_tgid >>> 32 = er.pid_tgid >>> 32 →
      (run s [.enter_write ew w, .enter_read er r, .exit_read ex x]).2 =
        [make_event ((sys_enter_write ew w s).state.l7_event_heap ex.cpu)
          (mk_socket_key er.pid_tgid r.fd) (get_request ew w) ex.ktime_ns] := by
    intro hctx he
    simp only [run_cons, run_nil, step, sys_enter_write_emitted, sys_enter_read_emitted,
      read_pair_emitted (hsame he) hroom hctx hret, List.nil_append, List.append_nil]
  refine ⟨fun hctx => ⟨⟨fun hne => ?_, fun he => ?_⟩, fun e he => ?_⟩, fun hctx => ?_,
    fun hne => ?_, fun s' env henv hpid => ⟨fun ctx => ⟨?_, fun hcap hev => ?_⟩, fun ctx => ?_, fun ctx => ?_⟩⟩
  · by_contra hp
    exact hne (hemit_ne hp)
  · rw [hemit_eq hctx he]
    exact List.cons_ne_nil _ _
  · by_cases hp : ew.pid_tgid >>> 32 = er.pid_tgid >>> 32
    · rw [hemit_eq hctx hp, List.mem_singleton] at he
      rw [he]
      exact ⟨mk_socket_key_pid_of_lt r.fd hid₂, hfd⟩
    · rw [hemit_ne hp] at he
      exact absurd he (List.not_mem_nil e)
  · -- the read-exit is by another context than the read-entry
    have hnr : map_lookup ex.pid_tgid
        (sys_enter_read er r (sys_enter_write ew w s).state).state.active_reads = none := by
      rw [sys_enter_read_reads_ne er r _ hctx, hreads]
      rfl
    simp only [run_cons, run_nil, step, sys_enter_write_emitted, sys_enter_read_emitted,
      sys_exit_read_of_no_read hnr, List.nil_append, List.append_nil]
  · have hnr : map_lookup ex.pid_tgid (sys_enter_write ew w s).state.active_reads = none := by
      rw [hreads]; rfl
    simp only [run_cons, run_nil, step, sys_enter_read_of_untracked (hother hne),
      sys_exit_read_of_no_read hnr]
    exact hwreq
  · exact sys_enter_write_requests_lookup_ne_or env ctx s'
      (mk_socket_key_ne_of_pid_ne _ _ hid₁ henv hpid)
  · exact sys_enter_write_requests_lookup_ne env ctx hcap
      (mk_socket_key_ne_of_pid_ne _ _ hid₁ henv hpid) hev
  · exact sys_enter_read_requests_lookup env ctx s' _
  · exact sys_exit_read_requests_lookup_of_pid_ne env ctx s' _ hid₁ henv hpid

/-- C19 at the GET write to fd 5 by thread 100 of process 100: the read by
thread 101 of the same process emits an event with pid 100, the read-exit of
thread 100 after the read-entry of thread 101 emits nothing, and the read of
fd 5 by a thread of process 200 emits nothing and leaves the request pending. -/
theorem C19_witness :
    ((run State.init [.enter_write ex_env_write ex_write, .enter_read ex_env_read_b ex_read,
        .exit_read ex_env_exit_b ex_exit]).2 ≠ [] ∧
      ∀ e ∈ (run State.init [.enter_write ex_env_write ex_write,
          .enter_read ex_env_read_b ex_read, .exit_read ex_env_exit_b ex_exit]).2,
        e.pid = 100 ∧ e.fd = 5) ∧
      (run State.init [.enter_write ex_env_write ex_write, .enter_read ex_env_read_b ex_read,
        .exit_read ex_env_exit ex_exit]).2 = [] ∧
      ((run State.init [.enter_write ex_env_write ex_write,
          .enter_read ex_env_read_pid200 ex_read, .exit_read ex_env_exit_pid200 ex_exit]).2 = [] ∧
        map_lookup (mk_socket_key ex_id 5)
          (run State.init [.enter_write ex_env_write ex_write,
            .enter_read ex_env_read_pid200 ex_read,
            .exit_read ex_env_exit_pid200 ex_exit]).1.active_l7_requests =
          some (get_request ex_env_write ex_write)) :=
  have hb := C19_keyed_by_process_not_thread State.init ex_env_write ex_env_read_b
    ex_env_exit_b ex_write ex_read ex_exit rfl rfl (by decide) (by decide) (by decide)
    (by decide) (by decide)
  have ha := C19_keyed_by_process_not_thread State.init ex_env_write ex_env_read_b
    ex_env_exit ex_write ex_read ex_exit rfl rfl (by decide) (by decide) (by decide)
    (by decide) (by decide)
  have hc := C19_keyed_by_process_not_thread State.init ex_env_write ex_env_read_pid200
    ex_env_exit_pid200 ex_write ex_read ex_exit rfl rfl (by decide) (by decide) (by decide)
    (by decide) (by decide)
  ⟨⟨((hb.1 (by decide)).1).mpr (by decide), (hb.1 (by decide)).2⟩, ha.2.1 (by decide),
    ((not_iff_not.mpr (hc.1 (by decide)).1).mpr (by decide) |> not_not.mp),
    hc.2.2.1 (by decide)⟩

end L7
